import Mathlib

/-!
# HAXM core: VM object manager (core/vm.c)

A shallow embedding of `core/vm.c`, followed by theorems about the identifier
bitmap, VM creation and its rollback, the reference-counted lookup and release
of a VM, and VM teardown.

Conventions of the embedding

* A pointer to a `struct vm_t` is a natural number (its address); the memory
  holding VM objects is `World.heap`, where `none` stands for "no live VM
  object at this address".
* The global registry `hax->hax_vmlist` is the list of the addresses linked
  into it, first element first.
* A function that dereferences a VM pointer returns `Option`: `none` stands
  for a memory fault (a dangling pointer, or a read past the end of
  `vm->p2m_map`).
* The header `include/vm.h` and the host primitives (`hax_vmalloc`,
  `hax_mutex_alloc_init`, `ept_init`, ...) lie outside `core/vm.c`.
  Build switches and constants are fields of `Config`; the outcome of every
  host call made by `hax_create_vm` is a field of `create_env`.
* Every call that obtains or gives back a resource is recorded, in program
  order, in `World.trace`.
-/

namespace Haxm

/-! ## Configuration -/

/-- Build switches (`#ifdef`) and constants of `include/vm.h` read by `vm.c`. -/
structure Config where
  /-- The switch `#ifdef HAX_ARCH_X86_32`. -/
  HAX_ARCH_X86_32 : Bool
  /-- The switch `#ifdef CONFIG_HAX_EPT2`. -/
  CONFIG_HAX_EPT2 : Bool
  /-- The number of slots of `vm->p2m_map`. -/
  MAX_GMEM_G : Nat
  HOST_VIRTUAL_ADDR_LIMIT : Nat
  HOST_VIRTUAL_ADDR_RECYCLE : Nat
  /-- The macro `gpfn_to_g`. -/
  gpfn_to_g : Nat → Nat
  /-- The macro `gpfn_in_g`. -/
  gpfn_in_g : Nat → Nat
  /-- The size in bytes behind the number of slots of a window list, which is
  `HVA_MAP_ARRAY_SIZE / 4096` (vm.c:126). -/
  HVA_MAP_ARRAY_SIZE : Nat
  /-- The macro `HAX_PAGE_MASK` (vm.c:639). -/
  HAX_PAGE_MASK : Nat

/-! ## Data model -/

/-- The `struct hax_p2m_entry`: the two fields `vm.c` reads and writes. -/
structure hax_p2m_entry where
  hva : Nat
  hpa : Nat
deriving DecidableEq, Repr

/-- The `struct hva_entry`: one record of a host-virtual-address window. -/
structure hva_entry where
  gpfn : Nat
  hva : Nat
  gcr3 : Nat
  is_kern : Bool
  level : Nat
deriving DecidableEq, Repr

/-- The all-zero record left by `memset` and written by the recyclers
(vm.c:444-448). -/
def hva_entry.zero : hva_entry :=
  { gpfn := 0, hva := 0, gcr3 := 0, is_kern := false, level := 0 }

/-- The `struct vcpu_t`: the fields `vm.c` touches. -/
structure vcpu_t where
  vcpu_id : Int
  ref_count : Int
deriving DecidableEq, Repr

/-- The `struct vm_t`, with the fields `vm.c` touches.  A pointer field that is
only tested against NULL and freed is a `Bool` (`true`: non-NULL / set up);
an array is a function of the index; a NULL array pointer is `none`. -/
structure vm_t where
  vm_id : Int
  ref_count : Int
  flags : Nat
  features : Nat
  vm_host : Nat
  vm_lock : Bool
  vcpu_list : List vcpu_t
  /-- The legacy translation context, set up by `ept_init`. -/
  ept : Bool
  /-- The modern translation context, set up by `gpa_space_init`. -/
  gpa_space : Bool
  /-- The modern translation context, set up by `ept_tree_init`. -/
  ept_tree : Bool
  /-- Whether the listener has been added to `gpa_space`. -/
  gpa_space_listener : Bool
  hva_list : Option (Nat → hva_entry)
  hva_list_1 : Option (Nat → hva_entry)
  hva_index : Nat
  hva_index_1 : Nat
  hva_limit : Nat
  p2m_map : Nat → Option (Nat → hax_p2m_entry)

/-- The object after `memset(hvm, 0, sizeof(struct vm_t))` (vm.c:120). -/
def vm_t.zero : vm_t :=
  { vm_id := 0, ref_count := 0, flags := 0, features := 0, vm_host := 0,
    vm_lock := false, vcpu_list := [], ept := false, gpa_space := false,
    ept_tree := false, gpa_space_listener := false, hva_list := none,
    hva_list_1 := none, hva_index := 0, hva_index_1 := 0, hva_limit := 0,
    p2m_map := fun _ => none }

/-- What a call can obtain or give back.  `p` is the address of the VM. -/
inductive Res where
  /-- A VM identifier (a bit of `vm_mid_bits`). -/
  | vm_mid (id : Int)
  /-- The `struct vm_t` itself. -/
  | vm (p : Nat)
  | hva_list (p : Nat)
  | hva_list_1 (p : Nat)
  /-- The legacy translation context (`ept_init` / `ept_free`). -/
  | ept (p : Nat)
  /-- The gpa space (`gpa_space_init` / `gpa_space_free`). -/
  | gpa_space (p : Nat)
  /-- The EPT tree (`ept_tree_init` / `ept_tree_free`). -/
  | ept_tree (p : Nat)
  /-- The listener (`gpa_space_add_listener` / `gpa_space_remove_listener`). -/
  | gpa_space_listener (p : Nat)
  /-- The VCPU-list lock (`hax_mutex_alloc_init` / `hax_mutex_free`). -/
  | vm_lock (p : Nat)
  /-- The host side of the VM (`hax_vm_create_host` / `hax_vm_destroy_host`). -/
  | vm_host (p : Nat)
  /-- The array `vm->p2m_map[g]`. -/
  | p2m_group (p : Nat) (g : Nat)
  /-- A page mapped by `hax_vmap`, unmapped by `hax_vunmap`. -/
  | mapping (hva : Nat)
deriving DecidableEq, Repr

/-- One entry of the trace: a resource obtained or given back. -/
inductive Ev where
  | acquire (r : Res)
  | release (r : Res)
deriving DecidableEq, Repr

/-- The resources obtained in a trace, in order. -/
def acquired : List Ev → List Res
  | [] => []
  | Ev.acquire r :: t => r :: acquired t
  | Ev.release _ :: t => acquired t

/-- The resources given back in a trace, in order. -/
def released : List Ev → List Res
  | [] => []
  | Ev.acquire _ :: t => released t
  | Ev.release r :: t => r :: released t

/-- The fields of the global `hax` that `vm.c` reads and writes. -/
structure hax_global_data where
  vmx_enable_flag : Bool
  nx_enable_flag : Bool
  hax_vmlist : List Nat
deriving DecidableEq, Repr

/-- The state `vm.c` works on: the global `hax`, the static `vm_mid_bits`,
the VM objects in memory and the trace of resource calls. -/
structure World where
  hax : hax_global_data
  vm_mid_bits : Nat
  heap : Nat → Option vm_t
  trace : List Ev

/-- Append one entry to the trace. -/
def World.log (w : World) (e : Ev) : World :=
  { w with trace := w.trace ++ [e] }

/-- Write a VM object at address `p`. -/
def World.store (w : World) (p : Nat) (vm : vm_t) : World :=
  { w with heap := Function.update w.heap p (some vm) }

/-! ## Host primitives -/

/-- Modelled from the spec: `hax_test_and_set_bit` (host header, outside
`core/vm.c`), the primitive behind "scanning an 8-bit availability bitmap
(first-fit, lowest index)": it sets bit `bit` of the word and returns whether
the bit was set before.  The result is (old bit, new word). -/
def hax_test_and_set_bit (bit : Nat) (mem : Nat) : Bool × Nat :=
  (mem.testBit bit, mem ||| (1 <<< bit))

/-- Modelled from the spec: `hax_test_and_clear_bit` (host header, outside
`core/vm.c`): it clears bit `bit` of the word; the value returned is true
when the bit was already clear, the case `hax_put_vm_mid` warns about
("double-release of an already-free id is rejected/logged and does not
corrupt the bitmap").  The result is (already clear, new word). -/
def hax_test_and_clear_bit (bit : Nat) (mem : Nat) : Bool × Nat :=
  (!mem.testBit bit, mem ^^^ (mem &&& (1 <<< bit)))

/-- Modelled from the spec: `hax_atomic_add` (host header, outside
`core/vm.c`), "atomic increment/decrement-with-result": it returns the value
before the addition.  The result is (value returned, new value).  The type
`hax_atomic_t` is declared in that header; the count is an integer and
no wrap-around is modelled. -/
def hax_atomic_add (v : Int) (d : Int) : Int × Int :=
  (v, v + d)

/-- Modelled from the spec: `hax_atomic_dec` (host header, outside
`core/vm.c`), "atomic increment/decrement-with-result": it returns the value
before the decrement.  The result is (value returned, new value). -/
def hax_atomic_dec (v : Int) : Int × Int :=
  (v, v - 1)

/-- Modelled from the spec: `hax_list_del` (host header, outside
`core/vm.c`), "intrusive doubly-linked list primitives (init, add, remove, ...)":
the node leaves the list it is linked into.  A node is linked at most once. -/
def hax_list_del (p : Nat) (l : List Nat) : List Nat :=
  l.filter (fun q => q ≠ p)

/-- Modelled from the spec: `hax_list_add` (host header, outside
`core/vm.c`): the node is linked right behind the list head. -/
def hax_list_add (p : Nat) (l : List Nat) : List Nat :=
  p :: l

/-! ## Identifier bitmap (vm.c:39-68) -/

/-- The macro `VM_MID_BIT` (vm.c:40). -/
def VM_MID_BIT : Nat := 8

/-- The loop of `get_free_vm_mid` (vm.c:51-54): `n` iterations are left, `i`
is the loop variable. -/
def get_free_vm_mid_loop : Nat → Nat → Nat → Int × Nat
  | 0, _, bits => (-1, bits)
  | n + 1, i, bits =>
    let r := hax_test_and_set_bit i bits
    if !r.1 then ((i : Int), r.2) else get_free_vm_mid_loop n (i + 1) r.2

/-- The function `get_free_vm_mid` (vm.c:47-57) on the value of `vm_mid_bits`: the
identifier returned (or -1) and the new value of `vm_mid_bits`. -/
def get_free_vm_mid (vm_mid_bits : Nat) : Int × Nat :=
  get_free_vm_mid_loop VM_MID_BIT 0 vm_mid_bits

/-- The function `hax_put_vm_mid` (vm.c:59-63) on the value of `vm_mid_bits`: whether the
warning is printed, and the new value of `vm_mid_bits`. -/
def hax_put_vm_mid (id : Int) (vm_mid_bits : Nat) : Bool × Nat :=
  hax_test_and_clear_bit id.toNat vm_mid_bits

/-- The function `valid_vm_mid` (vm.c:65-68). -/
def valid_vm_mid (vm_id : Int) : Bool :=
  decide (vm_id ≥ 0) && decide (vm_id < (VM_MID_BIT : Int))

/-- The call `hax_put_vm_mid(id)` as a step of the state, recorded in the trace. -/
def World.put_vm_mid (w : World) (id : Int) : World :=
  { w with vm_mid_bits := (hax_put_vm_mid id w.vm_mid_bits).2,
           trace := w.trace ++ [Ev.release (Res.vm_mid id)] }

/-! ## VM creation (vm.c:94-198) -/

/-- The outcome of each host call made by `hax_create_vm`, in the order of
the calls.  A call that is not reached, or is compiled out, is not read. -/
structure create_env where
  /-- The address returned by `hax_vmalloc(sizeof(struct vm_t))`, `none` for
  NULL (vm.c:114). -/
  hvm : Option Nat
  /-- Whether `hax_vmalloc` for `hva_list` returns non-NULL (vm.c:126). -/
  hva_list : Bool
  /-- Whether `hax_vmalloc` for `hva_list_1` returns non-NULL (vm.c:134). -/
  hva_list_1 : Bool
  /-- The value returned by `gpa_space_init` (vm.c:144). -/
  gpa_space_init : Int
  /-- The value returned by `ept_tree_init` (vm.c:149). -/
  ept_tree_init : Int
  /-- Whether `ept_init` returns non-zero (vm.c:164). -/
  ept_init : Bool
  /-- Whether `hax_mutex_alloc_init` returns non-NULL (vm.c:168). -/
  vm_lock : Bool
  /-- The value returned by `hax_vm_create_host` (vm.c:172). -/
  hax_vm_create_host : Int
deriving DecidableEq, Repr

/-- What `hax_create_vm` gives back: the pointer returned (`none` for NULL),
the value stored through `vm_id` (`none` when nothing is stored) and the
state afterwards. -/
structure create_result where
  ret : Option Nat
  vm_id : Option Int
  world : World

/-- The end of `hax_create_vm` from the label `fail` on (vm.c:193-197):
`hax_vfree(hvm)`, `hax_put_vm_mid(id)`, `return NULL`. -/
def create_fail (id : Int) (p : Nat) (w : World) : create_result :=
  { ret := none, vm_id := some id,
    world := (w.log (Ev.release (Res.vm p))).put_vm_mid id }

/-- The label `fail00` (vm.c:190-192), falling through to `fail`. -/
def create_fail00 (id : Int) (p : Nat) (w : World) : create_result :=
  create_fail id p (w.log (Ev.release (Res.hva_list p)))

/-- The label `fail0` (vm.c:185-189), falling through to `fail00`; without
`HAX_ARCH_X86_32` the labels `fail00` and `fail` hold no code of their own. -/
def create_fail0 (cfg : Config) (id : Int) (p : Nat) (w : World) : create_result :=
  if cfg.HAX_ARCH_X86_32 then
    create_fail00 id p (w.log (Ev.release (Res.hva_list_1 p)))
  else
    create_fail id p w

/-- The label `fail1` (vm.c:183-184): `ept_free(hvm)`, falling through to
`fail0`. -/
def create_fail1 (cfg : Config) (id : Int) (p : Nat) (w : World) : create_result :=
  create_fail0 cfg id p (w.log (Ev.release (Res.ept p)))

/-- The label `fail2` (vm.c:181-182): `hax_mutex_free(hvm->vm_lock)`, falling
through to `fail1`. -/
def create_fail2 (cfg : Config) (id : Int) (p : Nat) (w : World) : create_result :=
  create_fail1 cfg id p (w.log (Ev.release (Res.vm_lock p)))

/-- The last part of `hax_create_vm` (vm.c:168-180): the VCPU-list lock, the
host side, and the publication of the VM.  `hvm` is the object under
construction; it is written to the heap when the VM is published. -/
def create_lock_host (cfg : Config) (env : create_env) (id : Int) (p : Nat)
    (hvm : vm_t) (w : World) : create_result :=
  if !env.vm_lock then
    create_fail1 cfg id p w
  else
    let hvm1 := { hvm with vm_lock := true, vcpu_list := [] }
    let w1 := w.log (Ev.acquire (Res.vm_lock p))
    if env.hax_vm_create_host < 0 then
      create_fail2 cfg id p w1
    else
      let w2 := w1.log (Ev.acquire (Res.vm_host p))
      let hvm2 := { hvm1 with ref_count := 1 }
      { ret := some p, vm_id := some id,
        world :=
          { w2 with
            hax := { w2.hax with hax_vmlist := hax_list_add p w2.hax.hax_vmlist },
            heap := Function.update w2.heap p (some hvm2) } }

/-- The translation context of `hax_create_vm` (vm.c:143-166). -/
def create_ept (cfg : Config) (env : create_env) (id : Int) (p : Nat)
    (hvm : vm_t) (w : World) : create_result :=
  if cfg.CONFIG_HAX_EPT2 then
    if env.gpa_space_init ≠ 0 then
      create_fail0 cfg id p w
    else
      let hvm1 := { hvm with gpa_space := true }
      let w1 := w.log (Ev.acquire (Res.gpa_space p))
      if env.ept_tree_init ≠ 0 then
        create_fail0 cfg id p w1
      else
        let hvm2 := { hvm1 with ept_tree := true, gpa_space_listener := true }
        let w2 := (w1.log (Ev.acquire (Res.ept_tree p))).log
          (Ev.acquire (Res.gpa_space_listener p))
        create_lock_host cfg env id p hvm2 w2
  else
    if !env.ept_init then
      create_fail0 cfg id p w
    else
      create_lock_host cfg env id p { hvm with ept := true }
        (w.log (Ev.acquire (Res.ept p)))

/-- The two window lists of `hax_create_vm` (vm.c:125-141). -/
def create_hva (cfg : Config) (env : create_env) (id : Int) (p : Nat)
    (hvm : vm_t) (w : World) : create_result :=
  if cfg.HAX_ARCH_X86_32 then
    if !env.hva_list then
      create_fail id p w
    else
      let hvm1 := { hvm with hva_list := some (fun _ => hva_entry.zero) }
      let w1 := w.log (Ev.acquire (Res.hva_list p))
      if !env.hva_list_1 then
        create_fail00 id p w1
      else
        create_ept cfg env id p
          { hvm1 with hva_list_1 := some (fun _ => hva_entry.zero) }
          (w1.log (Ev.acquire (Res.hva_list_1 p)))
  else
    create_ept cfg env id p hvm w

/-- The function `hax_create_vm` (vm.c:94-198). -/
def hax_create_vm (cfg : Config) (env : create_env) (w : World) : create_result :=
  if !w.hax.vmx_enable_flag || !w.hax.nx_enable_flag then
    { ret := none, vm_id := none, world := w }
  else
    let r := get_free_vm_mid w.vm_mid_bits
    let id := r.1
    let w1 := { w with vm_mid_bits := r.2 }
    if !valid_vm_mid id then
      { ret := none, vm_id := none, world := w1 }
    else
      let w2 := w1.log (Ev.acquire (Res.vm_mid id))
      match env.hvm with
      | none => { ret := none, vm_id := some id, world := w2.put_vm_mid id }
      | some p =>
        create_hva cfg env id p { vm_t.zero with vm_id := id }
          (w2.log (Ev.acquire (Res.vm p)))

/-! ## The p2m table and the window recycler used by teardown -/

/-- The function `hax_get_p2m_entry` (vm.c:378-388).  The entry is named by
its group and its index in the group.  `none`: the read of
`vm->p2m_map[which_g]` is past the end of the array; `some none`: NULL. -/
def hax_get_p2m_entry (cfg : Config) (vm : vm_t) (gpfn : Nat) :
    Option (Option (Nat × Nat)) :=
  let which_g := cfg.gpfn_to_g gpfn % 2 ^ 32
  let index := cfg.gpfn_in_g gpfn % 2 ^ 32
  if which_g < cfg.MAX_GMEM_G then
    match vm.p2m_map which_g with
    | none => some none
    | some _ => some (some (which_g, index))
  else
    none

/-- The assignment `entry->hva = hva` through a pointer returned by
`hax_get_p2m_entry`. -/
def p2m_set_hva (vm : vm_t) (e : Nat × Nat) (hva : Nat) : vm_t :=
  match vm.p2m_map e.1 with
  | none => vm
  | some grp =>
    { vm with
      p2m_map := Function.update vm.p2m_map e.1
        (some (Function.update grp e.2 { grp e.2 with hva := hva })) }

/-- The statement `if (entry) entry->hva = 0` of the recyclers (vm.c:441-443). -/
def p2m_clear_hva (vm : vm_t) (entry : Option (Nat × Nat)) : vm_t :=
  match entry with
  | some e => p2m_set_hva vm e 0
  | none => vm

/-- The statement `vm->hva_limit -= 4096` on an unsigned 64-bit field. -/
def hva_limit_dec (x : Nat) : Nat :=
  (x + 2 ^ 64 - 4096) % 2 ^ 64

/-- The body shared by the four loops of `gpfn_to_hva_recycle_total`
(vm.c:438-449, 455-466, 473-484, 490-501) for slot `i` of the list `lst`;
`second` tells whether `lst` is `hva_list_1`. -/
def recycle_total_evict (cfg : Config) (second : Bool) (lst : Nat → hva_entry)
    (i : Nat) (vm : vm_t) (tr : List Ev) : Option (vm_t × List Ev) :=
  match hax_get_p2m_entry cfg vm (lst i).gpfn with
  | none => none
  | some entry =>
    let tr1 := tr ++ [Ev.release (Res.mapping (lst i).hva)]
    let vm1 := p2m_clear_hva vm entry
    let lst1 := Function.update lst i hva_entry.zero
    if second then
      some ({ vm1 with hva_list_1 := some lst1,
                       hva_limit := hva_limit_dec vm1.hva_limit }, tr1)
    else
      some ({ vm1 with hva_list := some lst1,
                       hva_limit := hva_limit_dec vm1.hva_limit }, tr1)

/-- One of the four loops of `gpfn_to_hva_recycle_total`: `second` selects
`hva_list_1`, `any_level` drops the test `!level` (second and fourth loop);
`n` iterations are left, `i` is the loop variable. -/
def recycle_total_loop (cfg : Config) (second any_level : Bool) :
    Nat → Nat → vm_t → List Ev → Option (vm_t × List Ev)
  | 0, _, vm, tr => some (vm, tr)
  | n + 1, i, vm, tr =>
    match (if second then vm.hva_list_1 else vm.hva_list) with
    | none => none
    | some lst =>
      if (any_level || decide ((lst i).level = 0)) && decide ((lst i).hva ≠ 0) then
        match recycle_total_evict cfg second lst i vm tr with
        | none => none
        | some r => recycle_total_loop cfg second any_level n (i + 1) r.1 r.2
      else
        recycle_total_loop cfg second any_level n (i + 1) vm tr

/-- The function `gpfn_to_hva_recycle_total` (vm.c:426-504). -/
def gpfn_to_hva_recycle_total (cfg : Config) (vm : vm_t) (tr : List Ev) :
    Option (vm_t × List Ev) :=
  if vm.hva_list.isNone || vm.hva_list_1.isNone then
    some (vm, tr)
  else
    let top := (cfg.HOST_VIRTUAL_ADDR_LIMIT - cfg.HOST_VIRTUAL_ADDR_RECYCLE) / 4096
    let top1 := cfg.HOST_VIRTUAL_ADDR_RECYCLE / 4096
    (recycle_total_loop cfg false false top 0 vm tr).bind fun a =>
    (recycle_total_loop cfg false true top 0 a.1 a.2).bind fun b =>
    (recycle_total_loop cfg true false top1 0 b.1 b.2).bind fun c =>
    recycle_total_loop cfg true true top1 0 c.1 c.2

/-- The loop of `hax_vm_free_p2m_map` (vm.c:203-208): `n` iterations are
left, `i` is the loop variable, `p` the address of the VM. -/
def hax_vm_free_p2m_map_loop (p : Nat) : Nat → Nat → vm_t → List Ev → vm_t × List Ev
  | 0, _, vm, tr => (vm, tr)
  | n + 1, i, vm, tr =>
    match vm.p2m_map i with
    | none => hax_vm_free_p2m_map_loop p n (i + 1) vm tr
    | some _ =>
      hax_vm_free_p2m_map_loop p n (i + 1)
        { vm with p2m_map := Function.update vm.p2m_map i none }
        (tr ++ [Ev.release (Res.p2m_group p i)])

/-- The function `hax_vm_free_p2m_map` (vm.c:200-209). -/
def hax_vm_free_p2m_map (cfg : Config) (p : Nat) (vm : vm_t) (tr : List Ev) :
    vm_t × List Ev :=
  hax_vm_free_p2m_map_loop p cfg.MAX_GMEM_G 0 vm tr

/-! ## Teardown, lookup and release (vm.c:226-339) -/

/-- The window part of `hax_teardown_vm` (vm.c:232-240). -/
def teardown_hva (cfg : Config) (p : Nat) (vm : vm_t) (tr : List Ev) :
    Option (vm_t × List Ev) :=
  if cfg.HAX_ARCH_X86_32 && vm.hva_list.isSome then
    (gpfn_to_hva_recycle_total cfg vm tr).map fun r =>
      (r.1, r.2 ++ [Ev.release (Res.hva_list p), Ev.release (Res.hva_list_1 p)])
  else
    some (vm, tr)

/-- The function `hax_teardown_vm` (vm.c:226-255) on the VM at address `p`:
the value returned and the state afterwards. -/
def hax_teardown_vm (cfg : Config) (w : World) (p : Nat) : Option (Int × World) :=
  match w.heap p with
  | none => none
  | some vm =>
    if !vm.vcpu_list.isEmpty then
      some (-1, w)
    else
      match teardown_hva cfg p vm w.trace with
      | none => none
      | some (vm1, tr1) =>
        let tr2 := if !cfg.CONFIG_HAX_EPT2 then tr1 ++ [Ev.release (Res.ept p)] else tr1
        let r := hax_vm_free_p2m_map cfg p vm1 tr2
        let tr3 := r.2 ++ [Ev.release (Res.vm_lock p)]
        let w1 := { w with trace := tr3 }.put_vm_mid r.1.vm_id
        let tr4 :=
          if cfg.CONFIG_HAX_EPT2 then
            w1.trace ++ [Ev.release (Res.gpa_space_listener p),
                         Ev.release (Res.ept_tree p), Ev.release (Res.gpa_space p)]
          else w1.trace
        some (0, { w1 with heap := Function.update w1.heap p none,
                           trace := tr4 ++ [Ev.release (Res.vm p)] })

/-- The loop of `hax_get_vm` (vm.c:301-316) over the registry, with the
return that follows it (vm.c:319-321). -/
def hax_get_vm_loop (vm_id : Int) (ref : Int) : List Nat → World → Option (Option Nat × World)
  | [], w => some (none, w)
  | p :: rest, w =>
    match w.heap p with
    | none => none
    | some vm =>
      if vm.vm_id = vm_id then
        if ref ≠ 0 then
          let a := hax_atomic_add vm.ref_count 1
          let w1 := w.store p { vm with ref_count := a.2 }
          if a.1 ≤ 0 then
            let d := hax_atomic_dec a.2
            some (none, w1.store p { vm with ref_count := d.2 })
          else
            some (some p, w1)
        else
          some (some p, w)
      else
        hax_get_vm_loop vm_id ref rest w

/-- The function `hax_get_vm` (vm.c:294-322): the pointer returned (`none`
for NULL) and the state afterwards. -/
def hax_get_vm (w : World) (vm_id : Int) (ref : Int) : Option (Option Nat × World) :=
  hax_get_vm_loop vm_id ref w.hax.hax_vmlist w

/-- The function `hax_put_vm` (vm.c:324-339) on the VM at address `p`: the
value returned and the state afterwards. -/
def hax_put_vm (cfg : Config) (w : World) (p : Nat) : Option (Int × World) :=
  match w.heap p with
  | none => none
  | some vm =>
    let d := hax_atomic_dec vm.ref_count
    let count := d.1
    let w1 := w.store p { vm with ref_count := d.2 }
    if count = 1 then
      let w2 := { w1 with hax := { w1.hax with hax_vmlist := hax_list_del p w1.hax.hax_vmlist } }
      let w3 := w2.log (Ev.release (Res.vm_host p))
      match hax_teardown_vm cfg w3 p with
      | none => none
      | some r => some (count, r.2)
    else
      some (count, w1)

/-! ## The p2m table (vm.c:354-423, 634-647) -/

/-- The errno value `E2BIG`. -/
def E2BIG : Int := 7

/-- The errno value `ENOMEM`. -/
def ENOMEM : Int := 12

/-- The macro `PG_ORDER_4K`: the shift of a 4K page. -/
def PG_ORDER_4K : Nat := 12

/-- The width in bits of the type `mword`, the machine word of the build. -/
def mword_bits (cfg : Config) : Nat :=
  if cfg.HAX_ARCH_X86_32 then 32 else 64

/-- The group array right after `memset(p2m_base, 0, GPFN_MAP_ARRAY_SIZE)`
(vm.c:369). -/
def p2m_group_zero : Nat → hax_p2m_entry :=
  fun _ => { hva := 0, hpa := 0 }

/-- The read `*entry` through a pointer returned by `hax_get_p2m_entry`. -/
def p2m_entry (vm : vm_t) (e : Nat × Nat) : hax_p2m_entry :=
  match vm.p2m_map e.1 with
  | none => { hva := 0, hpa := 0 }
  | some grp => grp e.2

/-- The function `set_p2m_mapping` (vm.c:354-376) on the VM `vm` at address
`p`; `alloc_ok` tells whether `hax_vmalloc(GPFN_MAP_ARRAY_SIZE, 0)` returns
non-NULL when it is called.  The result is the value returned, the VM and
the trace afterwards. -/
def set_p2m_mapping (cfg : Config) (alloc_ok : Bool) (p : Nat) (vm : vm_t)
    (tr : List Ev) (gpfn hva hpa : Nat) : Int × vm_t × List Ev :=
  let which_g := cfg.gpfn_to_g gpfn % 2 ^ 32
  let index := cfg.gpfn_in_g gpfn % 2 ^ 32
  if which_g ≥ cfg.MAX_GMEM_G then
    (-E2BIG, vm, tr)
  else
    match vm.p2m_map which_g with
    | none =>
      if !alloc_ok then
        (-ENOMEM, vm, tr)
      else
        (0, { vm with
              p2m_map := Function.update vm.p2m_map which_g
                (some (Function.update p2m_group_zero index { hva := hva, hpa := hpa })) },
          tr ++ [Ev.acquire (Res.p2m_group p which_g)])
    | some grp =>
      (0, { vm with
            p2m_map := Function.update vm.p2m_map which_g
              (some (Function.update grp index { hva := hva, hpa := hpa })) }, tr)

/-- The function `hax_gpfn_to_hva` (vm.c:391-401): the pointer returned, 0
for NULL; `none` is the fault of `hax_get_p2m_entry`. -/
def hax_gpfn_to_hva (cfg : Config) (vm : vm_t) (gpfn : Nat) : Option Nat :=
  match hax_get_p2m_entry cfg vm gpfn with
  | none => none
  | some none => some 0
  | some (some e) =>
    if (p2m_entry vm e).hva = 0 then some 0
    else some ((p2m_entry vm e).hva % 2 ^ mword_bits cfg)

/-- Modelled from the spec: the gpa space of a VM (`gpa_space_get_pfn`, code
outside `core/vm.c`), "the single source of truth for
guest-physical-to-host-physical mappings" of the modern form: the frame
number it holds for each guest frame, `INVALID_PFN` where it holds none. -/
structure gpa_space_t where
  INVALID_PFN : Nat
  get_pfn : Nat → Nat

/-- The function `hax_gpfn_to_hpa` (vm.c:403-423) in both builds; `gs` is the
gpa space of the VM, read in the build with `CONFIG_HAX_EPT2` only.  `none`
is the fault of `hax_get_p2m_entry`. -/
def hax_gpfn_to_hpa (cfg : Config) (gs : gpa_space_t) (vm : vm_t) (gpfn : Nat) :
    Option Nat :=
  if cfg.CONFIG_HAX_EPT2 then
    let pfn := gs.get_pfn gpfn
    if gs.INVALID_PFN = pfn then some 0
    else some ((pfn <<< PG_ORDER_4K) % 2 ^ 64)
  else
    match hax_get_p2m_entry cfg vm gpfn with
    | none => none
    | some none => some 0
    | some (some e) =>
      if (p2m_entry vm e).hpa = 0 then some 0
      else some (p2m_entry vm e).hpa

/-- The function `hax_core_set_p2m` (vm.c:634-647).  The operand
`hva & ~HAX_PAGE_MASK` is taken on 64 bits, `hpfn << 12` is a 64-bit value. -/
def hax_core_set_p2m (cfg : Config) (alloc_ok : Bool) (p : Nat) (vm : vm_t)
    (tr : List Ev) (gpfn hpfn hva : Nat) (flags : Nat) : Int × vm_t × List Ev :=
  let _ := flags
  let r := set_p2m_mapping cfg alloc_ok p vm tr gpfn
    (hva &&& (2 ^ 64 - 1 - cfg.HAX_PAGE_MASK)) ((hpfn <<< 12) % 2 ^ 64)
  if r.1 < 0 then (0, r.2) else (1, r.2)

/-! ## Lookup of a VCPU (vm.c:257-292) -/

/-- The loop of `hax_get_vcpu` (vm.c:269-286) over the VCPU list, with the
test of `found` that follows it (vm.c:288-289); `i` is the position of the
head of the list.  The result is the VCPU returned, named by its position in
the list (`none` for NULL), and the list afterwards. -/
def hax_get_vcpu_loop (vcpu_id : Int) (refer : Int) :
    List vcpu_t → Nat → Option Nat × List vcpu_t
  | [], _ => (none, [])
  | v :: rest, i =>
    if v.vcpu_id = vcpu_id then
      if refer ≠ 0 then
        let a := hax_atomic_add v.ref_count 1
        if a.1 ≤ 0 then
          let d := hax_atomic_dec a.2
          (none, { v with ref_count := d.2 } :: rest)
        else
          (some i, { v with ref_count := a.2 } :: rest)
      else
        (some i, v :: rest)
    else
      let r := hax_get_vcpu_loop vcpu_id refer rest (i + 1)
      (r.1, v :: r.2)

/-- The function `hax_get_vcpu` (vm.c:257-292): the VCPU returned (`none` for
NULL) and the state afterwards. -/
def hax_get_vcpu (cfg : Config) (w : World) (vm_id vcpu_id refer : Int) :
    Option (Option Nat × World) :=
  match hax_get_vm w vm_id 1 with
  | none => none
  | some (none, w1) => some (none, w1)
  | some (some p, w1) =>
    match w1.heap p with
    | none => none
    | some vm =>
      let r := hax_get_vcpu_loop vcpu_id refer vm.vcpu_list 0
      let w2 := w1.store p { vm with vcpu_list := r.2 }
      match hax_put_vm cfg w2 p with
      | none => none
      | some r2 => some (r.1, r2.2)

/-! ## The windows of the 32-bit build (vm.c:506-536, 560-612) -/

/-- The loop of `gpfn_to_hva_recycle` (vm.c:516-533): `n` iterations are
left, `i` is the loop variable, `count` the evictions so far.  The body of the
loop is the one of the first loop of `gpfn_to_hva_recycle_total`, followed by
`count++`. -/
def gpfn_to_hva_recycle_loop (cfg : Config) (cr3_cur : Nat) (flag : Bool) :
    Nat → Nat → vm_t → List Ev → Nat → Option (vm_t × List Ev × Nat)
  | 0, _, vm, tr, count => some (vm, tr, count)
  | n + 1, i, vm, tr, count =>
    match vm.hva_list with
    | none => none
    | some lst =>
      if flag || (decide ((lst i).gcr3 ≠ cr3_cur) && !(lst i).is_kern) then
        match recycle_total_evict cfg false lst i vm tr with
        | none => none
        | some r => gpfn_to_hva_recycle_loop cfg cr3_cur flag n (i + 1) r.1 r.2 (count + 1)
      else
        gpfn_to_hva_recycle_loop cfg cr3_cur flag n (i + 1) vm tr count

/-- The function `gpfn_to_hva_recycle` (vm.c:506-536): the count returned,
the VM and the trace afterwards; `none` is a fault of `hax_get_p2m_entry`. -/
def gpfn_to_hva_recycle (cfg : Config) (vm : vm_t) (tr : List Ev) (cr3_cur : Nat)
    (flag : Bool) : Option (Nat × vm_t × List Ev) :=
  match vm.hva_list with
  | none => some (0, vm, tr)
  | some _ =>
    let top := (cfg.HOST_VIRTUAL_ADDR_LIMIT - cfg.HOST_VIRTUAL_ADDR_RECYCLE) / 4096
    (gpfn_to_hva_recycle_loop cfg cr3_cur flag top 0 vm tr 0).map fun r =>
      (r.2.2, { r.1 with hva_index := 0 }, r.2.1)

/-- The scan `while (vm->hva_list[vm->hva_index].hva) vm->hva_index++`
(vm.c:585-587): `n` slots are left up to the end of the list, `idx` is
`vm->hva_index`.  The result is the index of the first free slot; `none`: the
scan has run past the end of the list. -/
def hva_list_scan (lst : Nat → hva_entry) : Nat → Nat → Option Nat
  | 0, _ => none
  | n + 1, idx => if (lst idx).hva ≠ 0 then hva_list_scan lst n (idx + 1) else some idx

/-- The value `entry->hva` behind the test `!entry || !entry->hva`
(vm.c:573): 0 when `entry` is NULL. -/
def cached_hva (vm : vm_t) (entry : Option (Nat × Nat)) : Nat :=
  match entry with
  | some e => (p2m_entry vm e).hva
  | none => 0

/-- The statement `if (entry) entry->hva = (uint64_t)hva` (vm.c:579-581). -/
def p2m_store_hva (vm : vm_t) (entry : Option (Nat × Nat)) (hva : Nat) : vm_t :=
  match entry with
  | some e => p2m_set_hva vm e hva
  | none => vm

/-- Why a run of the model yields no value: a memory fault (a NULL or
out-of-range access), or the bound on the number of rounds was reached. -/
inductive Stop where
  | fault
  | fuel
deriving DecidableEq, Repr

/-- The body of the 32-bit `hax_map_gpfn` from the label `retry` on
(vm.c:572-610).  `entry` is the pointer computed before the label, `hva_new`
the address that `hax_vmap` returns when it is called, `fuel` bounds the
number of passes through the label.  The result is the pointer returned, the
VM and the trace afterwards. -/
def hax_map_gpfn_retry (cfg : Config) (hva_new : Nat) (entry : Option (Nat × Nat))
    (gpfn : Nat) (flag : Bool) (gcr3 : Nat) (level : Nat) :
    Nat → vm_t → List Ev → Except Stop (Nat × vm_t × List Ev)
  | 0, _, _ => Except.error Stop.fuel
  | fuel + 1, vm, tr =>
    if entry.isNone || decide (cached_hva vm entry = 0) then
      if flag || decide (vm.hva_limit < cfg.HOST_VIRTUAL_ADDR_LIMIT) then
        let tr1 := tr ++ [Ev.acquire (Res.mapping hva_new)]
        let vm1 := p2m_store_hva vm entry hva_new
        let vm2 := { vm1 with hva_limit := (vm1.hva_limit + 4096) % 2 ^ 64 }
        let record : hva_entry :=
          { gpfn := gpfn, hva := hva_new, gcr3 := gcr3, is_kern := flag, level := level }
        if decide (vm2.hva_limit > cfg.HOST_VIRTUAL_ADDR_RECYCLE) &&
            decide (vm2.hva_limit ≤ cfg.HOST_VIRTUAL_ADDR_LIMIT) then
          match vm2.hva_list with
          | none => Except.error Stop.fault
          | some lst =>
            match hva_list_scan lst (cfg.HVA_MAP_ARRAY_SIZE / 4096 - vm2.hva_index)
                vm2.hva_index with
            | none => Except.error Stop.fault
            | some idx =>
              Except.ok (hva_new,
                { vm2 with hva_list := some (Function.update lst idx record),
                           hva_index := idx + 1 }, tr1)
        else
          match vm2.hva_list_1 with
          | none => Except.error Stop.fault
          | some lst1 =>
            if vm2.hva_index_1 < cfg.HVA_MAP_ARRAY_SIZE / 4096 then
              Except.ok (hva_new,
                { vm2 with hva_list_1 := some (Function.update lst1 vm2.hva_index_1 record),
                           hva_index_1 := vm2.hva_index_1 + 1 }, tr1)
            else
              Except.error Stop.fault
      else
        match gpfn_to_hva_recycle cfg vm tr gcr3 false with
        | none => Except.error Stop.fault
        | some r =>
          if r.1 ≠ 0 then
            hax_map_gpfn_retry cfg hva_new entry gpfn flag gcr3 level fuel r.2.1 r.2.2
          else
            Except.ok (hva_new, r.2.1, r.2.2 ++ [Ev.acquire (Res.mapping hva_new)])
    else
      Except.ok (cached_hva vm entry % 2 ^ 32, vm, tr)

/-- The function `hax_map_gpfn` of the 32-bit build without
`CONFIG_HAX_EPT2` (vm.c:560-612).  Every pass through `retry` but the first
follows a recycling that lowered `vm->hva_limit`, so `hva_limit / 4096 + 2`
passes are enough. -/
def hax_map_gpfn (cfg : Config) (hva_new : Nat) (vm : vm_t) (tr : List Ev)
    (gpfn : Nat) (flag : Bool) (gcr3 : Nat) (level : Nat) :
    Except Stop (Nat × vm_t × List Ev) :=
  match hax_get_p2m_entry cfg vm gpfn with
  | none => Except.error Stop.fault
  | some entry =>
    hax_map_gpfn_retry cfg hva_new entry gpfn flag gcr3 level
      (vm.hva_limit / 4096 + 2) vm tr

/-! ## The capability flags of `cpu.h` -/

/-- The macro `HAX_CPUF_VALID` (cpu.h:128). -/
def HAX_CPUF_VALID : Nat := 0x1

/-- The macro `HAX_CPUF_SUPPORT_VT` (cpu.h:129). -/
def HAX_CPUF_SUPPORT_VT : Nat := 0x2

/-- The macro `HAX_CPUF_SUPPORT_NX` (cpu.h:130). -/
def HAX_CPUF_SUPPORT_NX : Nat := 0x4

/-- The macro `HAX_CPUF_SUPPORT_EM64T` (cpu.h:131). -/
def HAX_CPUF_SUPPORT_EM64T : Nat := 0x8

/-- The macro `HAX_CPUF_ENABLE_VT` (cpu.h:133). -/
def HAX_CPUF_ENABLE_VT : Nat := 0x10

/-- The macro `HAX_CPUF_ENABLE_NX` (cpu.h:134). -/
def HAX_CPUF_ENABLE_NX : Nat := 0x20

/-- The macro `HAX_CPUF_ENABLE_EM64T` (cpu.h:135). -/
def HAX_CPUF_ENABLE_EM64T : Nat := 0x40

/-- The macro `HAX_CPUF_INITIALIZED` (cpu.h:137). -/
def HAX_CPUF_INITIALIZED : Nat := 0x100

/-- The flags of `cpu_features` in the order of their definition. -/
def HAX_CPUF_all : List Nat :=
  [HAX_CPUF_VALID, HAX_CPUF_SUPPORT_VT, HAX_CPUF_SUPPORT_NX, HAX_CPUF_SUPPORT_EM64T,
   HAX_CPUF_ENABLE_VT, HAX_CPUF_ENABLE_NX, HAX_CPUF_ENABLE_EM64T, HAX_CPUF_INITIALIZED]

/-- The bit positions that the comment above the macros gives
(cpu.h:116-127), in the same order. -/
def HAX_CPUF_comment_bits : List Nat := [0, 1, 2, 3, 8, 9, 10, 12]

/-! ## Runs of successive creations -/

/-- Successive calls of `hax_create_vm`, one per element of `envs`: the
pointer returned and the identifier stored by each call, and the final
state. -/
def create_many (cfg : Config) : List create_env → World →
    List (Option Nat × Option Int) × World
  | [], w => ([], w)
  | e :: es, w =>
    let r := hax_create_vm cfg e w
    let rest := create_many cfg es r.world
    ((r.ret, r.vm_id) :: rest.1, rest.2)

/-- The empty system: both features enabled, no identifier taken, no VM. -/
def World.empty : World :=
  { hax := { vmx_enable_flag := true, nx_enable_flag := true, hax_vmlist := [] },
    vm_mid_bits := 0, heap := fun _ => none, trace := [] }

/-- A host on which every call of `hax_create_vm` succeeds and the VM object
is placed at address `p`. -/
def create_env.ok (p : Nat) : create_env :=
  { hvm := some p, hva_list := true, hva_list_1 := true, gpa_space_init := 0,
    ept_tree_init := 0, ept_init := true, vm_lock := true, hax_vm_create_host := 0 }

/-- A 64-bit build with the modern translation context, and the grouping of
frames by gigabyte ("per-gigabyte p2m arrays"). -/
def Config.ept2 : Config :=
  { HAX_ARCH_X86_32 := false, CONFIG_HAX_EPT2 := true, MAX_GMEM_G := 5,
    HOST_VIRTUAL_ADDR_LIMIT := 0x1000000, HOST_VIRTUAL_ADDR_RECYCLE := 0x800000,
    gpfn_to_g := fun gpfn => gpfn >>> 18, gpfn_in_g := fun gpfn => gpfn &&& 0x3ffff,
    HVA_MAP_ARRAY_SIZE := 0x800000, HAX_PAGE_MASK := 0xfff }

/-- A 32-bit build with the legacy translation context. -/
def Config.legacy32 : Config :=
  { Config.ept2 with HAX_ARCH_X86_32 := true, CONFIG_HAX_EPT2 := false }

/-- A 64-bit build with the legacy translation context. -/
def Config.legacy64 : Config :=
  { Config.ept2 with HAX_ARCH_X86_32 := false, CONFIG_HAX_EPT2 := false }

/-- The result `r` of a creation started in `w` is a failure after the
identifier `id` was taken: NULL is returned, `id` was stored through `vm_id`
and given back with `hax_put_vm_mid`, the registry and the heap are those of
`w`. -/
def create_rolled_back (id : Int) (w : World) (r : create_result) : Prop :=
  r.ret = none ∧ r.vm_id = some id ∧
  r.world.vm_mid_bits = (hax_put_vm_mid id w.vm_mid_bits).2 ∧
  r.world.hax = w.hax ∧ r.world.heap = w.heap

/-- The result `r` of a creation started in `w` is a success: the VM at `p`
is returned with identifier `id`, reference count 1 and no VCPU, and is linked
at the head of the registry; nothing else changes. -/
def create_published (id : Int) (p : Nat) (w : World) (r : create_result) : Prop :=
  r.ret = some p ∧ r.vm_id = some id ∧
  r.world.vm_mid_bits = w.vm_mid_bits ∧
  r.world.hax = { w.hax with hax_vmlist := p :: w.hax.hax_vmlist } ∧
  ∃ vm : vm_t, r.world.heap = Function.update w.heap p (some vm) ∧
    vm.vm_id = id ∧ vm.ref_count = 1 ∧ vm.vcpu_list = []

/-- Every host call that `hax_create_vm` makes in the build `cfg` succeeds. -/
def create_env.all_ok (cfg : Config) (env : create_env) : Prop :=
  env.hvm ≠ none ∧
  (cfg.HAX_ARCH_X86_32 = true → env.hva_list = true ∧ env.hva_list_1 = true) ∧
  (cfg.CONFIG_HAX_EPT2 = true → env.gpa_space_init = 0 ∧ env.ept_tree_init = 0) ∧
  (cfg.CONFIG_HAX_EPT2 = false → env.ept_init = true) ∧
  env.vm_lock = true ∧ ¬ env.hax_vm_create_host < 0

/-- A VM object with the given identifier, reference count and VCPU list,
all other fields zero. -/
def vm_t.mk3 (vm_id ref_count : Int) (vcpus : List vcpu_t) : vm_t :=
  { vm_t.zero with vm_id := vm_id, ref_count := ref_count, vcpu_list := vcpus }

/-- A state with two registered VMs: identifier 0 at address 10 (reference
count `rc`, VCPU list `vcpus`) and identifier 1 at address 11 (reference
count 1, no VCPU). -/
def World.two_vms (rc : Int) (vcpus : List vcpu_t) : World :=
  { hax := { vmx_enable_flag := true, nx_enable_flag := true, hax_vmlist := [11, 10] },
    vm_mid_bits := 3,
    heap := fun q =>
      if q = 10 then some (vm_t.mk3 0 rc vcpus)
      else if q = 11 then some (vm_t.mk3 1 1 [])
      else none,
    trace := [] }

/-- Every occupied record of the two windows of `vm` names a frame whose
group lies inside `vm->p2m_map`, so that `gpfn_to_hva_recycle_total` reads no
slot past the end of that array. -/
def window_ok (cfg : Config) (vm : vm_t) : Prop :=
  ∀ lst : Nat → hva_entry, (vm.hva_list = some lst ∨ vm.hva_list_1 = some lst) →
    ∀ i, (lst i).hva ≠ 0 → cfg.gpfn_to_g (lst i).gpfn % 2 ^ 32 < cfg.MAX_GMEM_G

/-- What the window recycler keeps, from `(vm0, tr0)` to the result `r`: the
windows stay well formed, identifier and VCPU list are the same, the same
p2m groups and window lists are allocated, and the trace grows by releases of
mapped pages only. -/
def recycle_keeps (cfg : Config) (vm0 : vm_t) (tr0 : List Ev) (r : vm_t × List Ev) : Prop :=
  window_ok cfg r.1 ∧ r.1.vm_id = vm0.vm_id ∧ r.1.vcpu_list = vm0.vcpu_list ∧
  (∀ g, (r.1.p2m_map g).isSome = (vm0.p2m_map g).isSome) ∧
  r.1.hva_list.isSome = vm0.hva_list.isSome ∧
  r.1.hva_list_1.isSome = vm0.hva_list_1.isSome ∧
  ∃ ext, r.2 = tr0 ++ ext ∧ ∀ e, e ∈ ext → ∃ h, e = Ev.release (Res.mapping h)

/-- The resource calls of a successful `hax_teardown_vm` on the VM `vm` at
address `p`, after the releases `maps` of the pages still mapped in its
windows: the window lists (32-bit build), the legacy translation context, the
allocated p2m groups in increasing order, the lock, the identifier, the modern
translation context and the VM object. -/
def teardown_trace (cfg : Config) (p : Nat) (vm : vm_t) (maps : List Ev) : List Ev :=
  maps ++
  (if cfg.HAX_ARCH_X86_32 && vm.hva_list.isSome then
    [Ev.release (Res.hva_list p), Ev.release (Res.hva_list_1 p)] else []) ++
  (if !cfg.CONFIG_HAX_EPT2 then [Ev.release (Res.ept p)] else []) ++
  ((List.range' 0 cfg.MAX_GMEM_G).filter (fun g => (vm.p2m_map g).isSome)).map
    (fun g => Ev.release (Res.p2m_group p g)) ++
  [Ev.release (Res.vm_lock p), Ev.release (Res.vm_mid vm.vm_id)] ++
  (if cfg.CONFIG_HAX_EPT2 then
    [Ev.release (Res.gpa_space_listener p), Ev.release (Res.ept_tree p),
     Ev.release (Res.gpa_space p)] else []) ++
  [Ev.release (Res.vm p)]

/-- The state in which `hax_put_vm` calls `hax_teardown_vm` (vm.c:336) when
the count of the VM `vm` at `p` was 1: the count has been lowered, the VM has
left the registry and the host-teardown hook has run. -/
def World.before_teardown (w : World) (p : Nat) (vm : vm_t) : World :=
  { hax := { w.hax with hax_vmlist := hax_list_del p w.hax.hax_vmlist },
    vm_mid_bits := w.vm_mid_bits,
    heap := Function.update w.heap p (some { vm with ref_count := vm.ref_count - 1 }),
    trace := w.trace ++ [Ev.release (Res.vm_host p)] }

/-- A state with one registered VM at address 10: identifier 0, reference
count 1, one VCPU, and the first p2m group allocated. -/
def World.vm_with_vcpu : World :=
  { hax := { vmx_enable_flag := true, nx_enable_flag := true, hax_vmlist := [10] },
    vm_mid_bits := 1,
    heap := fun q =>
      if q = 10 then
        some { vm_t.mk3 0 1 [{ vcpu_id := 0, ref_count := 1 }] with
               vm_lock := true, gpa_space := true, ept_tree := true,
               gpa_space_listener := true,
               p2m_map := fun g => if g = 0 then some (fun _ => { hva := 0, hpa := 0 })
                                   else none }
      else none,
    trace := [] }

/-- An empty gpa space: no guest frame has a host frame. -/
def gpa_space_t.empty : gpa_space_t :=
  { INVALID_PFN := 2 ^ 64 - 1, get_pfn := fun _ => 2 ^ 64 - 1 }

/-- The VM object as `create_lock_host` publishes it, from the object `hvm`
under construction (vm.c:168-178). -/
def lock_host_vm (hvm : vm_t) : vm_t :=
  { hvm with vm_lock := true, vcpu_list := [], ref_count := 1 }

/-- The VM object as `create_ept` and the steps after it leave it
(vm.c:143-178). -/
def ept_vm (cfg : Config) (hvm : vm_t) : vm_t :=
  lock_host_vm
    (if cfg.CONFIG_HAX_EPT2 then
      { hvm with gpa_space := true, ept_tree := true, gpa_space_listener := true }
    else { hvm with ept := true })

/-- The VM object that a successful `hax_create_vm` publishes in the build
`cfg` with the identifier `id`. -/
def created_vm (cfg : Config) (id : Int) : vm_t :=
  ept_vm cfg
    (if cfg.HAX_ARCH_X86_32 then
      { vm_t.zero with vm_id := id, hva_list := some (fun _ => hva_entry.zero),
                       hva_list_1 := some (fun _ => hva_entry.zero) }
    else { vm_t.zero with vm_id := id })

/-- No record of the two windows of `vm` is occupied. -/
def windows_empty (vm : vm_t) : Prop :=
  ∀ lst : Nat → hva_entry, (vm.hva_list = some lst ∨ vm.hva_list_1 = some lst) →
    ∀ i, (lst i).hva = 0

/-- The invariant of the VM registry: no VM is linked twice, the linked VMs
are the allocated ones, each has an identifier in 0..7 whose bit is set, a
reference count of at least 1, no VCPU and empty windows, and two allocated
VMs with the same identifier are the same VM. -/
def registry_inv (w : World) : Prop :=
  w.hax.hax_vmlist.Nodup ∧
  (∀ p, p ∈ w.hax.hax_vmlist ↔ w.heap p ≠ none) ∧
  (∀ p vm, w.heap p = some vm →
    valid_vm_mid vm.vm_id = true ∧ w.vm_mid_bits.testBit vm.vm_id.toNat = true ∧
    1 ≤ vm.ref_count ∧ vm.vcpu_list = [] ∧ windows_empty vm) ∧
  (∀ p q vp vq, w.heap p = some vp → w.heap q = some vq → vp.vm_id = vq.vm_id → p = q)

/-- The states reached from an empty system (bitmap 0, empty registry, no VM
object) by sequential calls of `hax_create_vm`, `hax_get_vm` and `hax_put_vm`
that return.  The host allocator hands out memory that is not in use. -/
inductive Reachable (cfg : Config) : World → Prop where
  | init (w : World) : w.vm_mid_bits = 0 → w.hax.hax_vmlist = [] →
      (∀ p, w.heap p = none) → Reachable cfg w
  | create (w : World) (env : create_env) : Reachable cfg w →
      (∀ p, env.hvm = some p → w.heap p = none) →
      Reachable cfg (hax_create_vm cfg env w).world
  | get_vm (w : World) (vm_id ref : Int) (r : Option Nat × World) : Reachable cfg w →
      hax_get_vm w vm_id ref = some r → Reachable cfg r.2
  | put_vm (w : World) (p : Nat) (r : Int × World) : Reachable cfg w →
      hax_put_vm cfg w p = some r → Reachable cfg r.2

/-- One call of the 32-bit `hax_map_gpfn`: the address returned by `hax_vmap`
and the arguments of the call. -/
structure map_call where
  hva_new : Nat
  gpfn : Nat
  flag : Bool
  gcr3 : Nat
  level : Nat
deriving DecidableEq, Repr

/-- Successive calls of `hax_map_gpfn`, one per element of `calls`. -/
def map_many (cfg : Config) : List map_call → vm_t → List Ev →
    Except Stop (vm_t × List Ev)
  | [], vm, tr => Except.ok (vm, tr)
  | c :: cs, vm, tr =>
    match hax_map_gpfn cfg c.hva_new vm tr c.gpfn c.flag c.gcr3 c.level with
    | Except.error e => Except.error e
    | Except.ok r => map_many cfg cs r.2.1 r.2.2

/-- A 32-bit build with the legacy translation context and small windows: a
ceiling of four pages, a recycle mark of two pages and window lists of four
slots. -/
def Config.small32 : Config :=
  { Config.legacy32 with
    HOST_VIRTUAL_ADDR_LIMIT := 4 * 4096, HOST_VIRTUAL_ADDR_RECYCLE := 2 * 4096,
    HVA_MAP_ARRAY_SIZE := 4 * 4096 }

/-! ## Runs on the small 32-bit build -/

/-- The machine and trace after the calls of `calls`, started on `vm` with an
empty trace; the start itself when a call does not return. -/
def run_state (cfg : Config) (calls : List map_call) (vm : vm_t) : vm_t × List Ev :=
  match map_many cfg calls vm [] with
  | Except.ok r => r
  | Except.error _ => (vm, [])

/-- Three calls under root 7 followed by two kernel-exempt calls. -/
def calls_kernel : List map_call :=
  [ { hva_new := 0x1000, gpfn := 1, flag := false, gcr3 := 7, level := 0 },
    { hva_new := 0x2000, gpfn := 2, flag := false, gcr3 := 7, level := 0 },
    { hva_new := 0x3000, gpfn := 3, flag := false, gcr3 := 7, level := 0 },
    { hva_new := 0x4000, gpfn := 4, flag := true, gcr3 := 7, level := 0 },
    { hva_new := 0x5000, gpfn := 5, flag := true, gcr3 := 7, level := 0 } ]

/-- Five calls under root 7, none kernel-exempt. -/
def calls_user : List map_call :=
  [ { hva_new := 0x1000, gpfn := 1, flag := false, gcr3 := 7, level := 0 },
    { hva_new := 0x2000, gpfn := 2, flag := false, gcr3 := 7, level := 0 },
    { hva_new := 0x3000, gpfn := 3, flag := false, gcr3 := 7, level := 0 },
    { hva_new := 0x4000, gpfn := 4, flag := false, gcr3 := 9, level := 0 },
    { hva_new := 0x5000, gpfn := 5, flag := false, gcr3 := 9, level := 0 } ]

/-- The fresh machine of the small build after `hax_core_set_p2m` installed a
translation for frame 0 (host frame 0x55, no host-virtual address). -/
def vm_frame0 : vm_t :=
  (hax_core_set_p2m Config.small32 true 0 (created_vm Config.small32 0) [] 0 0x55 0 0).2.1

/-- Three calls under root 7, then three kernel-exempt calls. -/
def calls_six : List map_call :=
  [ { hva_new := 0x1000, gpfn := 1, flag := false, gcr3 := 7, level := 0 },
    { hva_new := 0x2000, gpfn := 2, flag := false, gcr3 := 7, level := 0 },
    { hva_new := 0x3000, gpfn := 3, flag := false, gcr3 := 7, level := 0 },
    { hva_new := 0x4000, gpfn := 4, flag := true, gcr3 := 7, level := 0 },
    { hva_new := 0x5000, gpfn := 5, flag := true, gcr3 := 7, level := 0 },
    { hva_new := 0x6000, gpfn := 6, flag := true, gcr3 := 7, level := 0 } ]

/-- The machine of the small build after `calls_six` on `vm_frame0`: six
pages are mapped, two pages above the ceiling. -/
def vm_six : vm_t := (run_state Config.small32 calls_six vm_frame0).1

/-- Four calls under root 7: the tracked total is exactly the ceiling. -/
def calls_four : List map_call :=
  [ { hva_new := 0x1000, gpfn := 1, flag := false, gcr3 := 7, level := 0 },
    { hva_new := 0x2000, gpfn := 2, flag := false, gcr3 := 7, level := 0 },
    { hva_new := 0x3000, gpfn := 3, flag := false, gcr3 := 7, level := 0 },
    { hva_new := 0x4000, gpfn := 4, flag := false, gcr3 := 7, level := 0 } ]

/-- The machine of the small build after `calls_four` on `vm_frame0`. -/
def vm_four : vm_t := (run_state Config.small32 calls_four vm_frame0).1

/-- Two calls under root 7, then a kernel-exempt call for frame 0. -/
def calls_frame0 : List map_call :=
  [ { hva_new := 0x1000, gpfn := 1, flag := false, gcr3 := 7, level := 0 },
    { hva_new := 0x2000, gpfn := 2, flag := false, gcr3 := 7, level := 0 },
    { hva_new := 0x3000, gpfn := 0, flag := true, gcr3 := 7, level := 0 } ]

/-- The machine after `calls_frame0` on `vm_frame0`: slot 0 of the primary
window holds the kernel-exempt record of frame 0, slot 1 is empty. -/
def vm_kernel_slot : vm_t := (run_state Config.small32 calls_frame0 vm_frame0).1

/-- Two calls under root 7, a kernel-exempt call for frame 0, a call under
root 7 that reaches the ceiling and a kernel-exempt call above it. -/
def calls_frame0_full : List map_call :=
  [ { hva_new := 0x1000, gpfn := 1, flag := false, gcr3 := 7, level := 0 },
    { hva_new := 0x2000, gpfn := 2, flag := false, gcr3 := 7, level := 0 },
    { hva_new := 0x3000, gpfn := 0, flag := true, gcr3 := 7, level := 0 },
    { hva_new := 0x4000, gpfn := 3, flag := false, gcr3 := 7, level := 0 },
    { hva_new := 0x5000, gpfn := 4, flag := true, gcr3 := 7, level := 0 } ]

/-- The machine after `calls_frame0_full` on `vm_frame0`: five pages are
tracked, one above the ceiling; slot 0 of the primary window holds the
kernel-exempt record of frame 0, slot 1 the record of frame 3 under root 7. -/
def vm_frame0_full : vm_t := (run_state Config.small32 calls_frame0_full vm_frame0).1

/-- The machine that the first recycling hands to the second pass through
`retry` when `hax_map_gpfn` is called on `vm_six` under root 9. -/
def vm_six_recycled : vm_t :=
  match gpfn_to_hva_recycle Config.small32 vm_six [] 9 false with
  | some r => r.2.1
  | none => vm_six

/-- The number of occupied slots (recorded address not 0) among the first
`n` slots of a window list. -/
def occupied_slots (lst : Option (Nat → hva_entry)) (n : Nat) : Nat :=
  match lst with
  | none => 0
  | some l => ((List.range n).filter fun i => decide ((l i).hva ≠ 0)).length

/-- The machine with frame 1 installed by `hax_core_set_p2m` (host frame 5,
host-virtual address 0x7000) on an empty `struct vm_t` of the 64-bit legacy
build. -/
def vm_frame1 : vm_t :=
  (hax_core_set_p2m Config.legacy64 true 0 vm_t.zero [] 1 5 0x7000 0).2.1

/-- The test of `gpfn_to_hva_recycle` on a slot (vm.c:517-518): the call
is forced, or the slot records another root and is not kernel-exempt. The
recorded address is not looked at. -/
def recycle_selects (cr3_cur : Nat) (flag : Bool) (e : hva_entry) : Bool :=
  flag || (decide (e.gcr3 ≠ cr3_cur) && !e.is_kern)

/-! # Theorems -/

/-! ## Bit lemmas -/

theorem testBit_set_bit (bits i j : Nat) :
    (bits ||| (1 <<< i)).testBit j = (decide (j = i) || bits.testBit j) := by
  rw [Nat.testBit_or, Nat.one_shiftLeft, Nat.testBit_two_pow]
  by_cases h : j = i
  · subst h; simp
  · have h2 : ¬ i = j := fun e => h e.symm
    simp [h, h2]

theorem testBit_clear_bit (bits i j : Nat) :
    (bits ^^^ (bits &&& (1 <<< i))).testBit j = (!decide (j = i) && bits.testBit j) := by
  rw [Nat.testBit_xor, Nat.testBit_and, Nat.one_shiftLeft, Nat.testBit_two_pow]
  by_cases h : j = i
  · subst h; simp
  · have h2 : ¬ i = j := fun e => h e.symm
    simp [h, h2]

theorem set_bit_of_set (bits i : Nat) (h : bits.testBit i = true) :
    bits ||| (1 <<< i) = bits := by
  apply Nat.eq_of_testBit_eq
  intro j
  rw [testBit_set_bit]
  by_cases hj : j = i
  · subst hj; simp [h]
  · simp [hj]

theorem clear_bit_of_clear (bits i : Nat) (h : bits.testBit i = false) :
    bits ^^^ (bits &&& (1 <<< i)) = bits := by
  apply Nat.eq_of_testBit_eq
  intro j
  rw [testBit_clear_bit]
  by_cases hj : j = i
  · subst hj; simp [h]
  · simp [hj]

theorem clear_bit_set_bit (bits i : Nat) (h : bits.testBit i = false) :
    (bits ||| (1 <<< i)) ^^^ ((bits ||| (1 <<< i)) &&& (1 <<< i)) = bits := by
  apply Nat.eq_of_testBit_eq
  intro j
  rw [testBit_clear_bit, testBit_set_bit]
  by_cases hj : j = i
  · subst hj; simp [h]
  · simp [hj]

/-! ## The scan of the identifier bitmap -/

theorem get_free_vm_mid_loop_found (n : Nat) : ∀ (i bits m : Nat),
    i ≤ m → m < i + n → bits.testBit m = false →
    (∀ j, i ≤ j → j < m → bits.testBit j = true) →
    get_free_vm_mid_loop n i bits = ((m : Int), bits ||| (1 <<< m)) := by
  induction n with
  | zero => intro i bits m h1 h2; omega
  | succ n ih =>
    intro i bits m h1 h2 hc hl
    by_cases hi : bits.testBit i = true
    · have hne : i ≠ m := by
        intro e; subst e; rw [hc] at hi; exact Bool.noConfusion hi
      have hstep : get_free_vm_mid_loop (n + 1) i bits
          = get_free_vm_mid_loop n (i + 1) bits := by
        simp [get_free_vm_mid_loop, hax_test_and_set_bit, hi, set_bit_of_set]
      rw [hstep]
      exact ih (i + 1) bits m (by omega) (by omega) hc
        (fun j hj1 hj2 => hl j (by omega) hj2)
    · have hi2 : bits.testBit i = false := by simpa using hi
      have hm : m = i := by
        by_contra hne
        have := hl i (le_refl i) (by omega)
        rw [hi2] at this; exact Bool.noConfusion this
      subst hm
      simp [get_free_vm_mid_loop, hax_test_and_set_bit, hi2]

theorem get_free_vm_mid_loop_full (n : Nat) : ∀ (i bits : Nat),
    (∀ j, i ≤ j → j < i + n → bits.testBit j = true) →
    get_free_vm_mid_loop n i bits = (-1, bits) := by
  induction n with
  | zero => intro i bits _; rfl
  | succ n ih =>
    intro i bits h
    have hi : bits.testBit i = true := h i (le_refl i) (by omega)
    have hstep : get_free_vm_mid_loop (n + 1) i bits
        = get_free_vm_mid_loop n (i + 1) bits := by
      simp [get_free_vm_mid_loop, hax_test_and_set_bit, hi, set_bit_of_set]
    rw [hstep]
    exact ih (i + 1) bits (fun j hj1 hj2 => h j (by omega) (by omega))

/-- The scan returns the lowest clear index among 0..7 and sets that bit. -/
theorem get_free_vm_mid_lowest (bits : Nat) (h : ∃ i, i < 8 ∧ bits.testBit i = false) :
    ∃ i, i < 8 ∧ bits.testBit i = false ∧ (∀ j, j < i → bits.testBit j = true) ∧
      get_free_vm_mid bits = ((i : Int), bits ||| (1 <<< i)) := by
  classical
  have hex : ∃ i, bits.testBit i = false := by
    obtain ⟨i, _, hi⟩ := h
    exact ⟨i, hi⟩
  refine ⟨Nat.find hex, ?_, Nat.find_spec hex, ?_, ?_⟩
  · obtain ⟨i, hi8, hi⟩ := h
    exact lt_of_le_of_lt (Nat.find_min' hex hi) hi8
  · intro j hj
    have := Nat.find_min hex hj
    simpa using this
  · have hlt : Nat.find hex < 8 := by
      obtain ⟨i, hi8, hi⟩ := h
      exact lt_of_le_of_lt (Nat.find_min' hex hi) hi8
    apply get_free_vm_mid_loop_found
    · exact Nat.zero_le _
    · simpa [VM_MID_BIT] using hlt
    · exact Nat.find_spec hex
    · intro j _ hj
      have := Nat.find_min hex hj
      simpa using this

/-- With all eight bits taken the scan returns -1 and changes nothing. -/
theorem get_free_vm_mid_exhausted (bits : Nat) (h : ∀ i, i < 8 → bits.testBit i = true) :
    get_free_vm_mid bits = (-1, bits) := by
  apply get_free_vm_mid_loop_full
  intro j _ hj
  exact h j (by simpa [VM_MID_BIT] using hj)

/-! ## The outcomes of `hax_create_vm` -/

theorem create_fail_rolled_back (id : Int) (p : Nat) (w : World) :
    create_rolled_back id w (create_fail id p w) := by
  simp [create_rolled_back, create_fail, World.log, World.put_vm_mid]

theorem create_fail00_rolled_back (id : Int) (p : Nat) (w : World) :
    create_rolled_back id w (create_fail00 id p w) := by
  simp [create_rolled_back, create_fail00, create_fail, World.log, World.put_vm_mid]

theorem create_fail0_rolled_back (cfg : Config) (id : Int) (p : Nat) (w : World) :
    create_rolled_back id w (create_fail0 cfg id p w) := by
  unfold create_fail0
  split
  · exact create_fail00_rolled_back id p _
  · exact create_fail_rolled_back id p w

theorem create_fail1_rolled_back (cfg : Config) (id : Int) (p : Nat) (w : World) :
    create_rolled_back id w (create_fail1 cfg id p w) :=
  create_fail0_rolled_back cfg id p _

theorem create_fail2_rolled_back (cfg : Config) (id : Int) (p : Nat) (w : World) :
    create_rolled_back id w (create_fail2 cfg id p w) :=
  create_fail1_rolled_back cfg id p _

theorem create_rolled_back_log (id : Int) (w : World) (e : Ev) (r : create_result)
    (h : create_rolled_back id (w.log e) r) : create_rolled_back id w r := h

theorem create_published_log (id : Int) (p : Nat) (w : World) (e : Ev) (r : create_result)
    (h : create_published id p (w.log e) r) : create_published id p w r := h

theorem create_cases_log (id : Int) (p : Nat) (w : World) (e : Ev) (r : create_result)
    (h : create_rolled_back id (w.log e) r ∨ create_published id p (w.log e) r) :
    create_rolled_back id w r ∨ create_published id p w r := h

theorem create_lock_host_cases (cfg : Config) (env : create_env) (id : Int) (p : Nat)
    (hvm : vm_t) (w : World) (hid : hvm.vm_id = id) :
    create_rolled_back id w (create_lock_host cfg env id p hvm w) ∨
    create_published id p w (create_lock_host cfg env id p hvm w) := by
  unfold create_lock_host
  split
  · exact Or.inl (create_fail1_rolled_back cfg id p w)
  · dsimp only
    split
    · exact Or.inl (create_rolled_back_log id w _ _ (create_fail2_rolled_back cfg id p _))
    · refine Or.inr ⟨rfl, rfl, rfl, rfl, _, rfl, hid, rfl, rfl⟩

theorem create_ept_cases (cfg : Config) (env : create_env) (id : Int) (p : Nat)
    (hvm : vm_t) (w : World) (hid : hvm.vm_id = id) :
    create_rolled_back id w (create_ept cfg env id p hvm w) ∨
    create_published id p w (create_ept cfg env id p hvm w) := by
  unfold create_ept
  split
  · split
    · exact Or.inl (create_fail0_rolled_back cfg id p w)
    · dsimp only
      split
      · exact Or.inl (create_rolled_back_log id w _ _ (create_fail0_rolled_back cfg id p _))
      · exact create_cases_log id p w _ _ (create_cases_log id p _ _ _
          (create_cases_log id p _ _ _ (create_lock_host_cases cfg env id p _ _ hid)))
  · split
    · exact Or.inl (create_fail0_rolled_back cfg id p w)
    · exact create_cases_log id p w _ _ (create_lock_host_cases cfg env id p _ _ hid)

theorem create_hva_cases (cfg : Config) (env : create_env) (id : Int) (p : Nat)
    (hvm : vm_t) (w : World) (hid : hvm.vm_id = id) :
    create_rolled_back id w (create_hva cfg env id p hvm w) ∨
    create_published id p w (create_hva cfg env id p hvm w) := by
  unfold create_hva
  split
  · split
    · exact Or.inl (create_fail_rolled_back id p w)
    · dsimp only
      split
      · exact Or.inl (create_rolled_back_log id w _ _ (create_fail00_rolled_back id p _))
      · exact create_cases_log id p w _ _ (create_cases_log id p _ _ _
          (create_ept_cases cfg env id p _ _ hid))
  · exact create_ept_cases cfg env id p hvm w hid

theorem valid_vm_mid_ofNat (i : Nat) (h : i < 8) : valid_vm_mid (i : Int) = true := by
  simp [valid_vm_mid, VM_MID_BIT]
  omega

theorem hax_put_vm_mid_after_set (bits i : Nat) (h : bits.testBit i = false) :
    (hax_put_vm_mid (i : Int) (bits ||| (1 <<< i))).2 = bits := by
  simp only [hax_put_vm_mid, hax_test_and_clear_bit, Int.toNat_ofNat]
  exact clear_bit_set_bit bits i h

/-- Every call of `hax_create_vm` either returns NULL and leaves the bitmap,
the registry and the heap as they were, or takes the lowest free identifier
and publishes a fresh VM. -/
theorem hax_create_vm_cases (cfg : Config) (env : create_env) (w : World) :
    ((hax_create_vm cfg env w).ret = none ∧
      (hax_create_vm cfg env w).world.vm_mid_bits = w.vm_mid_bits ∧
      (hax_create_vm cfg env w).world.hax = w.hax ∧
      (hax_create_vm cfg env w).world.heap = w.heap) ∨
    (∃ i p, i < 8 ∧ w.vm_mid_bits.testBit i = false ∧
      (∀ j, j < i → w.vm_mid_bits.testBit j = true) ∧
      get_free_vm_mid w.vm_mid_bits = ((i : Int), w.vm_mid_bits ||| (1 <<< i)) ∧
      w.hax.vmx_enable_flag = true ∧ w.hax.nx_enable_flag = true ∧
      env.hvm = some p ∧
      (hax_create_vm cfg env w).ret = some p ∧
      (hax_create_vm cfg env w).vm_id = some (i : Int) ∧
      (hax_create_vm cfg env w).world.vm_mid_bits = w.vm_mid_bits ||| (1 <<< i) ∧
      (hax_create_vm cfg env w).world.hax
        = { w.hax with hax_vmlist := p :: w.hax.hax_vmlist } ∧
      ∃ vm : vm_t,
        (hax_create_vm cfg env w).world.heap = Function.update w.heap p (some vm) ∧
        vm.vm_id = (i : Int) ∧ vm.ref_count = 1 ∧ vm.vcpu_list = []) := by
  by_cases hflag : (!w.hax.vmx_enable_flag || !w.hax.nx_enable_flag) = true
  · left
    simp [hax_create_vm, hflag]
  · have hvt : w.hax.vmx_enable_flag = true := by
      cases hv : w.hax.vmx_enable_flag <;> simp [hv] at hflag ⊢
    have hnx : w.hax.nx_enable_flag = true := by
      cases hn : w.hax.nx_enable_flag <;> simp [hn] at hflag ⊢
    by_cases hfree : ∃ i, i < 8 ∧ w.vm_mid_bits.testBit i = false
    · obtain ⟨i, hi8, hclr, hlow, hget⟩ := get_free_vm_mid_lowest w.vm_mid_bits hfree
      have hvalid := valid_vm_mid_ofNat i hi8
      cases hp : env.hvm with
      | none =>
        left
        simp only [hax_create_vm, hflag, hget, hvalid, hp]
        simp [World.put_vm_mid, World.log, hax_put_vm_mid_after_set _ _ hclr]
      | some p =>
        have hc := create_hva_cases cfg env (i : Int) p { vm_t.zero with vm_id := (i : Int) }
          (({ w with vm_mid_bits := w.vm_mid_bits ||| (1 <<< i) }.log
            (Ev.acquire (Res.vm_mid (i : Int)))).log (Ev.acquire (Res.vm p))) rfl
        have heq : hax_create_vm cfg env w
            = create_hva cfg env (i : Int) p { vm_t.zero with vm_id := (i : Int) }
              (({ w with vm_mid_bits := w.vm_mid_bits ||| (1 <<< i) }.log
                (Ev.acquire (Res.vm_mid (i : Int)))).log (Ev.acquire (Res.vm p))) := by
          simp only [hax_create_vm, hflag, hget, hvalid, hp]
          simp
        rw [heq]
        rcases hc with ⟨h1, _, h3, h4, h5⟩ | ⟨h1, h2, h3, h4, vm, h5, h6, h7, h8⟩
        · left
          refine ⟨h1, ?_, h4, h5⟩
          rw [h3]
          exact hax_put_vm_mid_after_set _ _ hclr
        · right
          exact ⟨i, p, hi8, hclr, hlow, hget, hvt, hnx, rfl, h1, h2, h3, h4, vm, h5, h6, h7, h8⟩
    · left
      have hall : ∀ i, i < 8 → w.vm_mid_bits.testBit i = true := by
        intro i hi
        by_contra hne
        exact hfree ⟨i, hi, by simpa using hne⟩
      have hget := get_free_vm_mid_exhausted w.vm_mid_bits hall
      have hinv : valid_vm_mid (-1) = false := by decide
      simp [hax_create_vm, hflag, hget, hinv]

/-! ## Successive creations -/

theorem low_bits_set_bit (k : Nat) : (2 ^ k - 1) ||| (1 <<< k) = 2 ^ (k + 1) - 1 := by
  apply Nat.eq_of_testBit_eq
  intro j
  rw [testBit_set_bit, Nat.testBit_two_pow_sub_one, Nat.testBit_two_pow_sub_one]
  by_cases h1 : j = k
  · subst h1; simp
  · by_cases h2 : j < k
    · have h3 : j < k + 1 := by omega
      simp [h1, h2, h3]
    · have h3 : ¬ j < k + 1 := by omega
      simp [h1, h2, h3]

theorem lowest_clear_of_low_bits (k i : Nat) (hclr : (2 ^ k - 1).testBit i = false)
    (hlow : ∀ j, j < i → (2 ^ k - 1).testBit j = true) : i = k := by
  rw [Nat.testBit_two_pow_sub_one] at hclr
  have h1 : ¬ i < k := by simpa using hclr
  by_contra hne
  have h2 : k < i := by omega
  have h3 := hlow k h2
  rw [Nat.testBit_two_pow_sub_one] at h3
  simp at h3

theorem create_many_ids (cfg : Config) : ∀ (envs : List create_env) (w : World) (k : Nat),
    w.vm_mid_bits = 2 ^ k - 1 →
    (∀ r, r ∈ (create_many cfg envs w).1 → r.1 ≠ none) →
    (create_many cfg envs w).1.map Prod.snd
      = (List.range' k envs.length).map (fun i : Nat => some (i : Int)) := by
  intro envs
  induction envs with
  | nil => intro w k _ _; rfl
  | cons e es ih =>
    intro w k hbits hall
    have hret : (hax_create_vm cfg e w).ret ≠ none :=
      hall ((hax_create_vm cfg e w).ret, (hax_create_vm cfg e w).vm_id)
        (by simp [create_many])
    rcases hax_create_vm_cases cfg e w with ⟨h1, _⟩ | ⟨i, p, _, hclr, hlow, _, _, _, _, _, hid, hb, _⟩
    · exact absurd h1 hret
    · rw [hbits] at hclr hlow
      have hik : i = k := lowest_clear_of_low_bits k i hclr hlow
      subst hik
      have hb2 : (hax_create_vm cfg e w).world.vm_mid_bits = 2 ^ (i + 1) - 1 := by
        rw [hb, hbits]; exact low_bits_set_bit i
      have hrest := ih (hax_create_vm cfg e w).world (i + 1) hb2
        (fun r hr => hall r (by simp [create_many]; exact Or.inr hr))
      simp only [create_many, List.map_cons, List.length_cons, List.range'_succ]
      rw [hrest, hid]

/-! ## C1: first-fit allocation of identifiers -/

/-- C1. For every value of the identifier bitmap with a clear bit among bits
0..7, `get_free_vm_mid` returns the lowest index `i` in 0..7 whose bit is
clear, sets bit `i` and leaves every other bit as it was; a successful
`hax_create_vm` on that bitmap stores and gives the VM this identifier and
changes the bitmap in this way.  On any state with an empty bitmap a
successful creation gets identifier 0, eight successive successful creations
get 0, 1, ..., 7 in that order, and on the empty system with a host whose
calls succeed the eight creations do succeed with these identifiers (shown
for the modern build and for the 32-bit legacy build). -/
theorem c1_first_fit (bits : Nat) (h : ∃ i, i < 8 ∧ bits.testBit i = false) :
    (∃ i : Nat, i < 8 ∧ bits.testBit i = false ∧
      (∀ j, j < i → bits.testBit j = true) ∧
      (get_free_vm_mid bits).1 = (i : Int) ∧
      (∀ j, (get_free_vm_mid bits).2.testBit j = (decide (j = i) || bits.testBit j)) ∧
      (∀ (cfg : Config) (env : create_env) (w : World) (p : Nat),
        w.vm_mid_bits = bits → (hax_create_vm cfg env w).ret = some p →
        (hax_create_vm cfg env w).vm_id = some (i : Int) ∧
        (∃ vm : vm_t, (hax_create_vm cfg env w).world.heap p = some vm ∧
          vm.vm_id = (i : Int)) ∧
        (∀ j, (hax_create_vm cfg env w).world.vm_mid_bits.testBit j
          = (decide (j = i) || bits.testBit j)))) ∧
    (∀ (cfg : Config) (env : create_env) (w : World) (p : Nat),
      w.vm_mid_bits = 0 → (hax_create_vm cfg env w).ret = some p →
      (hax_create_vm cfg env w).vm_id = some 0) ∧
    (∀ (cfg : Config) (envs : List create_env) (w : World),
      w.vm_mid_bits = 0 → envs.length = 8 →
      (∀ r, r ∈ (create_many cfg envs w).1 → r.1 ≠ none) →
      (create_many cfg envs w).1.map Prod.snd
        = [some 0, some 1, some 2, some 3, some 4, some 5, some 6, some 7]) ∧
    (create_many Config.ept2 (List.map create_env.ok [10, 11, 12, 13, 14, 15, 16, 17])
        World.empty).1
        = [(some 10, some 0), (some 11, some 1), (some 12, some 2), (some 13, some 3),
           (some 14, some 4), (some 15, some 5), (some 16, some 6), (some 17, some 7)] ∧
    (create_many Config.legacy32 (List.map create_env.ok [10, 11, 12, 13, 14, 15, 16, 17])
        World.empty).1
        = [(some 10, some 0), (some 11, some 1), (some 12, some 2), (some 13, some 3),
           (some 14, some 4), (some 15, some 5), (some 16, some 6), (some 17, some 7)] := by
  refine ⟨?_, ?_, ?_, by decide, by decide⟩
  · obtain ⟨i, hi8, hclr, hlow, hget⟩ := get_free_vm_mid_lowest bits h
    refine ⟨i, hi8, hclr, hlow, by rw [hget], ?_, ?_⟩
    · intro j
      rw [hget]
      exact testBit_set_bit bits i j
    · intro cfg env w p hw hret
      subst hw
      rcases hax_create_vm_cases cfg env w with
        ⟨h1, _⟩ | ⟨i2, p2, _, _, _, hget2, _, _, _, hr, hid, hb, _, vm, hheap, hvid, _, _⟩
      · rw [h1] at hret; exact Option.noConfusion hret
      · have hii : i2 = i := by
          have hfst : ((i2 : Nat) : Int) = (i : Int) :=
            congrArg Prod.fst (hget2.symm.trans hget)
          exact Int.ofNat.inj hfst
        subst hii
        have hpp : p2 = p := by
          rw [hr] at hret; exact Option.some.inj hret
        subst hpp
        refine ⟨hid, ⟨vm, ?_, hvid⟩, ?_⟩
        · rw [hheap]; simp
        · intro j
          rw [hb]
          exact testBit_set_bit _ _ j
  · intro cfg env w p hw hret
    rcases hax_create_vm_cases cfg env w with
      ⟨h1, _⟩ | ⟨i, _, _, hclr, hlow, _, _, _, _, _, hid, _⟩
    · rw [h1] at hret; exact Option.noConfusion hret
    · have hz : w.vm_mid_bits = 2 ^ 0 - 1 := hw
      rw [hz] at hclr hlow
      have hi0 := lowest_clear_of_low_bits 0 i hclr hlow
      subst hi0
      exact hid
  · intro cfg envs w hw hlen hall
    have hz : w.vm_mid_bits = 2 ^ 0 - 1 := hw
    rw [create_many_ids cfg envs w 0 hz hall, hlen]
    rfl

/-- C1 applied to the bitmap 0b1011, whose lowest clear bit is bit 2. -/
theorem c1_first_fit_witness :
    (∃ i, i < 8 ∧ Nat.testBit 11 i = false) ∧
    ∃ i : Nat, i < 8 ∧ Nat.testBit 11 i = false ∧
      (∀ j, j < i → Nat.testBit 11 j = true) ∧ (get_free_vm_mid 11).1 = (i : Int) :=
  ⟨⟨2, by decide, by decide⟩, by
    obtain ⟨i, h1, h2, h3, h4, _⟩ := (c1_first_fit 11 ⟨2, by decide, by decide⟩).1
    exact ⟨i, h1, h2, h3, h4⟩⟩

/-! ## C2: early refusal -/

/-- C2. When the VT flag or the NX flag is not enabled, or all eight
identifier bits are taken, `hax_create_vm` returns NULL, stores no identifier,
and the state is the one before the call: the identifier bitmap, the global
`hax` with its VM registry, the VM objects and the trace of resource calls
are unchanged. -/
theorem c2_early_refusal (cfg : Config) (env : create_env) (w : World)
    (h : w.hax.vmx_enable_flag = false ∨ w.hax.nx_enable_flag = false ∨
      ∀ i, i < 8 → w.vm_mid_bits.testBit i = true) :
    (hax_create_vm cfg env w).ret = none ∧
    (hax_create_vm cfg env w).vm_id = none ∧
    (hax_create_vm cfg env w).world.vm_mid_bits = w.vm_mid_bits ∧
    (hax_create_vm cfg env w).world.hax.hax_vmlist = w.hax.hax_vmlist ∧
    (hax_create_vm cfg env w).world.hax = w.hax ∧
    (hax_create_vm cfg env w).world.heap = w.heap ∧
    (hax_create_vm cfg env w).world.trace = w.trace := by
  rcases h with h | h | h
  · simp [hax_create_vm, h]
  · simp [hax_create_vm, h]
  · have hget := get_free_vm_mid_exhausted w.vm_mid_bits h
    have hinv : valid_vm_mid (-1) = false := by decide
    by_cases hflag : (!w.hax.vmx_enable_flag || !w.hax.nx_enable_flag) = true
    · simp only [hax_create_vm, hflag]
      simp
    · simp only [hax_create_vm, hflag, hget, hinv]
      simp

/-- C2 applied to the state with all eight identifiers taken. -/
theorem c2_early_refusal_witness :
    (hax_create_vm Config.ept2 (create_env.ok 10)
      { World.empty with vm_mid_bits := 255 }).ret = none ∧
    (hax_create_vm Config.ept2 (create_env.ok 10)
      { World.empty with vm_mid_bits := 255 }).world.vm_mid_bits = 255 ∧
    (hax_create_vm Config.ept2 (create_env.ok 10)
      { World.empty with vm_mid_bits := 255 }).world.hax.hax_vmlist = [] :=
  have h := c2_early_refusal Config.ept2 (create_env.ok 10)
    { World.empty with vm_mid_bits := 255 }
    (Or.inr (Or.inr (by
      intro i hi
      have : i = 0 ∨ i = 1 ∨ i = 2 ∨ i = 3 ∨ i = 4 ∨ i = 5 ∨ i = 6 ∨ i = 7 := by omega
      rcases this with h | h | h | h | h | h | h | h <;> subst h <;> decide)))
  ⟨h.1, h.2.2.1, h.2.2.2.1⟩

/-! ## C3: the published VM -/

/-- C3. Whenever `hax_create_vm` succeeds, the VM returned has the identifier
stored through `vm_id`, which lies in 0..7, a reference count of exactly 1 and
an empty VCPU list; it is in the registry afterwards; every VM registered
before is still registered, and no other VM object has changed. -/
theorem c3_published_vm (cfg : Config) (env : create_env) (w : World) (p : Nat)
    (h : (hax_create_vm cfg env w).ret = some p) :
    ∃ (i : Nat) (vm : vm_t), i < 8 ∧
      (hax_create_vm cfg env w).vm_id = some (i : Int) ∧
      (hax_create_vm cfg env w).world.heap p = some vm ∧
      vm.vm_id = (i : Int) ∧ vm.ref_count = 1 ∧ vm.vcpu_list = [] ∧
      p ∈ (hax_create_vm cfg env w).world.hax.hax_vmlist ∧
      (∀ q, q ∈ w.hax.hax_vmlist → q ∈ (hax_create_vm cfg env w).world.hax.hax_vmlist) ∧
      (∀ q, q ≠ p → (hax_create_vm cfg env w).world.heap q = w.heap q) := by
  rcases hax_create_vm_cases cfg env w with
    ⟨h1, _⟩ | ⟨i, p2, hi8, _, _, _, _, _, _, hr, hid, _, hhax, vm, hheap, hvid, hrc, hvl⟩
  · rw [h1] at h; exact Option.noConfusion h
  · have hpp : p2 = p := by
      rw [hr] at h; exact Option.some.inj h
    subst hpp
    refine ⟨i, vm, hi8, hid, ?_, hvid, hrc, hvl, ?_, ?_, ?_⟩
    · rw [hheap]; simp
    · rw [hhax]; simp
    · intro q hq
      rw [hhax]; simp [hq]
    · intro q hq
      rw [hheap]; simp [hq]

/-- C3 applied to the first creation on the empty system. -/
theorem c3_published_vm_witness :
    (hax_create_vm Config.ept2 (create_env.ok 10) World.empty).ret = some 10 ∧
    ∃ (i : Nat) (vm : vm_t), i < 8 ∧
      (hax_create_vm Config.ept2 (create_env.ok 10) World.empty).vm_id = some (i : Int) ∧
      (hax_create_vm Config.ept2 (create_env.ok 10) World.empty).world.heap 10 = some vm ∧
      vm.vm_id = (i : Int) ∧ vm.ref_count = 1 ∧ vm.vcpu_list = [] :=
  ⟨by decide, by
    obtain ⟨i, vm, h1, h2, h3, h4, h5, h6, _⟩ :=
      c3_published_vm Config.ept2 (create_env.ok 10) World.empty 10 (by decide)
    exact ⟨i, vm, h1, h2, h3, h4, h5, h6⟩⟩

/-! ## C4: rollback of a failed creation -/

theorem create_lock_host_some (cfg : Config) (env : create_env) (id : Int) (p : Nat)
    (hvm : vm_t) (w : World) (q : Nat)
    (h : (create_lock_host cfg env id p hvm w).ret = some q) :
    env.vm_lock = true ∧ ¬ env.hax_vm_create_host < 0 := by
  unfold create_lock_host at h
  split at h
  · rw [(create_fail1_rolled_back cfg id p w).1] at h; exact Option.noConfusion h
  · dsimp only at h
    split at h
    · rw [(create_fail2_rolled_back cfg id p _).1] at h; exact Option.noConfusion h
    · rename_i h1 h2
      exact ⟨by simpa using h1, h2⟩

theorem create_ept_some (cfg : Config) (env : create_env) (id : Int) (p : Nat)
    (hvm : vm_t) (w : World) (q : Nat)
    (h : (create_ept cfg env id p hvm w).ret = some q) :
    (cfg.CONFIG_HAX_EPT2 = true → env.gpa_space_init = 0 ∧ env.ept_tree_init = 0) ∧
    (cfg.CONFIG_HAX_EPT2 = false → env.ept_init = true) ∧
    env.vm_lock = true ∧ ¬ env.hax_vm_create_host < 0 := by
  unfold create_ept at h
  split at h
  · rename_i hc
    split at h
    · rw [(create_fail0_rolled_back cfg id p w).1] at h; exact Option.noConfusion h
    · dsimp only at h
      split at h
      · rw [(create_fail0_rolled_back cfg id p _).1] at h; exact Option.noConfusion h
      · rename_i h1 h2
        have hl := create_lock_host_some cfg env id p _ _ q h
        exact ⟨fun _ => ⟨by simpa using h1, by simpa using h2⟩,
          fun hf => by rw [hc] at hf; exact Bool.noConfusion hf, hl.1, hl.2⟩
  · rename_i hc
    split at h
    · rw [(create_fail0_rolled_back cfg id p w).1] at h; exact Option.noConfusion h
    · rename_i h1
      have hl := create_lock_host_some cfg env id p _ _ q h
      exact ⟨fun ht => absurd ht hc, fun _ => by simpa using h1, hl.1, hl.2⟩

theorem create_hva_some (cfg : Config) (env : create_env) (id : Int) (p : Nat)
    (hvm : vm_t) (w : World) (q : Nat)
    (h : (create_hva cfg env id p hvm w).ret = some q) :
    (cfg.HAX_ARCH_X86_32 = true → env.hva_list = true ∧ env.hva_list_1 = true) ∧
    (cfg.CONFIG_HAX_EPT2 = true → env.gpa_space_init = 0 ∧ env.ept_tree_init = 0) ∧
    (cfg.CONFIG_HAX_EPT2 = false → env.ept_init = true) ∧
    env.vm_lock = true ∧ ¬ env.hax_vm_create_host < 0 := by
  unfold create_hva at h
  split at h
  · split at h
    · rw [(create_fail_rolled_back id p w).1] at h; exact Option.noConfusion h
    · dsimp only at h
      split at h
      · rw [(create_fail00_rolled_back id p _).1] at h; exact Option.noConfusion h
      · rename_i h1 h2
        exact ⟨fun _ => ⟨by simpa using h1, by simpa using h2⟩,
          create_ept_some cfg env id p _ _ q h⟩
  · rename_i hc
    exact ⟨fun ht => absurd ht hc, create_ept_some cfg env id p _ _ q h⟩

/-- A creation that succeeds has seen every host call succeed. -/
theorem hax_create_vm_some_all_ok (cfg : Config) (env : create_env) (w : World) (q : Nat)
    (h : (hax_create_vm cfg env w).ret = some q) : create_env.all_ok cfg env := by
  unfold hax_create_vm at h
  split at h
  · exact Option.noConfusion h
  · dsimp only at h
    split at h
    · exact Option.noConfusion h
    · split at h
      · exact Option.noConfusion h
      · rename_i p hp
        exact ⟨by rw [hp]; exact Option.noConfusion, create_hva_some cfg env _ p _ _ q h⟩

/-- C4. When both flags are enabled and an identifier is free, and any host
call made after the identifier was allocated fails (the allocation of the VM
object or of a window list, the set-up of the translation context, the
allocation of the VCPU-list lock, or the host-side creation), `hax_create_vm`
returns NULL after having stored the identifier it took; the identifier
bitmap, the global `hax` with the registry, and the VM objects are those
before the call, so the next allocation hands out the same identifier. -/
theorem c4_full_rollback (cfg : Config) (env : create_env) (w : World)
    (hvt : w.hax.vmx_enable_flag = true) (hnx : w.hax.nx_enable_flag = true)
    (hfree : ∃ i, i < 8 ∧ w.vm_mid_bits.testBit i = false)
    (hfail : ¬ create_env.all_ok cfg env) :
    (hax_create_vm cfg env w).ret = none ∧
    (hax_create_vm cfg env w).vm_id = some (get_free_vm_mid w.vm_mid_bits).1 ∧
    valid_vm_mid (get_free_vm_mid w.vm_mid_bits).1 = true ∧
    (hax_create_vm cfg env w).world.vm_mid_bits = w.vm_mid_bits ∧
    (hax_create_vm cfg env w).world.hax.hax_vmlist = w.hax.hax_vmlist ∧
    (hax_create_vm cfg env w).world.hax = w.hax ∧
    (hax_create_vm cfg env w).world.heap = w.heap ∧
    get_free_vm_mid (hax_create_vm cfg env w).world.vm_mid_bits
      = get_free_vm_mid w.vm_mid_bits := by
  have hnone : (hax_create_vm cfg env w).ret = none := by
    cases hr : (hax_create_vm cfg env w).ret with
    | none => rfl
    | some q => exact absurd (hax_create_vm_some_all_ok cfg env w q hr) hfail
  obtain ⟨i, hi8, hclr, _, hget⟩ := get_free_vm_mid_lowest w.vm_mid_bits hfree
  have hvalid := valid_vm_mid_ofNat i hi8
  have hflag : (!w.hax.vmx_enable_flag || !w.hax.nx_enable_flag) = false := by
    simp [hvt, hnx]
  have hid : (hax_create_vm cfg env w).vm_id = some (i : Int) := by
    cases hp : env.hvm with
    | none => simp [hax_create_vm, hflag, hget, hvalid, hp]
    | some p =>
      have heq : hax_create_vm cfg env w
          = create_hva cfg env (i : Int) p { vm_t.zero with vm_id := (i : Int) }
            (({ w with vm_mid_bits := w.vm_mid_bits ||| (1 <<< i) }.log
              (Ev.acquire (Res.vm_mid (i : Int)))).log (Ev.acquire (Res.vm p))) := by
        simp only [hax_create_vm, hflag, hget, hvalid, hp]
        simp
      rw [heq] at hnone ⊢
      rcases create_hva_cases cfg env (i : Int) p { vm_t.zero with vm_id := (i : Int) }
        (({ w with vm_mid_bits := w.vm_mid_bits ||| (1 <<< i) }.log
          (Ev.acquire (Res.vm_mid (i : Int)))).log (Ev.acquire (Res.vm p))) rfl with
        ⟨_, h2, _⟩ | ⟨h1, _⟩
      · exact h2
      · rw [h1] at hnone; exact Option.noConfusion hnone
  rcases hax_create_vm_cases cfg env w with ⟨_, h2, h3, h4⟩ | ⟨_, _, _, _, _, _, _, _, _, hr, _⟩
  · refine ⟨hnone, ?_, ?_, h2, ?_, h3, h4, ?_⟩
    · rw [hid, hget]
    · rw [hget]; exact hvalid
    · rw [h3]
    · rw [h2]
  · rw [hr] at hnone; exact Option.noConfusion hnone

/-- C4 applied to the empty system when the allocation of the VCPU-list lock
fails. -/
theorem c4_full_rollback_witness :
    (hax_create_vm Config.ept2 { create_env.ok 10 with vm_lock := false }
      World.empty).ret = none ∧
    (hax_create_vm Config.ept2 { create_env.ok 10 with vm_lock := false }
      World.empty).world.vm_mid_bits = 0 ∧
    (hax_create_vm Config.ept2 { create_env.ok 10 with vm_lock := false }
      World.empty).world.hax.hax_vmlist = [] :=
  have h := c4_full_rollback Config.ept2 { create_env.ok 10 with vm_lock := false }
    World.empty rfl rfl ⟨0, by decide, by decide⟩
    (fun hok => Bool.noConfusion hok.2.2.2.2.1)
  ⟨h.1, h.2.2.2.1, h.2.2.2.2.1⟩

/-! ## C6: release of an identifier -/

theorem hax_put_vm_mid_spec (id : Int) (bits : Nat) (h0 : 0 ≤ id) (h8 : id < 8) :
    (∀ j, (hax_put_vm_mid id bits).2.testBit j
      = (!decide (j = id.toNat) && bits.testBit j)) ∧
    ((∀ j, j < id.toNat → bits.testBit j = true) →
      (get_free_vm_mid (hax_put_vm_mid id bits).2).1 = id) ∧
    (bits.testBit id.toNat = false →
      (hax_put_vm_mid id bits).1 = true ∧ (hax_put_vm_mid id bits).2 = bits) := by
  obtain ⟨n, rfl⟩ := Int.eq_ofNat_of_zero_le h0
  have hn8 : n < 8 := by omega
  have hbit : ∀ j, (hax_put_vm_mid (n : Int) bits).2.testBit j
      = (!decide (j = n) && bits.testBit j) := by
    intro j
    simp only [hax_put_vm_mid, hax_test_and_clear_bit, Int.toNat_ofNat]
    exact testBit_clear_bit bits n j
  refine ⟨by simpa using hbit, ?_, ?_⟩
  · intro hlow
    have hlow2 : ∀ j, j < n → bits.testBit j = true := by simpa using hlow
    have hfound := get_free_vm_mid_loop_found VM_MID_BIT 0
      (hax_put_vm_mid (n : Int) bits).2 n (Nat.zero_le n)
      (by simpa [VM_MID_BIT] using hn8)
      (by rw [hbit]; simp)
      (by
        intro j _ hj
        rw [hbit, hlow2 j hj]
        have : j ≠ n := by omega
        simp [this])
    show (get_free_vm_mid_loop VM_MID_BIT 0 (hax_put_vm_mid (n : Int) bits).2).1 = (n : Int)
    rw [hfound]
  · intro hclr
    have hclr2 : bits.testBit n = false := by simpa using hclr
    simp only [hax_put_vm_mid, hax_test_and_clear_bit, Int.toNat_ofNat]
    exact ⟨by simp [hclr2], clear_bit_of_clear bits n hclr2⟩

/-- C6. For `id` in 0..7, `hax_put_vm_mid(id)` leaves bit `id` clear and every
other bit as it was; after it, an allocation returns `id` as soon as every
lower identifier is taken; and when bit `id` was already clear the warning is
printed and the bitmap is unchanged. -/
theorem c6_put_vm_mid (id : Int) (bits : Nat) (h0 : 0 ≤ id) (h8 : id < 8) :
    (∀ j, (hax_put_vm_mid id bits).2.testBit j
      = (!decide (j = id.toNat) && bits.testBit j)) ∧
    ((∀ j, j < id.toNat → bits.testBit j = true) →
      (get_free_vm_mid (hax_put_vm_mid id bits).2).1 = id) ∧
    (bits.testBit id.toNat = false →
      (hax_put_vm_mid id bits).1 = true ∧ (hax_put_vm_mid id bits).2 = bits) :=
  hax_put_vm_mid_spec id bits h0 h8

/-- C6 applied to the release of identifier 1 from the bitmap 0b111. -/
theorem c6_put_vm_mid_witness :
    (∀ j, (hax_put_vm_mid 1 7).2.testBit j = (!decide (j = 1) && Nat.testBit 7 j)) ∧
    (get_free_vm_mid (hax_put_vm_mid 1 7).2).1 = 1 :=
  have h := c6_put_vm_mid 1 7 (by decide) (by decide)
  ⟨h.1, h.2.1 (by
    intro j hj
    have : j = 0 := by
      have h1 : (1 : Int).toNat = 1 := rfl
      omega
    subst this
    decide)⟩

/-! ## C7: the zero-guard of the lookup -/

theorem hax_get_vm_loop_skip (vm_id ref : Int) (w : World) :
    ∀ (pre rest : List Nat),
    (∀ q, q ∈ pre → ∃ u, w.heap q = some u ∧ u.vm_id ≠ vm_id) →
    hax_get_vm_loop vm_id ref (pre ++ rest) w = hax_get_vm_loop vm_id ref rest w := by
  intro pre
  induction pre with
  | nil => intro rest _; rfl
  | cons q qs ih =>
    intro rest h
    obtain ⟨u, hu, hne⟩ := h q (by simp)
    have hstep : hax_get_vm_loop vm_id ref (q :: (qs ++ rest)) w
        = hax_get_vm_loop vm_id ref (qs ++ rest) w := by
      simp [hax_get_vm_loop, hu, hne]
    rw [List.cons_append, hstep]
    exact ih rest (fun r hr => h r (by simp [hr]))

theorem store_same (w : World) (p : Nat) (vm : vm_t) (h : w.heap p = some vm) :
    w.store p vm = w := by
  cases w with
  | mk hax bits heap trace =>
    simp only [World.store]
    congr
    simp only at h
    rw [← h]
    exact Function.update_eq_self p heap

/-- C7. Lookup with a reference requested (`ref` non-zero), where the first
registered VM with identifier `vm_id` is the VM at `p` (all VMs linked before
it are live and have another identifier): if its reference count is positive,
`hax_get_vm` returns `p` and the count is one higher, nothing else changes; if
its count is zero or negative, `hax_get_vm` returns NULL and the state,
the count included, is the one before the call.  When no registered VM has
this identifier, `hax_get_vm` returns NULL and the state is unchanged. -/
theorem c7_zero_guard (w : World) (vm_id ref : Int) (href : ref ≠ 0) :
    (∀ (pre post : List Nat) (p : Nat) (vm : vm_t),
      w.hax.hax_vmlist = pre ++ p :: post →
      (∀ q, q ∈ pre → ∃ u, w.heap q = some u ∧ u.vm_id ≠ vm_id) →
      w.heap p = some vm → vm.vm_id = vm_id →
      (0 < vm.ref_count →
        hax_get_vm w vm_id ref
          = some (some p, w.store p { vm with ref_count := vm.ref_count + 1 })) ∧
      (vm.ref_count ≤ 0 → hax_get_vm w vm_id ref = some (none, w))) ∧
    ((∀ q, q ∈ w.hax.hax_vmlist → ∃ u, w.heap q = some u ∧ u.vm_id ≠ vm_id) →
      hax_get_vm w vm_id ref = some (none, w)) := by
  constructor
  · intro pre post p vm hlist hpre hp hid
    have hskip : hax_get_vm w vm_id ref = hax_get_vm_loop vm_id ref (p :: post) w := by
      unfold hax_get_vm
      rw [hlist]
      exact hax_get_vm_loop_skip vm_id ref w pre (p :: post) hpre
    constructor
    · intro hpos
      rw [hskip]
      have hng : ¬ vm.ref_count ≤ 0 := by omega
      simp [hax_get_vm_loop, hp, hid, href, hax_atomic_add, hng]
    · intro hneg
      rw [hskip]
      subst hid
      have hstep : hax_get_vm_loop vm.vm_id ref (p :: post) w
          = some (none, (w.store p { vm with ref_count := vm.ref_count + 1 }).store p
              { vm with ref_count := vm.ref_count + 1 - 1 }) := by
        simp [hax_get_vm_loop, hp, href, hax_atomic_add, hax_atomic_dec, hneg]
      have h3 : ({ vm with ref_count := vm.ref_count + 1 - 1 } : vm_t) = vm := by
        cases vm
        simp
      have h2 : (w.store p { vm with ref_count := vm.ref_count + 1 }).store p vm
          = w.store p vm := by
        simp [World.store]
      rw [hstep, h3, h2, store_same w p vm hp]
  · intro hall
    unfold hax_get_vm
    have := hax_get_vm_loop_skip vm_id ref w w.hax.hax_vmlist [] hall
    rw [List.append_nil] at this
    rw [this]
    rfl

/-- C7 applied to a registry of two VMs: the lookup of identifier 0, whose
VM has reference count 0, is refused. -/
theorem c7_zero_guard_witness :
    hax_get_vm (World.two_vms 0 []) 0 1 = some (none, World.two_vms 0 []) :=
  ((c7_zero_guard (World.two_vms 0 []) 0 1 (by decide)).1 [11] [] 10 (vm_t.mk3 0 0 [])
    rfl
    (by
      intro q hq
      have hq11 : q = 11 := by simpa using hq
      subst hq11
      exact ⟨vm_t.mk3 1 1 [], rfl, by decide⟩)
    rfl rfl).2 (by decide)

/-! ## C10: teardown of a VM that still has VCPUs -/

theorem hax_teardown_vm_nonempty (cfg : Config) (w : World) (p : Nat) (vm : vm_t)
    (hlive : w.heap p = some vm) (hvcpu : vm.vcpu_list ≠ []) :
    hax_teardown_vm cfg w p = some (-1, w) := by
  unfold hax_teardown_vm
  rw [hlive]
  have : vm.vcpu_list.isEmpty = false := by
    cases hl : vm.vcpu_list with
    | nil => exact absurd hl hvcpu
    | cons a t => rfl
  simp [this]

/-- C10. For every VM whose VCPU list is not empty, `hax_teardown_vm` returns
-1 and the state after the call is the state before it: the identifier
bitmap, the registry, every VM object with all its fields (p2m groups, lock,
windows, translation context) and the trace of resource calls. -/
theorem c10_teardown_refused (cfg : Config) (w : World) (p : Nat) (vm : vm_t)
    (hlive : w.heap p = some vm) (hvcpu : vm.vcpu_list ≠ []) :
    hax_teardown_vm cfg w p = some (-1, w) :=
  hax_teardown_vm_nonempty cfg w p vm hlive hvcpu

/-- C10 applied to a VM with one VCPU. -/
theorem c10_teardown_refused_witness :
    hax_teardown_vm Config.legacy32 (World.two_vms 1 [{ vcpu_id := 0, ref_count := 1 }]) 10
      = some (-1, World.two_vms 1 [{ vcpu_id := 0, ref_count := 1 }]) :=
  c10_teardown_refused Config.legacy32 (World.two_vms 1 [{ vcpu_id := 0, ref_count := 1 }]) 10
    (vm_t.mk3 0 1 [{ vcpu_id := 0, ref_count := 1 }]) rfl (by decide)

/-! ## The window recycler of teardown does not fault -/

theorem p2m_set_hva_hva_list (vm : vm_t) (e : Nat × Nat) (h : Nat) :
    (p2m_set_hva vm e h).hva_list = vm.hva_list := by
  unfold p2m_set_hva; split <;> rfl

theorem p2m_set_hva_hva_list_1 (vm : vm_t) (e : Nat × Nat) (h : Nat) :
    (p2m_set_hva vm e h).hva_list_1 = vm.hva_list_1 := by
  unfold p2m_set_hva; split <;> rfl

theorem p2m_set_hva_vm_id (vm : vm_t) (e : Nat × Nat) (h : Nat) :
    (p2m_set_hva vm e h).vm_id = vm.vm_id := by
  unfold p2m_set_hva; split <;> rfl

theorem p2m_set_hva_vcpu_list (vm : vm_t) (e : Nat × Nat) (h : Nat) :
    (p2m_set_hva vm e h).vcpu_list = vm.vcpu_list := by
  unfold p2m_set_hva; split <;> rfl

theorem p2m_set_hva_isSome (vm : vm_t) (e : Nat × Nat) (h : Nat) (g : Nat) :
    ((p2m_set_hva vm e h).p2m_map g).isSome = (vm.p2m_map g).isSome := by
  unfold p2m_set_hva
  split
  · rfl
  · rename_i grp hg
    by_cases hge : g = e.1
    · subst hge; simp [hg]
    · simp [Function.update_noteq hge]

theorem recycle_keeps_refl (cfg : Config) (vm : vm_t) (tr : List Ev)
    (h : window_ok cfg vm) : recycle_keeps cfg vm tr (vm, tr) :=
  ⟨h, rfl, rfl, fun _ => rfl, rfl, rfl, [], by simp, by simp⟩

theorem recycle_keeps_trans (cfg : Config) (vm0 : vm_t) (tr0 : List Ev)
    (r1 r2 : vm_t × List Ev) (h1 : recycle_keeps cfg vm0 tr0 r1)
    (h2 : recycle_keeps cfg r1.1 r1.2 r2) : recycle_keeps cfg vm0 tr0 r2 := by
  obtain ⟨_, a2, a3, a4, a5, a6, ext1, a7, a8⟩ := h1
  obtain ⟨b1, b2, b3, b4, b5, b6, ext2, b7, b8⟩ := h2
  refine ⟨b1, b2.trans a2, b3.trans a3, fun g => (b4 g).trans (a4 g), b5.trans a5,
    b6.trans a6, ext1 ++ ext2, ?_, ?_⟩
  · rw [b7, a7, List.append_assoc]
  · intro e he
    rcases List.mem_append.mp he with h | h
    · exact a8 e h
    · exact b8 e h

theorem recycle_total_evict_keeps (cfg : Config) (second : Bool) (lst : Nat → hva_entry)
    (i : Nat) (vm : vm_t) (tr : List Ev) (hok : window_ok cfg vm)
    (hsel : (if second then vm.hva_list_1 else vm.hva_list) = some lst)
    (hocc : (lst i).hva ≠ 0) :
    ∃ r, recycle_total_evict cfg second lst i vm tr = some r ∧
      recycle_keeps cfg vm tr r := by
  have hrange : cfg.gpfn_to_g (lst i).gpfn % 2 ^ 32 < cfg.MAX_GMEM_G := by
    apply hok lst _ i hocc
    cases second
    · left; simpa using hsel
    · right; simpa using hsel
  obtain ⟨entry, hentry⟩ : ∃ entry, hax_get_p2m_entry cfg vm (lst i).gpfn = some entry := by
    unfold hax_get_p2m_entry
    simp only [hrange, ↓reduceIte]
    split
    · exact ⟨_, rfl⟩
    · exact ⟨_, rfl⟩
  have hvm1 : (p2m_clear_hva vm entry).hva_list = vm.hva_list ∧
      (p2m_clear_hva vm entry).hva_list_1 = vm.hva_list_1 ∧
      (p2m_clear_hva vm entry).vm_id = vm.vm_id ∧
      (p2m_clear_hva vm entry).vcpu_list = vm.vcpu_list ∧
      ∀ g, ((p2m_clear_hva vm entry).p2m_map g).isSome = (vm.p2m_map g).isSome := by
    cases entry with
    | none => exact ⟨rfl, rfl, rfl, rfl, fun _ => rfl⟩
    | some e =>
      exact ⟨p2m_set_hva_hva_list vm e 0, p2m_set_hva_hva_list_1 vm e 0,
        p2m_set_hva_vm_id vm e 0, p2m_set_hva_vcpu_list vm e 0,
        p2m_set_hva_isSome vm e 0⟩
  obtain ⟨c1, c2, c3, c4, c5⟩ := hvm1
  have hzero : ∀ j, ((Function.update lst i hva_entry.zero) j).hva ≠ 0 →
      (Function.update lst i hva_entry.zero) j = lst j ∧ (lst j).hva ≠ 0 := by
    intro j hj
    by_cases hji : j = i
    · subst hji
      simp [hva_entry.zero] at hj
    · rw [Function.update_noteq hji] at hj ⊢
      exact ⟨rfl, hj⟩
  cases second with
  | false =>
    have hsel2 : vm.hva_list = some lst := by simpa using hsel
    refine ⟨_, by simp only [recycle_total_evict, hentry]; rfl, ?_, c3, c4, c5, ?_, ?_, ?_⟩
    · intro l hl j hj
      rcases hl with hl | hl
      · have hl2 : l = Function.update lst i hva_entry.zero := by
          simp only at hl
          exact (Option.some.inj hl).symm
        subst hl2
        obtain ⟨e1, e2⟩ := hzero j hj
        rw [e1]
        exact hok lst (Or.inl hsel2) j e2
      · simp only at hl
        rw [c2] at hl
        exact hok l (Or.inr hl) j hj
    · simp [hsel2]
    · simp only; rw [c2]
    · exact ⟨[Ev.release (Res.mapping (lst i).hva)], rfl, by
        intro e he
        exact ⟨_, by simpa using he⟩⟩
  | true =>
    have hsel2 : vm.hva_list_1 = some lst := by simpa using hsel
    refine ⟨_, by simp only [recycle_total_evict, hentry]; rfl, ?_, c3, c4, c5, ?_, ?_, ?_⟩
    · intro l hl j hj
      rcases hl with hl | hl
      · simp only at hl
        rw [c1] at hl
        exact hok l (Or.inl hl) j hj
      · have hl2 : l = Function.update lst i hva_entry.zero := by
          simp only at hl
          exact (Option.some.inj hl).symm
        subst hl2
        obtain ⟨e1, e2⟩ := hzero j hj
        rw [e1]
        exact hok lst (Or.inr hsel2) j e2
    · simp only; rw [c1]
    · simp [hsel2]
    · exact ⟨[Ev.release (Res.mapping (lst i).hva)], rfl, by
        intro e he
        exact ⟨_, by simpa using he⟩⟩

theorem recycle_total_loop_keeps (cfg : Config) (second any_level : Bool) :
    ∀ (n i : Nat) (vm : vm_t) (tr : List Ev), window_ok cfg vm →
    (if second then vm.hva_list_1 else vm.hva_list).isSome = true →
    ∃ r, recycle_total_loop cfg second any_level n i vm tr = some r ∧
      recycle_keeps cfg vm tr r := by
  intro n
  induction n with
  | zero =>
    intro i vm tr hok _
    exact ⟨(vm, tr), rfl, recycle_keeps_refl cfg vm tr hok⟩
  | succ n ih =>
    intro i vm tr hok hsome
    obtain ⟨lst, hlst⟩ := Option.isSome_iff_exists.mp hsome
    by_cases hc : ((any_level || decide ((lst i).level = 0)) && decide ((lst i).hva ≠ 0)) = true
    · have hocc : (lst i).hva ≠ 0 := by
        have := (Bool.and_eq_true _ _).mp hc
        simpa using this.2
      obtain ⟨r1, hr1, hk1⟩ := recycle_total_evict_keeps cfg second lst i vm tr hok hlst hocc
      have hsome1 : (if second then r1.1.hva_list_1 else r1.1.hva_list).isSome = true := by
        cases second
        · simp only [Bool.false_eq_true, ↓reduceIte] at hsome ⊢
          rw [hk1.2.2.2.2.1]; exact hsome
        · simp only [↓reduceIte] at hsome ⊢
          rw [hk1.2.2.2.2.2.1]; exact hsome
      obtain ⟨r2, hr2, hk2⟩ := ih (i + 1) r1.1 r1.2 hk1.1 hsome1
      refine ⟨r2, ?_, recycle_keeps_trans cfg vm tr r1 r2 hk1 hk2⟩
      simp only [recycle_total_loop, hlst, hc, ↓reduceIte, hr1]
      exact hr2
    · obtain ⟨r2, hr2, hk2⟩ := ih (i + 1) vm tr hok hsome
      refine ⟨r2, ?_, hk2⟩
      simp only [recycle_total_loop, hlst, hc]
      exact hr2

theorem recycle_keeps_isSome (cfg : Config) (vm0 : vm_t) (tr0 : List Ev)
    (r : vm_t × List Ev) (h : recycle_keeps cfg vm0 tr0 r) (second : Bool)
    (h0 : vm0.hva_list.isSome = true) (h1 : vm0.hva_list_1.isSome = true) :
    (if second then r.1.hva_list_1 else r.1.hva_list).isSome = true := by
  cases second
  · simp only [Bool.false_eq_true, ↓reduceIte]
    rw [h.2.2.2.2.1]; exact h0
  · simp only [↓reduceIte]
    rw [h.2.2.2.2.2.1]; exact h1

/-- On a VM whose windows are well formed, `gpfn_to_hva_recycle_total`
returns, and keeps what `recycle_keeps` lists. -/
theorem gpfn_to_hva_recycle_total_keeps (cfg : Config) (vm : vm_t) (tr : List Ev)
    (hok : window_ok cfg vm) :
    ∃ r, gpfn_to_hva_recycle_total cfg vm tr = some r ∧ recycle_keeps cfg vm tr r := by
  unfold gpfn_to_hva_recycle_total
  by_cases hnone : (vm.hva_list.isNone || vm.hva_list_1.isNone) = true
  · simp only [hnone, ↓reduceIte]
    exact ⟨(vm, tr), rfl, recycle_keeps_refl cfg vm tr hok⟩
  · have h0 : vm.hva_list.isSome = true := by
      cases h : vm.hva_list <;> simp [h] at hnone ⊢
    have h1 : vm.hva_list_1.isSome = true := by
      cases h : vm.hva_list_1 <;> simp [h] at hnone ⊢
    simp only [hnone]
    obtain ⟨a, ha, ka⟩ := recycle_total_loop_keeps cfg false false
      ((cfg.HOST_VIRTUAL_ADDR_LIMIT - cfg.HOST_VIRTUAL_ADDR_RECYCLE) / 4096) 0 vm tr hok
      (by simpa using h0)
    obtain ⟨b, hb, kb⟩ := recycle_total_loop_keeps cfg false true
      ((cfg.HOST_VIRTUAL_ADDR_LIMIT - cfg.HOST_VIRTUAL_ADDR_RECYCLE) / 4096) 0 a.1 a.2 ka.1
      (recycle_keeps_isSome cfg vm tr a ka false h0 h1)
    have kab := recycle_keeps_trans cfg vm tr a b ka kb
    obtain ⟨c, hc, kc⟩ := recycle_total_loop_keeps cfg true false
      (cfg.HOST_VIRTUAL_ADDR_RECYCLE / 4096) 0 b.1 b.2 kb.1
      (recycle_keeps_isSome cfg vm tr b kab true h0 h1)
    have kac := recycle_keeps_trans cfg vm tr b c kab kc
    obtain ⟨d, hd, kd⟩ := recycle_total_loop_keeps cfg true true
      (cfg.HOST_VIRTUAL_ADDR_RECYCLE / 4096) 0 c.1 c.2 kc.1
      (recycle_keeps_isSome cfg vm tr c kac true h0 h1)
    refine ⟨d, ?_, recycle_keeps_trans cfg vm tr c d kac kd⟩
    simp only [ha, hb, hc, Option.some_bind]
    exact hd

/-! ## `hax_vm_free_p2m_map` frees each allocated group once -/

theorem hax_vm_free_p2m_map_loop_spec (p : Nat) : ∀ (n i : Nat) (vm : vm_t) (tr : List Ev),
    (hax_vm_free_p2m_map_loop p n i vm tr).1.vm_id = vm.vm_id ∧
    (hax_vm_free_p2m_map_loop p n i vm tr).2
      = tr ++ ((List.range' i n).filter (fun g => (vm.p2m_map g).isSome)).map
          (fun g => Ev.release (Res.p2m_group p g)) := by
  intro n
  induction n with
  | zero => intro i vm tr; simp [hax_vm_free_p2m_map_loop]
  | succ n ih =>
    intro i vm tr
    cases hg : vm.p2m_map i with
    | none =>
      have hstep : hax_vm_free_p2m_map_loop p (n + 1) i vm tr
          = hax_vm_free_p2m_map_loop p n (i + 1) vm tr := by
        simp [hax_vm_free_p2m_map_loop, hg]
      rw [hstep, List.range'_succ, List.filter_cons]
      simp only [hg, Option.isSome_none, Bool.false_eq_true, ↓reduceIte]
      exact ih (i + 1) vm tr
    | some grp =>
      have hstep : hax_vm_free_p2m_map_loop p (n + 1) i vm tr
          = hax_vm_free_p2m_map_loop p n (i + 1)
              { vm with p2m_map := Function.update vm.p2m_map i none }
              (tr ++ [Ev.release (Res.p2m_group p i)]) := by
        simp [hax_vm_free_p2m_map_loop, hg]
      rw [hstep, List.range'_succ, List.filter_cons]
      simp only [hg, Option.isSome_some, ↓reduceIte, List.map_cons]
      obtain ⟨h1, h2⟩ := ih (i + 1) { vm with p2m_map := Function.update vm.p2m_map i none }
        (tr ++ [Ev.release (Res.p2m_group p i)])
      refine ⟨h1, ?_⟩
      rw [h2]
      have hcongr : (List.range' (i + 1) n).filter
            (fun g => ((Function.update vm.p2m_map i none) g).isSome)
          = (List.range' (i + 1) n).filter (fun g => (vm.p2m_map g).isSome) := by
        apply List.filter_congr
        intro g hgm
        have : g ≠ i := by
          have := (List.mem_range'_1.mp hgm).1
          omega
        rw [Function.update_noteq this]
      simp only [hcongr, List.append_assoc, List.singleton_append]

/-! ## A successful teardown -/

theorem teardown_hva_spec (cfg : Config) (p : Nat) (vm : vm_t) (tr : List Ev)
    (hwin : cfg.HAX_ARCH_X86_32 = true → window_ok cfg vm) :
    ∃ r maps, teardown_hva cfg p vm tr = some r ∧ r.1.vm_id = vm.vm_id ∧
      (∀ g, (r.1.p2m_map g).isSome = (vm.p2m_map g).isSome) ∧
      (∀ e, e ∈ maps → ∃ h, e = Ev.release (Res.mapping h)) ∧
      r.2 = tr ++ maps ++
        (if cfg.HAX_ARCH_X86_32 && vm.hva_list.isSome then
          [Ev.release (Res.hva_list p), Ev.release (Res.hva_list_1 p)] else []) := by
  unfold teardown_hva
  by_cases hc : (cfg.HAX_ARCH_X86_32 && vm.hva_list.isSome) = true
  · have h32 : cfg.HAX_ARCH_X86_32 = true := ((Bool.and_eq_true _ _).mp hc).1
    obtain ⟨r, hr, hk⟩ := gpfn_to_hva_recycle_total_keeps cfg vm tr (hwin h32)
    obtain ⟨_, k2, _, k4, _, _, ext, k7, k8⟩ := hk
    refine ⟨(r.1, r.2 ++ [Ev.release (Res.hva_list p), Ev.release (Res.hva_list_1 p)]),
      ext, by simp only [hc, ↓reduceIte, hr, Option.map_some'], k2, k4, k8, ?_⟩
    simp only [hc, ↓reduceIte]
    rw [k7]
  · refine ⟨(vm, tr), [], by simp only [hc]; rfl, rfl, fun _ => rfl, by simp, ?_⟩
    simp [hc]

/-- On a live VM with no VCPU whose windows are well formed (32-bit build),
`hax_teardown_vm` returns 0, frees the VM object, gives back its identifier
and makes exactly the resource calls of `teardown_trace`. -/
theorem hax_teardown_vm_done (cfg : Config) (w : World) (p : Nat) (vm : vm_t)
    (hlive : w.heap p = some vm) (hempty : vm.vcpu_list = [])
    (hwin : cfg.HAX_ARCH_X86_32 = true → window_ok cfg vm) :
    ∃ w' maps, hax_teardown_vm cfg w p = some (0, w') ∧
      w'.heap = Function.update w.heap p none ∧
      w'.hax = w.hax ∧
      w'.vm_mid_bits = (hax_put_vm_mid vm.vm_id w.vm_mid_bits).2 ∧
      (∀ e, e ∈ maps → ∃ h, e = Ev.release (Res.mapping h)) ∧
      w'.trace = w.trace ++ teardown_trace cfg p vm maps := by
  obtain ⟨r, maps, hr, hid, hsome, hmaps, htr⟩ := teardown_hva_spec cfg p vm w.trace hwin
  obtain ⟨f1, f2⟩ := hax_vm_free_p2m_map_loop_spec p cfg.MAX_GMEM_G 0 r.1
    (if !cfg.CONFIG_HAX_EPT2 then r.2 ++ [Ev.release (Res.ept p)] else r.2)
  have hfilter : (List.range' 0 cfg.MAX_GMEM_G).filter (fun g => (r.1.p2m_map g).isSome)
      = (List.range' 0 cfg.MAX_GMEM_G).filter (fun g => (vm.p2m_map g).isSome) :=
    List.filter_congr (fun g _ => hsome g)
  rw [hfilter] at f2
  have hrun : hax_teardown_vm cfg w p = some (0,
      { hax := w.hax,
        vm_mid_bits := (hax_put_vm_mid (hax_vm_free_p2m_map cfg p r.1
          (if !cfg.CONFIG_HAX_EPT2 then r.2 ++ [Ev.release (Res.ept p)] else r.2)).1.vm_id
          w.vm_mid_bits).2,
        heap := Function.update w.heap p none,
        trace := (if cfg.CONFIG_HAX_EPT2 then
            ((hax_vm_free_p2m_map cfg p r.1
              (if !cfg.CONFIG_HAX_EPT2 then r.2 ++ [Ev.release (Res.ept p)] else r.2)).2
              ++ [Ev.release (Res.vm_lock p)]
              ++ [Ev.release (Res.vm_mid (hax_vm_free_p2m_map cfg p r.1
                (if !cfg.CONFIG_HAX_EPT2 then r.2 ++ [Ev.release (Res.ept p)]
                  else r.2)).1.vm_id)])
              ++ [Ev.release (Res.gpa_space_listener p), Ev.release (Res.ept_tree p),
                  Ev.release (Res.gpa_space p)]
          else
            ((hax_vm_free_p2m_map cfg p r.1
              (if !cfg.CONFIG_HAX_EPT2 then r.2 ++ [Ev.release (Res.ept p)] else r.2)).2
              ++ [Ev.release (Res.vm_lock p)]
              ++ [Ev.release (Res.vm_mid (hax_vm_free_p2m_map cfg p r.1
                (if !cfg.CONFIG_HAX_EPT2 then r.2 ++ [Ev.release (Res.ept p)]
                  else r.2)).1.vm_id)]))
          ++ [Ev.release (Res.vm p)] }) := by
    unfold hax_teardown_vm
    rw [hlive]
    simp only [hempty, List.isEmpty_nil, Bool.not_true, Bool.false_eq_true, ↓reduceIte, hr]
    rfl
  refine ⟨_, maps, hrun, rfl, rfl, ?_, hmaps, ?_⟩
  · show (hax_put_vm_mid (hax_vm_free_p2m_map_loop p cfg.MAX_GMEM_G 0 r.1 _).1.vm_id
      w.vm_mid_bits).2 = _
    rw [f1, hid]
  · show (if cfg.CONFIG_HAX_EPT2 then _ else _) ++ [Ev.release (Res.vm p)] = _
    unfold hax_vm_free_p2m_map
    rw [f1, f2, hid, htr]
    unfold teardown_trace
    cases cfg.CONFIG_HAX_EPT2 <;> simp [List.append_assoc]

/-! ## C8: release of a reference -/

theorem hax_put_vm_other (cfg : Config) (w : World) (p : Nat) (vm : vm_t)
    (hlive : w.heap p = some vm) (hrc : vm.ref_count ≠ 1) :
    hax_put_vm cfg w p
      = some (vm.ref_count, w.store p { vm with ref_count := vm.ref_count - 1 }) := by
  simp [hax_put_vm, hlive, hax_atomic_dec, hrc]

theorem hax_put_vm_last (cfg : Config) (w : World) (p : Nat) (vm : vm_t)
    (hlive : w.heap p = some vm) (hrc : vm.ref_count = 1) :
    hax_put_vm cfg w p
      = (hax_teardown_vm cfg (w.before_teardown p vm) p).map (fun r => ((1 : Int), r.2)) := by
  simp only [hax_put_vm, hlive, hax_atomic_dec, hrc, ↓reduceIte]
  have hw : ({ w.store p { vm with ref_count := 1 - 1 } with
      hax := { (w.store p { vm with ref_count := 1 - 1 }).hax with
        hax_vmlist := hax_list_del p (w.store p { vm with ref_count := 1 - 1 }).hax.hax_vmlist }
      } : World).log (Ev.release (Res.vm_host p)) = w.before_teardown p vm := by
    simp [World.before_teardown, World.store, World.log, hrc]
  rw [hw]
  cases hax_teardown_vm cfg (w.before_teardown p vm) p <;> rfl

theorem before_teardown_heap (w : World) (p : Nat) (vm : vm_t) :
    (w.before_teardown p vm).heap p = some { vm with ref_count := vm.ref_count - 1 } := by
  simp [World.before_teardown]

/-- C8. On a live VM (with well-formed windows in the 32-bit build)
`hax_put_vm` returns the reference count as it was before the call.  If that
count was not 1, the only change is that the count of this VM is lower by
one: the registry, the identifier bitmap, every other field of the VM, every
other VM and the trace of resource calls are unchanged, so no hook was run.
If that count was 1, the count is lowered by one, the VM is removed from the
registry, the host-teardown hook is run, and `hax_teardown_vm` is run on the
resulting state; its outcome is the state after the call, in which the VM is
no longer registered. -/
theorem c8_put_vm (cfg : Config) (w : World) (p : Nat) (vm : vm_t)
    (hlive : w.heap p = some vm)
    (hwin : cfg.HAX_ARCH_X86_32 = true → window_ok cfg vm) :
    (∃ w', hax_put_vm cfg w p = some (vm.ref_count, w')) ∧
    (vm.ref_count ≠ 1 →
      ∃ w', hax_put_vm cfg w p = some (vm.ref_count, w') ∧
        w'.heap = Function.update w.heap p (some { vm with ref_count := vm.ref_count - 1 }) ∧
        w'.hax = w.hax ∧ w'.vm_mid_bits = w.vm_mid_bits ∧ w'.trace = w.trace) ∧
    (vm.ref_count = 1 →
      (w.before_teardown p vm).heap p = some { vm with ref_count := vm.ref_count - 1 } ∧
      p ∉ (w.before_teardown p vm).hax.hax_vmlist ∧
      (w.before_teardown p vm).trace = w.trace ++ [Ev.release (Res.vm_host p)] ∧
      ∃ r, hax_teardown_vm cfg (w.before_teardown p vm) p = some r ∧
        hax_put_vm cfg w p = some (1, r.2) ∧
        p ∉ r.2.hax.hax_vmlist ∧ Ev.release (Res.vm_host p) ∈ r.2.trace) := by
  have hlast : vm.ref_count = 1 →
      ∃ r, hax_teardown_vm cfg (w.before_teardown p vm) p = some r ∧
        hax_put_vm cfg w p = some (1, r.2) ∧
        p ∉ r.2.hax.hax_vmlist ∧ Ev.release (Res.vm_host p) ∈ r.2.trace := by
    intro hrc
    have hput := hax_put_vm_last cfg w p vm hlive hrc
    have hnotin : p ∉ (w.before_teardown p vm).hax.hax_vmlist := by
      simp [World.before_teardown, hax_list_del]
    by_cases hempty : vm.vcpu_list = []
    · obtain ⟨w', maps, ht, _, hhax, _, _, htr⟩ :=
        hax_teardown_vm_done cfg (w.before_teardown p vm) p
          { vm with ref_count := vm.ref_count - 1 } (before_teardown_heap w p vm) hempty hwin
      refine ⟨(0, w'), ht, by rw [hput, ht]; rfl, by rw [hhax]; exact hnotin, ?_⟩
      simp only
      rw [htr]
      simp [World.before_teardown]
    · have ht := hax_teardown_vm_nonempty cfg (w.before_teardown p vm) p
        { vm with ref_count := vm.ref_count - 1 } (before_teardown_heap w p vm) hempty
      refine ⟨(-1, w.before_teardown p vm), ht, by rw [hput, ht]; rfl, hnotin, ?_⟩
      simp [World.before_teardown]
  refine ⟨?_, ?_, ?_⟩
  · by_cases hrc : vm.ref_count = 1
    · obtain ⟨r, _, h2, _⟩ := hlast hrc
      exact ⟨r.2, by rw [h2, hrc]⟩
    · exact ⟨_, hax_put_vm_other cfg w p vm hlive hrc⟩
  · intro hrc
    exact ⟨_, hax_put_vm_other cfg w p vm hlive hrc, rfl, rfl, rfl, rfl⟩
  · intro hrc
    refine ⟨before_teardown_heap w p vm, ?_, rfl, hlast hrc⟩
    simp [World.before_teardown, hax_list_del]

/-- C8 applied to a VM with two references: the call returns 2. -/
theorem c8_put_vm_witness :
    ∃ w', hax_put_vm Config.ept2 (World.two_vms 2 []) 10 = some (2, w') :=
  (c8_put_vm Config.ept2 (World.two_vms 2 []) 10 (vm_t.mk3 0 2 []) rfl
    (fun h => Bool.noConfusion h)).1

/-! ## C9: release of the last reference -/

/-- C9, counterexample. A registered VM (identifier 0) with reference count 1
that still has a VCPU: `hax_put_vm` returns 1 and unlinks the VM, but
`hax_teardown_vm` refuses, so the VM object stays allocated, bit 0 of the
bitmap stays set, and the only resource call is the host-teardown hook: the
allocated p2m group is not released. -/
theorem c9_counterexample :
    (World.vm_with_vcpu.heap 10).map (fun vm => (vm.vm_id, vm.ref_count)) = some (0, 1) ∧
    10 ∈ World.vm_with_vcpu.hax.hax_vmlist ∧
    (hax_put_vm Config.ept2 World.vm_with_vcpu 10).map
      (fun r => (r.1, r.2.hax.hax_vmlist, r.2.vm_mid_bits.testBit 0,
        (r.2.heap 10).isSome, r.2.trace))
      = some (1, [], true, true, [Ev.release (Res.vm_host 10)]) := by
  refine ⟨by decide, by decide, by decide⟩

/-- C9, amended. For every registered VM whose reference count is 1, whose
VCPU list is empty and whose identifier lies in 0..7 (with well-formed windows
in the 32-bit build), `hax_put_vm` returns 1; afterwards the VM is no longer
in the registry, its object is freed, the resource calls made are the
host-teardown hook followed by those of `teardown_trace`, among them the
release of every allocated p2m group, of the lock and of the VM object; the
bit of its identifier is clear and every other bit is unchanged, so that the
next scan of the bitmap succeeds with an identifier no higher than this one,
and with this very identifier when all lower ones are taken. -/
theorem c9_last_put_frees (cfg : Config) (w : World) (p : Nat) (vm : vm_t)
    (hlive : w.heap p = some vm) (_hreg : p ∈ w.hax.hax_vmlist)
    (hrc : vm.ref_count = 1) (hempty : vm.vcpu_list = [])
    (hid : valid_vm_mid vm.vm_id = true)
    (hwin : cfg.HAX_ARCH_X86_32 = true → window_ok cfg vm) :
    ∃ w' maps, hax_put_vm cfg w p = some (1, w') ∧
      p ∉ w'.hax.hax_vmlist ∧
      (∀ q, q ≠ p → (q ∈ w'.hax.hax_vmlist ↔ q ∈ w.hax.hax_vmlist)) ∧
      w'.heap p = none ∧ (∀ q, q ≠ p → w'.heap q = w.heap q) ∧
      (∀ e, e ∈ maps → ∃ h, e = Ev.release (Res.mapping h)) ∧
      w'.trace = w.trace ++ [Ev.release (Res.vm_host p)] ++ teardown_trace cfg p vm maps ∧
      (∀ g, g < cfg.MAX_GMEM_G → vm.p2m_map g ≠ none →
        Ev.release (Res.p2m_group p g) ∈ w'.trace) ∧
      Ev.release (Res.vm_lock p) ∈ w'.trace ∧ Ev.release (Res.vm p) ∈ w'.trace ∧
      w'.vm_mid_bits.testBit vm.vm_id.toNat = false ∧
      (∀ j, j ≠ vm.vm_id.toNat → w'.vm_mid_bits.testBit j = w.vm_mid_bits.testBit j) ∧
      (∃ i : Nat, i ≤ vm.vm_id.toNat ∧ (get_free_vm_mid w'.vm_mid_bits).1 = (i : Int)) ∧
      ((∀ j, j < vm.vm_id.toNat → w.vm_mid_bits.testBit j = true) →
        (get_free_vm_mid w'.vm_mid_bits).1 = vm.vm_id) := by
  have hid0 : 0 ≤ vm.vm_id ∧ vm.vm_id < 8 := by
    simpa [valid_vm_mid, VM_MID_BIT] using hid
  obtain ⟨s1, s2, _⟩ := hax_put_vm_mid_spec vm.vm_id w.vm_mid_bits hid0.1 hid0.2
  obtain ⟨w', maps, ht, hheap, hhax, hbits, hmaps, htr⟩ :=
    hax_teardown_vm_done cfg (w.before_teardown p vm) p
      { vm with ref_count := vm.ref_count - 1 } (before_teardown_heap w p vm) hempty hwin
  have hbits2 : w'.vm_mid_bits = (hax_put_vm_mid vm.vm_id w.vm_mid_bits).2 := hbits
  have htr2 : w'.trace
      = w.trace ++ [Ev.release (Res.vm_host p)] ++ teardown_trace cfg p vm maps := htr
  have hclr : w'.vm_mid_bits.testBit vm.vm_id.toNat = false := by
    rw [hbits2, s1]; simp
  have hn8 : vm.vm_id.toNat < 8 := by omega
  refine ⟨w', maps, ?_, ?_, ?_, ?_, ?_, hmaps, htr2, ?_, ?_, ?_, hclr, ?_, ?_, ?_⟩
  · rw [hax_put_vm_last cfg w p vm hlive hrc, ht]; rfl
  · rw [hhax]; simp [World.before_teardown, hax_list_del]
  · intro q hq
    rw [hhax]
    simp [World.before_teardown, hax_list_del, hq]
  · rw [hheap]; simp
  · intro q hq
    rw [hheap]
    simp [World.before_teardown, Function.update_noteq hq]
  · intro g hg hsome
    rw [htr2]
    have hmem : g ∈ (List.range' 0 cfg.MAX_GMEM_G).filter (fun g => (vm.p2m_map g).isSome) := by
      rw [List.mem_filter]
      refine ⟨List.mem_range'_1.mpr ⟨Nat.zero_le g, by omega⟩, ?_⟩
      cases h : vm.p2m_map g with
      | none => exact absurd h hsome
      | some _ => rfl
    have hev : Ev.release (Res.p2m_group p g)
        ∈ ((List.range' 0 cfg.MAX_GMEM_G).filter (fun g => (vm.p2m_map g).isSome)).map
            (fun g => Ev.release (Res.p2m_group p g)) :=
      List.mem_map.mpr ⟨g, hmem, rfl⟩
    unfold teardown_trace
    simp only [List.mem_append]
    exact Or.inr (Or.inl (Or.inl (Or.inl (Or.inr hev))))
  · rw [htr2]
    unfold teardown_trace
    simp
  · rw [htr2]
    unfold teardown_trace
    simp
  · intro j hj
    rw [hbits2, s1]
    simp [hj]
  · obtain ⟨i, _, hic, hlow, hget⟩ :=
      get_free_vm_mid_lowest w'.vm_mid_bits ⟨vm.vm_id.toNat, hn8, hclr⟩
    refine ⟨i, ?_, by rw [hget]⟩
    by_contra hgt
    have := hlow vm.vm_id.toNat (by omega)
    rw [hclr] at this
    exact Bool.noConfusion this
  · intro hlow
    rw [hbits2]
    exact s2 hlow

/-- C9 (amended) applied to the release of the only reference of VM 0 in a
registry of two VMs. -/
theorem c9_last_put_frees_witness :
    ∃ w', hax_put_vm Config.legacy32 (World.two_vms 1 []) 10 = some (1, w') ∧
      10 ∉ w'.hax.hax_vmlist ∧ w'.heap 10 = none ∧
      w'.vm_mid_bits.testBit 0 = false := by
  obtain ⟨w', _, h1, h2, _, h4, _, _, _, _, _, _, h11, _⟩ :=
    c9_last_put_frees Config.legacy32 (World.two_vms 1 []) 10 (vm_t.mk3 0 1 []) rfl
      (by decide) rfl rfl (by decide)
      (by
        intro _ lst hl
        rcases hl with hl | hl <;> exact Option.noConfusion hl)
  exact ⟨w', h1, h2, h4, h11⟩

/-! ## C5: the order of the releases on a failed creation -/

theorem acquired_append (a b : List Ev) : acquired (a ++ b) = acquired a ++ acquired b := by
  induction a with
  | nil => rfl
  | cons e t ih => cases e <;> simp [acquired, ih]

theorem released_append (a b : List Ev) : released (a ++ b) = released a ++ released b := by
  induction a with
  | nil => rfl
  | cons e t ih => cases e <;> simp [released, ih]

theorem create_fail_trace (id : Int) (p : Nat) (w : World) :
    (create_fail id p w).world.trace
      = w.trace ++ [Ev.release (Res.vm p), Ev.release (Res.vm_mid id)] := by
  simp [create_fail, World.log, World.put_vm_mid]

theorem create_fail00_trace (id : Int) (p : Nat) (w : World) :
    (create_fail00 id p w).world.trace
      = w.trace ++ [Ev.release (Res.hva_list p), Ev.release (Res.vm p),
          Ev.release (Res.vm_mid id)] := by
  simp [create_fail00, create_fail_trace, World.log]

theorem create_fail0_trace (cfg : Config) (id : Int) (p : Nat) (w : World) :
    (create_fail0 cfg id p w).world.trace
      = w.trace ++ ((if cfg.HAX_ARCH_X86_32 then
          [Ev.release (Res.hva_list_1 p), Ev.release (Res.hva_list p)] else []) ++
          [Ev.release (Res.vm p), Ev.release (Res.vm_mid id)]) := by
  unfold create_fail0
  split
  · simp [create_fail00_trace, World.log]
  · simp [create_fail_trace]

theorem create_fail1_trace (cfg : Config) (id : Int) (p : Nat) (w : World) :
    (create_fail1 cfg id p w).world.trace
      = w.trace ++ (Ev.release (Res.ept p) :: ((if cfg.HAX_ARCH_X86_32 then
          [Ev.release (Res.hva_list_1 p), Ev.release (Res.hva_list p)] else []) ++
          [Ev.release (Res.vm p), Ev.release (Res.vm_mid id)])) := by
  simp [create_fail1, create_fail0_trace, World.log]

theorem create_fail2_trace (cfg : Config) (id : Int) (p : Nat) (w : World) :
    (create_fail2 cfg id p w).world.trace
      = w.trace ++ (Ev.release (Res.vm_lock p) :: Ev.release (Res.ept p) ::
          ((if cfg.HAX_ARCH_X86_32 then
          [Ev.release (Res.hva_list_1 p), Ev.release (Res.hva_list p)] else []) ++
          [Ev.release (Res.vm p), Ev.release (Res.vm_mid id)])) := by
  simp [create_fail2, create_fail1_trace, World.log]

theorem released_window_lists (b : Bool) (p : Nat) :
    released (if b then [Ev.release (Res.hva_list_1 p), Ev.release (Res.hva_list p)] else [])
      = (if b then [Res.hva_list_1 p, Res.hva_list p] else []) ∧
    acquired (if b then [Ev.release (Res.hva_list_1 p), Ev.release (Res.hva_list p)] else [])
      = [] := by
  cases b <;> exact ⟨rfl, rfl⟩

theorem create_lock_host_trace (cfg : Config) (env : create_env) (id : Int) (p : Nat)
    (hvm : vm_t) (w : World)
    (hnone : (create_lock_host cfg env id p hvm w).ret = none) :
    ∃ evs, (create_lock_host cfg env id p hvm w).world.trace = w.trace ++ evs ∧
      released evs = (acquired evs).reverse ++ (Res.ept p ::
        ((if cfg.HAX_ARCH_X86_32 then [Res.hva_list_1 p, Res.hva_list p] else []) ++
          [Res.vm p, Res.vm_mid id])) := by
  unfold create_lock_host at hnone ⊢
  split
  · refine ⟨_, create_fail1_trace cfg id p w, ?_⟩
    simp [released, acquired, released_append, acquired_append, released_window_lists]
  · rename_i hl
    simp only [hl] at hnone
    dsimp only at hnone ⊢
    split
    · refine ⟨Ev.acquire (Res.vm_lock p) :: Ev.release (Res.vm_lock p) ::
          Ev.release (Res.ept p) :: ((if cfg.HAX_ARCH_X86_32 then
            [Ev.release (Res.hva_list_1 p), Ev.release (Res.hva_list p)] else []) ++
            [Ev.release (Res.vm p), Ev.release (Res.vm_mid id)]), ?_, ?_⟩
      · rw [create_fail2_trace]
        simp only [World.log, List.append_assoc, List.singleton_append]
      · simp [released, acquired, released_append, acquired_append, released_window_lists]
    · rename_i hh
      simp [hh] at hnone

theorem create_ept_legacy_trace (cfg : Config) (env : create_env) (id : Int) (p : Nat)
    (hvm : vm_t) (w : World) (hept2 : cfg.CONFIG_HAX_EPT2 = false)
    (hnone : (create_ept cfg env id p hvm w).ret = none) :
    ∃ evs, (create_ept cfg env id p hvm w).world.trace = w.trace ++ evs ∧
      released evs = (acquired evs).reverse ++
        ((if cfg.HAX_ARCH_X86_32 then [Res.hva_list_1 p, Res.hva_list p] else []) ++
          [Res.vm p, Res.vm_mid id]) := by
  unfold create_ept at hnone ⊢
  simp only [hept2, Bool.false_eq_true, ↓reduceIte] at hnone ⊢
  split
  · refine ⟨_, create_fail0_trace cfg id p w, ?_⟩
    simp [released, acquired, released_append, acquired_append, released_window_lists]
  · rename_i hi
    simp only [hi] at hnone
    obtain ⟨evs, h1, h2⟩ := create_lock_host_trace cfg env id p _ _ hnone
    refine ⟨Ev.acquire (Res.ept p) :: evs, ?_, ?_⟩
    · rw [h1]
      simp [World.log]
    · simp only [released, acquired, List.reverse_cons, List.append_assoc,
        List.singleton_append]
      rw [h2]

theorem create_hva_legacy_trace (cfg : Config) (env : create_env) (id : Int) (p : Nat)
    (hvm : vm_t) (w : World) (hept2 : cfg.CONFIG_HAX_EPT2 = false)
    (hnone : (create_hva cfg env id p hvm w).ret = none) :
    ∃ evs, (create_hva cfg env id p hvm w).world.trace = w.trace ++ evs ∧
      released evs = (acquired evs).reverse ++ [Res.vm p, Res.vm_mid id] := by
  unfold create_hva at hnone ⊢
  split
  · rename_i h32
    simp only [h32, ↓reduceIte] at hnone
    split
    · exact ⟨_, create_fail_trace id p w, rfl⟩
    · rename_i h1
      simp only [h1] at hnone
      dsimp only at hnone ⊢
      split
      · refine ⟨[Ev.acquire (Res.hva_list p), Ev.release (Res.hva_list p),
          Ev.release (Res.vm p), Ev.release (Res.vm_mid id)], ?_, ?_⟩
        · rw [create_fail00_trace]
          simp only [World.log, List.append_assoc, List.singleton_append]
        · rfl
      · rename_i h2
        simp only [h2] at hnone
        obtain ⟨evs, e1, e2⟩ := create_ept_legacy_trace cfg env id p _ _ hept2 hnone
        refine ⟨Ev.acquire (Res.hva_list p) :: Ev.acquire (Res.hva_list_1 p) :: evs, ?_, ?_⟩
        · rw [e1]
          simp [World.log]
        · simp only [released, acquired, List.reverse_cons, List.append_assoc,
            List.singleton_append]
          rw [e2]
          simp [h32]
  · rename_i h32
    simp only [h32] at hnone
    obtain ⟨evs, e1, e2⟩ := create_ept_legacy_trace cfg env id p _ _ hept2 hnone
    exact ⟨evs, e1, by rw [e2]; simp [h32]⟩

/-- In a build without `CONFIG_HAX_EPT2`, every call of `hax_create_vm` that
returns NULL has given back what it had obtained, in the reverse order. -/
theorem create_rollback_reverse_legacy (cfg : Config) (env : create_env) (w : World)
    (hept2 : cfg.CONFIG_HAX_EPT2 = false)
    (hnone : (hax_create_vm cfg env w).ret = none) :
    ∃ evs, (hax_create_vm cfg env w).world.trace = w.trace ++ evs ∧
      released evs = (acquired evs).reverse := by
  by_cases hflag : (!w.hax.vmx_enable_flag || !w.hax.nx_enable_flag) = true
  · exact ⟨[], by simp [hax_create_vm, hflag], rfl⟩
  · by_cases hfree : ∃ i, i < 8 ∧ w.vm_mid_bits.testBit i = false
    · obtain ⟨i, hi8, _, _, hget⟩ := get_free_vm_mid_lowest w.vm_mid_bits hfree
      have hvalid := valid_vm_mid_ofNat i hi8
      cases hp : env.hvm with
      | none =>
        refine ⟨[Ev.acquire (Res.vm_mid (i : Int)), Ev.release (Res.vm_mid (i : Int))], ?_, rfl⟩
        simp only [hax_create_vm, hflag, hget, hvalid, hp]
        simp [World.put_vm_mid, World.log]
      | some p =>
        have heq : hax_create_vm cfg env w
            = create_hva cfg env (i : Int) p { vm_t.zero with vm_id := (i : Int) }
              (({ w with vm_mid_bits := w.vm_mid_bits ||| (1 <<< i) }.log
                (Ev.acquire (Res.vm_mid (i : Int)))).log (Ev.acquire (Res.vm p))) := by
          simp only [hax_create_vm, hflag, hget, hvalid, hp]
          simp
        rw [heq] at hnone ⊢
        obtain ⟨evs, e1, e2⟩ := create_hva_legacy_trace cfg env (i : Int) p _ _ hept2 hnone
        refine ⟨Ev.acquire (Res.vm_mid (i : Int)) :: Ev.acquire (Res.vm p) :: evs, ?_, ?_⟩
        · rw [e1]
          simp [World.log]
        · simp only [released, acquired, List.reverse_cons, List.append_assoc,
            List.singleton_append]
          rw [e2]
    · have hall : ∀ i, i < 8 → w.vm_mid_bits.testBit i = true := by
        intro i hi
        by_contra hne
        exact hfree ⟨i, hi, by simpa using hne⟩
      have hget := get_free_vm_mid_exhausted w.vm_mid_bits hall
      have hinv : valid_vm_mid (-1) = false := by decide
      refine ⟨[], ?_, rfl⟩
      simp only [hax_create_vm, hflag, hget, hinv]
      simp

/-- C5 (defect of the code). In the build with `CONFIG_HAX_EPT2`, on the
empty system: when `hax_mutex_alloc_init` fails after `gpa_space_init` and
`ept_tree_init` have succeeded, `hax_create_vm` calls `ept_free` for a legacy
context it never set up and gives back neither the gpa space, nor the EPT
tree, nor the listener; when `ept_tree_init` fails, the gpa space is not given
back.  In both runs the releases are not the acquisitions in reverse order.
The sibling path `hax_teardown_vm` of the same build does give back the
listener, the EPT tree and the gpa space and does not call `ept_free`. -/
theorem c5_rollback_order_ept2_defect :
    (hax_create_vm Config.ept2 { create_env.ok 10 with vm_lock := false }
      World.empty).ret = none ∧
    acquired (hax_create_vm Config.ept2 { create_env.ok 10 with vm_lock := false }
      World.empty).world.trace
      = [Res.vm_mid 0, Res.vm 10, Res.gpa_space 10, Res.ept_tree 10,
         Res.gpa_space_listener 10] ∧
    released (hax_create_vm Config.ept2 { create_env.ok 10 with vm_lock := false }
      World.empty).world.trace
      = [Res.ept 10, Res.vm 10, Res.vm_mid 0] ∧
    (hax_create_vm Config.ept2 { create_env.ok 10 with ept_tree_init := -12 }
      World.empty).ret = none ∧
    acquired (hax_create_vm Config.ept2 { create_env.ok 10 with ept_tree_init := -12 }
      World.empty).world.trace
      = [Res.vm_mid 0, Res.vm 10, Res.gpa_space 10] ∧
    released (hax_create_vm Config.ept2 { create_env.ok 10 with ept_tree_init := -12 }
      World.empty).world.trace
      = [Res.vm 10, Res.vm_mid 0] ∧
    (hax_teardown_vm Config.ept2
      (hax_create_vm Config.ept2 (create_env.ok 10) World.empty).world 10).map
        (fun r => (r.1, released (r.2.trace.drop 7)))
      = some (0, [Res.vm_lock 10, Res.vm_mid 0, Res.gpa_space_listener 10,
          Res.ept_tree 10, Res.gpa_space 10, Res.vm 10]) := by
  refine ⟨by decide, by decide, by decide, by decide, by decide, by decide, by decide⟩

/-! ## C11: a successful teardown -/

theorem set_p2m_mapping_group (cfg : Config) (alloc_ok : Bool) (p : Nat) (vm : vm_t)
    (tr : List Ev) (gpfn hva hpa : Nat) :
    (∀ g, vm.p2m_map g = none →
      (set_p2m_mapping cfg alloc_ok p vm tr gpfn hva hpa).2.1.p2m_map g ≠ none →
      g = cfg.gpfn_to_g gpfn % 2 ^ 32 ∧ g < cfg.MAX_GMEM_G) := by
  intro g hg hne
  unfold set_p2m_mapping at hne
  dsimp only at hne
  split at hne
  · exact absurd hg hne
  · rename_i hlt
    have hlt2 : cfg.gpfn_to_g gpfn % 2 ^ 32 < cfg.MAX_GMEM_G := by omega
    by_cases hgg : g = cfg.gpfn_to_g gpfn % 2 ^ 32
    · exact ⟨hgg, by rw [hgg]; exact hlt2⟩
    · exfalso
      split at hne
      · split at hne
        · exact hne hg
        · simp only [Function.update_noteq hgg] at hne
          exact hne hg
      · simp only [Function.update_noteq hgg] at hne
        exact hne hg

theorem teardown_trace_mem_group (cfg : Config) (p : Nat) (vm : vm_t) (maps : List Ev)
    (g : Nat) (hg : g < cfg.MAX_GMEM_G) (hsome : vm.p2m_map g ≠ none) :
    Ev.release (Res.p2m_group p g) ∈ teardown_trace cfg p vm maps := by
  have hmem : g ∈ (List.range' 0 cfg.MAX_GMEM_G).filter (fun g => (vm.p2m_map g).isSome) := by
    rw [List.mem_filter]
    refine ⟨List.mem_range'_1.mpr ⟨Nat.zero_le g, by omega⟩, ?_⟩
    cases h : vm.p2m_map g with
    | none => exact absurd h hsome
    | some _ => rfl
  have hev : Ev.release (Res.p2m_group p g)
      ∈ ((List.range' 0 cfg.MAX_GMEM_G).filter (fun g => (vm.p2m_map g).isSome)).map
          (fun g => Ev.release (Res.p2m_group p g)) :=
    List.mem_map.mpr ⟨g, hmem, rfl⟩
  unfold teardown_trace
  simp only [List.mem_append]
  exact Or.inl (Or.inl (Or.inl (Or.inr hev)))

/-- C11. For every live VM whose VCPU list is empty (its identifier in 0..7
and, in the 32-bit build, its window records naming frames inside the p2m
table), `hax_teardown_vm` returns 0; the resource calls it makes are those of
`teardown_trace`, among them the release of every allocated p2m group, and
the VM object is freed; the bit of the identifier of the VM is clear
afterwards and every other bit of the bitmap is unchanged.  Every group that
`set_p2m_mapping` allocates lies below `MAX_GMEM_G`, in the range that
teardown frees. -/
theorem c11_teardown_frees (cfg : Config) (w : World) (p : Nat) (vm : vm_t)
    (hlive : w.heap p = some vm) (hempty : vm.vcpu_list = [])
    (hid : valid_vm_mid vm.vm_id = true)
    (hwin : cfg.HAX_ARCH_X86_32 = true → window_ok cfg vm) :
    (∃ w' maps, hax_teardown_vm cfg w p = some (0, w') ∧
      (∀ e, e ∈ maps → ∃ h, e = Ev.release (Res.mapping h)) ∧
      w'.trace = w.trace ++ teardown_trace cfg p vm maps ∧
      (∀ g, g < cfg.MAX_GMEM_G → vm.p2m_map g ≠ none →
        Ev.release (Res.p2m_group p g) ∈ w'.trace) ∧
      w'.heap p = none ∧ (∀ q, q ≠ p → w'.heap q = w.heap q) ∧
      w'.hax = w.hax ∧
      w'.vm_mid_bits.testBit vm.vm_id.toNat = false ∧
      (∀ j, j ≠ vm.vm_id.toNat →
        w'.vm_mid_bits.testBit j = w.vm_mid_bits.testBit j)) ∧
    (∀ (alloc_ok : Bool) (vm0 : vm_t) (tr : List Ev) (gpfn hva hpa g : Nat),
      vm0.p2m_map g = none →
      (set_p2m_mapping cfg alloc_ok p vm0 tr gpfn hva hpa).2.1.p2m_map g ≠ none →
      g < cfg.MAX_GMEM_G) := by
  have hid0 : 0 ≤ vm.vm_id ∧ vm.vm_id < 8 := by
    simpa [valid_vm_mid, VM_MID_BIT] using hid
  obtain ⟨s1, _, _⟩ := hax_put_vm_mid_spec vm.vm_id w.vm_mid_bits hid0.1 hid0.2
  obtain ⟨w', maps, ht, hheap, hhax, hbits, hmaps, htr⟩ :=
    hax_teardown_vm_done cfg w p vm hlive hempty hwin
  refine ⟨⟨w', maps, ht, hmaps, htr, ?_, ?_, ?_, hhax, ?_, ?_⟩, ?_⟩
  · intro g hg hsome
    rw [htr]
    exact List.mem_append_right _ (teardown_trace_mem_group cfg p vm maps g hg hsome)
  · rw [hheap]; simp
  · intro q hq
    rw [hheap, Function.update_noteq hq]
  · rw [hbits, s1]; simp
  · intro j hj
    rw [hbits, s1]
    simp [hj]
  · intro alloc_ok vm0 tr gpfn hva hpa g hg hne
    exact (set_p2m_mapping_group cfg alloc_ok p vm0 tr gpfn hva hpa g hg hne).2

/-- C11 applied to the VM with identifier 0 of a registry of two VMs. -/
theorem c11_teardown_frees_witness :
    ∃ w', hax_teardown_vm Config.legacy32 (World.two_vms 1 []) 10 = some (0, w') ∧
      w'.heap 10 = none ∧ w'.vm_mid_bits.testBit 0 = false ∧
      w'.vm_mid_bits.testBit 1 = true := by
  obtain ⟨⟨w', _, h1, _, _, _, h5, _, _, h8, h9⟩, _⟩ :=
    c11_teardown_frees Config.legacy32 (World.two_vms 1 []) 10 (vm_t.mk3 0 1 []) rfl
      rfl (by decide)
      (by
        intro _ lst hl
        rcases hl with hl | hl <;> exact Option.noConfusion hl)
  exact ⟨w', h1, h5, h8, by rw [h9 1 (by decide)]; decide⟩

/-! ## C12: the transient reference of `hax_get_vcpu` -/

theorem hax_get_vm_first (w : World) (vm_id ref : Int) (href : ref ≠ 0)
    (pre post : List Nat) (p : Nat) (vm : vm_t)
    (hlist : w.hax.hax_vmlist = pre ++ p :: post)
    (hpre : ∀ q, q ∈ pre → ∃ u, w.heap q = some u ∧ u.vm_id ≠ vm_id)
    (hp : w.heap p = some vm) (hid : vm.vm_id = vm_id) :
    (0 < vm.ref_count →
      hax_get_vm w vm_id ref
        = some (some p, w.store p { vm with ref_count := vm.ref_count + 1 })) ∧
    (vm.ref_count ≤ 0 → hax_get_vm w vm_id ref = some (none, w)) := by
  have hskip : hax_get_vm w vm_id ref = hax_get_vm_loop vm_id ref (p :: post) w := by
    unfold hax_get_vm
    rw [hlist]
    exact hax_get_vm_loop_skip vm_id ref w pre (p :: post) hpre
  constructor
  · intro hpos
    rw [hskip]
    have hng : ¬ vm.ref_count ≤ 0 := by omega
    simp [hax_get_vm_loop, hp, hid, href, hax_atomic_add, hng]
  · intro hneg
    rw [hskip]
    subst hid
    have hstep : hax_get_vm_loop vm.vm_id ref (p :: post) w
        = some (none, (w.store p { vm with ref_count := vm.ref_count + 1 }).store p
            { vm with ref_count := vm.ref_count + 1 - 1 }) := by
      simp [hax_get_vm_loop, hp, href, hax_atomic_add, hax_atomic_dec, hneg]
    have h3 : ({ vm with ref_count := vm.ref_count + 1 - 1 } : vm_t) = vm := by
      cases vm
      simp
    have h2 : (w.store p { vm with ref_count := vm.ref_count + 1 }).store p vm
        = w.store p vm := by
      simp [World.store]
    rw [hstep, h3, h2, store_same w p vm hp]

theorem hax_get_vm_absent (w : World) (vm_id ref : Int)
    (hall : ∀ q, q ∈ w.hax.hax_vmlist → ∃ u, w.heap q = some u ∧ u.vm_id ≠ vm_id) :
    hax_get_vm w vm_id ref = some (none, w) := by
  unfold hax_get_vm
  have := hax_get_vm_loop_skip vm_id ref w w.hax.hax_vmlist [] hall
  rw [List.append_nil] at this
  rw [this]
  rfl

/-- C12. Where the first registered VM with identifier `vm_id` is the VM at
`p`: if its reference count is positive, `hax_get_vcpu` returns, and
afterwards the VM is still allocated and registered with the reference count
it had before the call; only its VCPU list may differ (the count of the VCPU
found), and the registry, the bitmap, the other VM objects and the trace of
resource calls are unchanged, so the VM was neither unlinked nor torn down.
This holds whether the VCPU is found, not found or refused.  If the count of
the VM is zero or negative, or no registered VM has this identifier,
`hax_get_vcpu` returns NULL and the state is unchanged. -/
theorem c12_get_vcpu_keeps_vm (cfg : Config) (w : World) (vm_id vcpu_id refer : Int) :
    (∀ (pre post : List Nat) (p : Nat) (vm : vm_t),
      w.hax.hax_vmlist = pre ++ p :: post →
      (∀ q, q ∈ pre → ∃ u, w.heap q = some u ∧ u.vm_id ≠ vm_id) →
      w.heap p = some vm → vm.vm_id = vm_id →
      (0 < vm.ref_count →
        ∃ w', hax_get_vcpu cfg w vm_id vcpu_id refer
            = some ((hax_get_vcpu_loop vcpu_id refer vm.vcpu_list 0).1, w') ∧
          w'.heap p = some { vm with
            vcpu_list := (hax_get_vcpu_loop vcpu_id refer vm.vcpu_list 0).2 } ∧
          (∀ q, q ≠ p → w'.heap q = w.heap q) ∧
          w'.hax = w.hax ∧ w'.vm_mid_bits = w.vm_mid_bits ∧ w'.trace = w.trace) ∧
      (vm.ref_count ≤ 0 →
        hax_get_vcpu cfg w vm_id vcpu_id refer = some (none, w))) ∧
    ((∀ q, q ∈ w.hax.hax_vmlist → ∃ u, w.heap q = some u ∧ u.vm_id ≠ vm_id) →
      hax_get_vcpu cfg w vm_id vcpu_id refer = some (none, w)) := by
  constructor
  · intro pre post p vm hlist hpre hp hid
    obtain ⟨g1, g2⟩ := hax_get_vm_first w vm_id 1 (by decide) pre post p vm hlist hpre hp hid
    constructor
    · intro hpos
      have hget := g1 hpos
      have hne : vm.ref_count + 1 ≠ 1 := by omega
      have hput := hax_put_vm_other cfg
        ((w.store p { vm with ref_count := vm.ref_count + 1 }).store p
          { vm with ref_count := vm.ref_count + 1,
                    vcpu_list := (hax_get_vcpu_loop vcpu_id refer vm.vcpu_list 0).2 }) p
        { vm with ref_count := vm.ref_count + 1,
                  vcpu_list := (hax_get_vcpu_loop vcpu_id refer vm.vcpu_list 0).2 }
        (by simp [World.store]) hne
      refine ⟨((w.store p { vm with ref_count := vm.ref_count + 1 }).store p
          { vm with ref_count := vm.ref_count + 1,
                    vcpu_list := (hax_get_vcpu_loop vcpu_id refer vm.vcpu_list 0).2 }).store p
          { vm with ref_count := vm.ref_count + 1 - 1,
                    vcpu_list := (hax_get_vcpu_loop vcpu_id refer vm.vcpu_list 0).2 },
        ?_, ?_, ?_, ?_, ?_, ?_⟩
      · simp only [hax_get_vcpu, hget]
        have hh : (w.store p { vm with ref_count := vm.ref_count + 1 }).heap p
            = some { vm with ref_count := vm.ref_count + 1 } := by
          simp [World.store]
        simp only [hh]
        rw [hput]
      · simp [World.store]
      · intro q hq
        simp [World.store, Function.update_noteq hq]
      · rfl
      · rfl
      · rfl
    · intro hneg
      simp only [hax_get_vcpu, g2 hneg]
  · intro hall
    simp only [hax_get_vcpu, hax_get_vm_absent w vm_id 1 hall]

/-- C12 applied to a registry of two VMs: the lookup of VCPU 0 of VM 0 with
a reference leaves the count of the VM at 1 and raises the count of the VCPU. -/
theorem c12_get_vcpu_keeps_vm_witness :
    ∃ w', hax_get_vcpu Config.ept2
        (World.two_vms 1 [{ vcpu_id := 0, ref_count := 1 }]) 0 0 1 = some (some 0, w') ∧
      w'.heap 10 = some (vm_t.mk3 0 1 [{ vcpu_id := 0, ref_count := 2 }]) ∧
      w'.hax = (World.two_vms 1 [{ vcpu_id := 0, ref_count := 1 }]).hax := by
  obtain ⟨w', h1, h2, _, h4, _⟩ :=
    ((c12_get_vcpu_keeps_vm Config.ept2
      (World.two_vms 1 [{ vcpu_id := 0, ref_count := 1 }]) 0 0 1).1 [11] [] 10
      (vm_t.mk3 0 1 [{ vcpu_id := 0, ref_count := 1 }]) rfl
      (by
        intro q hq
        have hq11 : q = 11 := by simpa using hq
        subst hq11
        exact ⟨vm_t.mk3 1 1 [], rfl, by decide⟩)
      rfl rfl).1 (by decide)
  exact ⟨w', h1, h2, h4⟩

/-! ## The p2m table: `set_p2m_mapping` and the two resolvers -/

theorem set_p2m_mapping_e2big (cfg : Config) (alloc_ok : Bool) (p : Nat) (vm : vm_t)
    (tr : List Ev) (gpfn hva hpa : Nat)
    (h : cfg.MAX_GMEM_G ≤ cfg.gpfn_to_g gpfn % 2 ^ 32) :
    set_p2m_mapping cfg alloc_ok p vm tr gpfn hva hpa = (-E2BIG, vm, tr) := by
  simp only [set_p2m_mapping, ge_iff_le, h, ↓reduceIte]

theorem set_p2m_mapping_enomem (cfg : Config) (p : Nat) (vm : vm_t)
    (tr : List Ev) (gpfn hva hpa : Nat)
    (h : cfg.gpfn_to_g gpfn % 2 ^ 32 < cfg.MAX_GMEM_G)
    (hg : vm.p2m_map (cfg.gpfn_to_g gpfn % 2 ^ 32) = none) :
    set_p2m_mapping cfg false p vm tr gpfn hva hpa = (-ENOMEM, vm, tr) := by
  have h2 : ¬ cfg.MAX_GMEM_G ≤ cfg.gpfn_to_g gpfn % 2 ^ 32 := by omega
  simp only [set_p2m_mapping, ge_iff_le, h2, ↓reduceIte, hg, Bool.not_false]

theorem set_p2m_mapping_new (cfg : Config) (p : Nat) (vm : vm_t)
    (tr : List Ev) (gpfn hva hpa : Nat)
    (h : cfg.gpfn_to_g gpfn % 2 ^ 32 < cfg.MAX_GMEM_G)
    (hg : vm.p2m_map (cfg.gpfn_to_g gpfn % 2 ^ 32) = none) :
    set_p2m_mapping cfg true p vm tr gpfn hva hpa
      = (0, { vm with
              p2m_map := Function.update vm.p2m_map (cfg.gpfn_to_g gpfn % 2 ^ 32)
                (some (Function.update p2m_group_zero (cfg.gpfn_in_g gpfn % 2 ^ 32)
                  { hva := hva, hpa := hpa })) },
          tr ++ [Ev.acquire (Res.p2m_group p (cfg.gpfn_to_g gpfn % 2 ^ 32))]) := by
  have h2 : ¬ cfg.MAX_GMEM_G ≤ cfg.gpfn_to_g gpfn % 2 ^ 32 := by omega
  simp only [set_p2m_mapping, ge_iff_le, h2, ↓reduceIte, hg, Bool.not_true,
    Bool.false_eq_true]

theorem set_p2m_mapping_old (cfg : Config) (alloc_ok : Bool) (p : Nat) (vm : vm_t)
    (tr : List Ev) (gpfn hva hpa : Nat) (grp : Nat → hax_p2m_entry)
    (h : cfg.gpfn_to_g gpfn % 2 ^ 32 < cfg.MAX_GMEM_G)
    (hg : vm.p2m_map (cfg.gpfn_to_g gpfn % 2 ^ 32) = some grp) :
    set_p2m_mapping cfg alloc_ok p vm tr gpfn hva hpa
      = (0, { vm with
              p2m_map := Function.update vm.p2m_map (cfg.gpfn_to_g gpfn % 2 ^ 32)
                (some (Function.update grp (cfg.gpfn_in_g gpfn % 2 ^ 32)
                  { hva := hva, hpa := hpa })) }, tr) := by
  have h2 : ¬ cfg.MAX_GMEM_G ≤ cfg.gpfn_to_g gpfn % 2 ^ 32 := by omega
  simp only [set_p2m_mapping, ge_iff_le, h2, ↓reduceIte, hg]

/-- The three outcomes of `set_p2m_mapping`: refused with `-E2BIG`, refused
with `-ENOMEM`, or stored (value 0) in the entry of the frame. -/
theorem set_p2m_mapping_cases (cfg : Config) (alloc_ok : Bool) (p : Nat) (vm : vm_t)
    (tr : List Ev) (gpfn hva hpa : Nat) :
    (cfg.MAX_GMEM_G ≤ cfg.gpfn_to_g gpfn % 2 ^ 32 ∧
      set_p2m_mapping cfg alloc_ok p vm tr gpfn hva hpa = (-E2BIG, vm, tr)) ∨
    (cfg.gpfn_to_g gpfn % 2 ^ 32 < cfg.MAX_GMEM_G ∧
      vm.p2m_map (cfg.gpfn_to_g gpfn % 2 ^ 32) = none ∧ alloc_ok = false ∧
      set_p2m_mapping cfg alloc_ok p vm tr gpfn hva hpa = (-ENOMEM, vm, tr)) ∨
    (cfg.gpfn_to_g gpfn % 2 ^ 32 < cfg.MAX_GMEM_G ∧
      (vm.p2m_map (cfg.gpfn_to_g gpfn % 2 ^ 32) ≠ none ∨ alloc_ok = true) ∧
      ∃ grp tr', set_p2m_mapping cfg alloc_ok p vm tr gpfn hva hpa
        = (0, { vm with
                p2m_map := Function.update vm.p2m_map (cfg.gpfn_to_g gpfn % 2 ^ 32)
                  (some (Function.update grp (cfg.gpfn_in_g gpfn % 2 ^ 32)
                    { hva := hva, hpa := hpa })) }, tr') ∧
        (vm.p2m_map (cfg.gpfn_to_g gpfn % 2 ^ 32) = some grp ∨
          (vm.p2m_map (cfg.gpfn_to_g gpfn % 2 ^ 32) = none ∧ grp = p2m_group_zero))) := by
  by_cases h : cfg.MAX_GMEM_G ≤ cfg.gpfn_to_g gpfn % 2 ^ 32
  · exact Or.inl ⟨h, set_p2m_mapping_e2big cfg alloc_ok p vm tr gpfn hva hpa h⟩
  · have h2 : cfg.gpfn_to_g gpfn % 2 ^ 32 < cfg.MAX_GMEM_G := by omega
    cases hg : vm.p2m_map (cfg.gpfn_to_g gpfn % 2 ^ 32) with
    | none =>
      cases alloc_ok with
      | false =>
        exact Or.inr (Or.inl ⟨h2, rfl, rfl,
          set_p2m_mapping_enomem cfg p vm tr gpfn hva hpa h2 hg⟩)
      | true =>
        exact Or.inr (Or.inr ⟨h2, Or.inr rfl, p2m_group_zero, _,
          set_p2m_mapping_new cfg p vm tr gpfn hva hpa h2 hg, Or.inr ⟨rfl, rfl⟩⟩)
    | some grp =>
      exact Or.inr (Or.inr ⟨h2, Or.inl (by simp), grp, tr,
        set_p2m_mapping_old cfg alloc_ok p vm tr gpfn hva hpa grp h2 hg, Or.inl rfl⟩)

theorem hax_get_p2m_entry_after_set (cfg : Config) (vm : vm_t) (gpfn : Nat)
    (grp : Nat → hax_p2m_entry) (e : hax_p2m_entry)
    (h : cfg.gpfn_to_g gpfn % 2 ^ 32 < cfg.MAX_GMEM_G) :
    hax_get_p2m_entry cfg
        { vm with
          p2m_map := Function.update vm.p2m_map (cfg.gpfn_to_g gpfn % 2 ^ 32)
            (some (Function.update grp (cfg.gpfn_in_g gpfn % 2 ^ 32) e)) } gpfn
      = some (some (cfg.gpfn_to_g gpfn % 2 ^ 32, cfg.gpfn_in_g gpfn % 2 ^ 32)) ∧
    p2m_entry
        { vm with
          p2m_map := Function.update vm.p2m_map (cfg.gpfn_to_g gpfn % 2 ^ 32)
            (some (Function.update grp (cfg.gpfn_in_g gpfn % 2 ^ 32) e)) }
        (cfg.gpfn_to_g gpfn % 2 ^ 32, cfg.gpfn_in_g gpfn % 2 ^ 32) = e := by
  constructor
  · simp only [hax_get_p2m_entry, h, ↓reduceIte, Function.update_same]
  · simp only [p2m_entry, Function.update_same]

/-- In the build without `CONFIG_HAX_EPT2`, a frame stored by
`set_p2m_mapping` resolves to the address stored. -/
theorem hax_gpfn_to_hpa_after_set (cfg : Config) (gs : gpa_space_t) (alloc_ok : Bool)
    (p : Nat) (vm : vm_t) (tr : List Ev) (gpfn hva hpa : Nat)
    (hcfg : cfg.CONFIG_HAX_EPT2 = false)
    (hret : (set_p2m_mapping cfg alloc_ok p vm tr gpfn hva hpa).1 = 0) :
    hax_gpfn_to_hpa cfg gs (set_p2m_mapping cfg alloc_ok p vm tr gpfn hva hpa).2.1 gpfn
      = some hpa := by
  rcases set_p2m_mapping_cases cfg alloc_ok p vm tr gpfn hva hpa with
    ⟨_, h⟩ | ⟨_, _, _, h⟩ | ⟨hlt, _, grp, tr', h, _⟩
  · rw [h] at hret; simp [E2BIG] at hret
  · rw [h] at hret; simp [ENOMEM] at hret
  · rw [h]
    obtain ⟨e1, e2⟩ := hax_get_p2m_entry_after_set cfg vm gpfn grp
      { hva := hva, hpa := hpa } hlt
    simp only [hax_gpfn_to_hpa, hcfg, Bool.false_eq_true, ↓reduceIte, e1, e2]
    split
    · rename_i h0
      rw [h0]
    · rfl

/-! ## C13: the round trip of the p2m table -/

/-- C13, counterexample. In the build with `CONFIG_HAX_EPT2`,
`hax_core_set_p2m` stores frame 1 with host frame 5 and reports success, and
`hax_gpfn_to_hpa`, which reads the gpa space and not the p2m table, returns 0
for frame 1 on a VM whose gpa space is empty, not `5 << 12`. -/
theorem c13_counterexample :
    (hax_core_set_p2m Config.ept2 true 10 vm_t.zero [] 1 5 0 0).1 = 1 ∧
    hax_gpfn_to_hpa Config.ept2 gpa_space_t.empty
      (hax_core_set_p2m Config.ept2 true 10 vm_t.zero [] 1 5 0 0).2.1 1 = some 0 ∧
    (5 <<< 12) % 2 ^ 64 ≠ 0 := by
  refine ⟨by decide, by decide, by decide⟩

/-- C13, amended. In a build without `CONFIG_HAX_EPT2`: for every VM, every
`gpfn`, `hpfn` and `hva`, if `hax_core_set_p2m` reports success (returns 1)
then `hax_gpfn_to_hpa` on the resulting VM returns, and its value is
`hpfn << 12` as a 64-bit value. -/
theorem c13_round_trip_legacy (cfg : Config) (gs : gpa_space_t) (alloc_ok : Bool)
    (p : Nat) (vm : vm_t) (tr : List Ev) (gpfn hpfn hva flags : Nat)
    (hcfg : cfg.CONFIG_HAX_EPT2 = false)
    (hret : (hax_core_set_p2m cfg alloc_ok p vm tr gpfn hpfn hva flags).1 = 1) :
    hax_gpfn_to_hpa cfg gs
        (hax_core_set_p2m cfg alloc_ok p vm tr gpfn hpfn hva flags).2.1 gpfn
      = some ((hpfn <<< 12) % 2 ^ 64) := by
  unfold hax_core_set_p2m at hret ⊢
  dsimp only at hret ⊢
  split at hret
  · simp at hret
  · rename_i hneg
    simp only [hneg, ↓reduceIte]
    apply hax_gpfn_to_hpa_after_set cfg gs alloc_ok p vm tr gpfn _ _ hcfg
    rcases set_p2m_mapping_cases cfg alloc_ok p vm tr gpfn
      (hva &&& (2 ^ 64 - 1 - cfg.HAX_PAGE_MASK)) ((hpfn <<< 12) % 2 ^ 64) with
      ⟨_, h⟩ | ⟨_, _, _, h⟩ | ⟨_, _, grp, tr', h, _⟩
    · rw [h] at hneg; simp [E2BIG] at hneg
    · rw [h] at hneg; simp [ENOMEM] at hneg
    · rw [h]

/-- C13 (amended) applied to frame 1 and host frame 5 on a fresh VM of the
64-bit legacy build. -/
theorem c13_round_trip_legacy_witness :
    hax_gpfn_to_hpa Config.legacy64 gpa_space_t.empty
        (hax_core_set_p2m Config.legacy64 true 10 vm_t.zero [] 1 5 0 0).2.1 1
      = some ((5 <<< 12) % 2 ^ 64) :=
  c13_round_trip_legacy Config.legacy64 gpa_space_t.empty true 10 vm_t.zero [] 1 5 0 0
    rfl (by decide)

/-! ## C14: resolving a frame outside the p2m table -/

/-- In a build without `CONFIG_HAX_EPT2`, `hax_gpfn_to_hpa` on a frame whose
group index is at or above `MAX_GMEM_G` reads `vm->p2m_map` past its end,
while `set_p2m_mapping` refuses the same frame with `-E2BIG`. -/
theorem hax_gpfn_to_hpa_out_of_range (cfg : Config) (gs : gpa_space_t) (vm : vm_t)
    (gpfn : Nat) (hcfg : cfg.CONFIG_HAX_EPT2 = false)
    (h : cfg.MAX_GMEM_G ≤ cfg.gpfn_to_g gpfn % 2 ^ 32) :
    hax_gpfn_to_hpa cfg gs vm gpfn = none ∧
    ∀ (alloc_ok : Bool) (p : Nat) (tr : List Ev) (hva hpa : Nat),
      (set_p2m_mapping cfg alloc_ok p vm tr gpfn hva hpa).1 = -E2BIG := by
  have h2 : ¬ cfg.gpfn_to_g gpfn % 2 ^ 32 < cfg.MAX_GMEM_G := by omega
  constructor
  · simp only [hax_gpfn_to_hpa, hcfg, Bool.false_eq_true, ↓reduceIte, hax_get_p2m_entry, h2]
  · intro alloc_ok p tr hva hpa
    rw [set_p2m_mapping_e2big cfg alloc_ok p vm tr gpfn hva hpa h]

/-- In a build without `CONFIG_HAX_EPT2`, `hax_gpfn_to_hpa` on a frame inside
the table whose group is not allocated, or whose entry holds no address,
returns 0. -/
theorem hax_gpfn_to_hpa_unmapped (cfg : Config) (gs : gpa_space_t) (vm : vm_t)
    (gpfn : Nat) (hcfg : cfg.CONFIG_HAX_EPT2 = false)
    (h : cfg.gpfn_to_g gpfn % 2 ^ 32 < cfg.MAX_GMEM_G)
    (hun : vm.p2m_map (cfg.gpfn_to_g gpfn % 2 ^ 32) = none ∨
      (p2m_entry vm (cfg.gpfn_to_g gpfn % 2 ^ 32, cfg.gpfn_in_g gpfn % 2 ^ 32)).hpa = 0) :
    hax_gpfn_to_hpa cfg gs vm gpfn = some 0 := by
  cases hg : vm.p2m_map (cfg.gpfn_to_g gpfn % 2 ^ 32) with
  | none =>
    simp only [hax_gpfn_to_hpa, hcfg, Bool.false_eq_true, ↓reduceIte, hax_get_p2m_entry, h, hg]
  | some grp =>
    rcases hun with hun | hun
    · rw [hg] at hun; exact Option.noConfusion hun
    · simp only [hax_gpfn_to_hpa, hcfg, Bool.false_eq_true, ↓reduceIte, hax_get_p2m_entry,
        h, hg, hun]

/-- C14 (defect of the code). In the 64-bit build without `CONFIG_HAX_EPT2`,
with five p2m groups of 2^18 frames each: on a fresh VM, where no mapping has
been installed, `hax_gpfn_to_hpa` for the frame `5 << 18`, whose group index
is 5, reads `vm->p2m_map[5]`, past the end of the array (the model reports
the fault), while `set_p2m_mapping` refuses the same frame with `-E2BIG`.
For frame 1, inside the table, the sentinel 0 is returned. -/
theorem c14_unmapped_out_of_range_defect :
    Config.legacy64.gpfn_to_g (5 <<< 18) % 2 ^ 32 = 5 ∧ Config.legacy64.MAX_GMEM_G = 5 ∧
    hax_gpfn_to_hpa Config.legacy64 gpa_space_t.empty vm_t.zero (5 <<< 18) = none ∧
    (set_p2m_mapping Config.legacy64 true 10 vm_t.zero [] (5 <<< 18) 0 0).1 = -E2BIG ∧
    hax_gpfn_to_hpa Config.legacy64 gpa_space_t.empty vm_t.zero 1 = some 0 := by
  refine ⟨by decide, by decide, by decide, by decide, by decide⟩

/-! ## C15: the value returned by `hax_core_set_p2m` -/

/-- The function `hax_core_set_p2m` returns 1 or 0.  It returns 1 when the
mapping was stored: the entry of the frame then holds the page-aligned `hva`
and `hpfn << 12`.  It returns 0 exactly when the 32-bit value `which_g`, the
group index of `gpfn` cut to 32 bits, is at or above `MAX_GMEM_G`, where
`set_p2m_mapping` returns `-E2BIG`, or the group of that index is not
allocated and its allocation fails, where `set_p2m_mapping` returns
`-ENOMEM`.  Whenever it returns 0 the VM, with its p2m table, and the trace of
resource calls are unchanged. -/
theorem hax_core_set_p2m_boolean (cfg : Config) (alloc_ok : Bool) (p : Nat) (vm : vm_t)
    (tr : List Ev) (gpfn hpfn hva flags : Nat) :
    ((hax_core_set_p2m cfg alloc_ok p vm tr gpfn hpfn hva flags).1 = 0 ∨
      (hax_core_set_p2m cfg alloc_ok p vm tr gpfn hpfn hva flags).1 = 1) ∧
    ((hax_core_set_p2m cfg alloc_ok p vm tr gpfn hpfn hva flags).1 = 1 →
      (hax_core_set_p2m cfg alloc_ok p vm tr gpfn hpfn hva flags).2.1.p2m_map
        (cfg.gpfn_to_g gpfn % 2 ^ 32) ≠ none ∧
      p2m_entry (hax_core_set_p2m cfg alloc_ok p vm tr gpfn hpfn hva flags).2.1
        (cfg.gpfn_to_g gpfn % 2 ^ 32, cfg.gpfn_in_g gpfn % 2 ^ 32)
        = { hva := hva &&& (2 ^ 64 - 1 - cfg.HAX_PAGE_MASK),
            hpa := (hpfn <<< 12) % 2 ^ 64 }) ∧
    ((hax_core_set_p2m cfg alloc_ok p vm tr gpfn hpfn hva flags).1 = 0 ↔
      (cfg.MAX_GMEM_G ≤ cfg.gpfn_to_g gpfn % 2 ^ 32 ∨
        (vm.p2m_map (cfg.gpfn_to_g gpfn % 2 ^ 32) = none ∧ alloc_ok = false))) ∧
    (cfg.MAX_GMEM_G ≤ cfg.gpfn_to_g gpfn % 2 ^ 32 →
      (set_p2m_mapping cfg alloc_ok p vm tr gpfn
        (hva &&& (2 ^ 64 - 1 - cfg.HAX_PAGE_MASK)) ((hpfn <<< 12) % 2 ^ 64)).1 = -E2BIG) ∧
    (cfg.gpfn_to_g gpfn % 2 ^ 32 < cfg.MAX_GMEM_G →
      vm.p2m_map (cfg.gpfn_to_g gpfn % 2 ^ 32) = none → alloc_ok = false →
      (set_p2m_mapping cfg alloc_ok p vm tr gpfn
        (hva &&& (2 ^ 64 - 1 - cfg.HAX_PAGE_MASK)) ((hpfn <<< 12) % 2 ^ 64)).1 = -ENOMEM) ∧
    ((hax_core_set_p2m cfg alloc_ok p vm tr gpfn hpfn hva flags).1 = 0 →
      (hax_core_set_p2m cfg alloc_ok p vm tr gpfn hpfn hva flags).2.1 = vm ∧
      (hax_core_set_p2m cfg alloc_ok p vm tr gpfn hpfn hva flags).2.2 = tr) := by
  have hcases := set_p2m_mapping_cases cfg alloc_ok p vm tr gpfn
    (hva &&& (2 ^ 64 - 1 - cfg.HAX_PAGE_MASK)) ((hpfn <<< 12) % 2 ^ 64)
  have hdef : hax_core_set_p2m cfg alloc_ok p vm tr gpfn hpfn hva flags
      = (if (set_p2m_mapping cfg alloc_ok p vm tr gpfn
          (hva &&& (2 ^ 64 - 1 - cfg.HAX_PAGE_MASK)) ((hpfn <<< 12) % 2 ^ 64)).1 < 0
        then ((0 : Int), (set_p2m_mapping cfg alloc_ok p vm tr gpfn
          (hva &&& (2 ^ 64 - 1 - cfg.HAX_PAGE_MASK)) ((hpfn <<< 12) % 2 ^ 64)).2)
        else ((1 : Int), (set_p2m_mapping cfg alloc_ok p vm tr gpfn
          (hva &&& (2 ^ 64 - 1 - cfg.HAX_PAGE_MASK)) ((hpfn <<< 12) % 2 ^ 64)).2)) := rfl
  rcases hcases with ⟨hbig, h⟩ | ⟨hlt, hnone, hal, h⟩ | ⟨hlt, hok, grp, tr', h, _⟩
  · have hr : hax_core_set_p2m cfg alloc_ok p vm tr gpfn hpfn hva flags = (0, vm, tr) := by
      rw [hdef, h]; simp [E2BIG]
    rw [hr]
    refine ⟨Or.inl rfl, ?_, ?_, ?_, ?_, ?_⟩
    · intro h1; simp at h1
    · exact ⟨fun _ => Or.inl hbig, fun _ => rfl⟩
    · intro _; rw [h]
    · intro hlt; omega
    · intro _; exact ⟨rfl, rfl⟩
  · have hr : hax_core_set_p2m cfg alloc_ok p vm tr gpfn hpfn hva flags = (0, vm, tr) := by
      rw [hdef, h]; simp [ENOMEM]
    rw [hr]
    refine ⟨Or.inl rfl, ?_, ?_, ?_, ?_, ?_⟩
    · intro h1; simp at h1
    · exact ⟨fun _ => Or.inr ⟨hnone, hal⟩, fun _ => rfl⟩
    · intro hbig; omega
    · intro _ _ _; rw [h]
    · intro _; exact ⟨rfl, rfl⟩
  · have hr : hax_core_set_p2m cfg alloc_ok p vm tr gpfn hpfn hva flags
        = (1, { vm with
                p2m_map := Function.update vm.p2m_map (cfg.gpfn_to_g gpfn % 2 ^ 32)
                  (some (Function.update grp (cfg.gpfn_in_g gpfn % 2 ^ 32)
                    { hva := hva &&& (2 ^ 64 - 1 - cfg.HAX_PAGE_MASK),
                      hpa := (hpfn <<< 12) % 2 ^ 64 })) }, tr') := by
      rw [hdef, h]; simp
    rw [hr]
    refine ⟨Or.inr rfl, ?_, ?_, ?_, ?_, ?_⟩
    · intro _
      exact ⟨by simp only [Function.update_same]; exact Option.noConfusion,
        (hax_get_p2m_entry_after_set cfg vm gpfn grp _ hlt).2⟩
    · constructor
      · intro h1; simp at h1
      · intro h1
        rcases h1 with h1 | ⟨h1, h2⟩
        · omega
        · rcases hok with hok | hok
          · exact absurd h1 hok
          · rw [h2] at hok; exact Bool.noConfusion hok
    · intro hbig; omega
    · intro _ hn hal
      rcases hok with hok | hok
      · exact absurd hn hok
      · rw [hal] at hok; exact Bool.noConfusion hok
    · intro h1; simp at h1

/-- For a frame whose group index fits 32 bits, `hax_core_set_p2m` returns 0
exactly when the group index is at or above `MAX_GMEM_G` or the group is not
allocated and its allocation fails, and a call that returns 0 changes
nothing. -/
theorem hax_core_set_p2m_boolean_in_range (cfg : Config) (alloc_ok : Bool) (p : Nat)
    (vm : vm_t) (tr : List Ev) (gpfn hpfn hva flags : Nat)
    (h32 : cfg.gpfn_to_g gpfn < 2 ^ 32) :
    ((hax_core_set_p2m cfg alloc_ok p vm tr gpfn hpfn hva flags).1 = 0 ∨
      (hax_core_set_p2m cfg alloc_ok p vm tr gpfn hpfn hva flags).1 = 1) ∧
    ((hax_core_set_p2m cfg alloc_ok p vm tr gpfn hpfn hva flags).1 = 0 ↔
      (cfg.MAX_GMEM_G ≤ cfg.gpfn_to_g gpfn ∨
        (vm.p2m_map (cfg.gpfn_to_g gpfn) = none ∧ alloc_ok = false))) ∧
    ((hax_core_set_p2m cfg alloc_ok p vm tr gpfn hpfn hva flags).1 = 0 →
      (hax_core_set_p2m cfg alloc_ok p vm tr gpfn hpfn hva flags).2.1 = vm ∧
      (hax_core_set_p2m cfg alloc_ok p vm tr gpfn hpfn hva flags).2.2 = tr) := by
  have e : cfg.gpfn_to_g gpfn % 2 ^ 32 = cfg.gpfn_to_g gpfn := Nat.mod_eq_of_lt h32
  obtain ⟨a1, _, a3, _, _, a6⟩ :=
    hax_core_set_p2m_boolean cfg alloc_ok p vm tr gpfn hpfn hva flags
  rw [e] at a3
  exact ⟨a1, a3, a6⟩

/-- A frame whose group index is at or above `MAX_GMEM_G` is accepted when
the index cut to 32 bits is below `MAX_GMEM_G` and the group of the cut index
is allocated or can be: `hax_core_set_p2m` returns 1. -/
theorem hax_core_set_p2m_truncated_accepts (cfg : Config) (alloc_ok : Bool) (p : Nat)
    (vm : vm_t) (tr : List Ev) (gpfn hpfn hva flags : Nat)
    (hlow : cfg.gpfn_to_g gpfn % 2 ^ 32 < cfg.MAX_GMEM_G)
    (hgrp : vm.p2m_map (cfg.gpfn_to_g gpfn % 2 ^ 32) ≠ none ∨ alloc_ok = true) :
    (hax_core_set_p2m cfg alloc_ok p vm tr gpfn hpfn hva flags).1 = 1 := by
  obtain ⟨a1, _, a3, _⟩ :=
    hax_core_set_p2m_boolean cfg alloc_ok p vm tr gpfn hpfn hva flags
  rcases a1 with a1 | a1
  · rcases a3.mp a1 with h | ⟨h1, h2⟩
    · omega
    · rcases hgrp with hg | hg
      · exact absurd h1 hg
      · rw [h2] at hg; exact Bool.noConfusion hg
  · exact a1

/-- C15 (defect of the code). With groups of 2^18 frames and `MAX_GMEM_G = 5`,
the frame `2 ^ 50 + 1` has the group index `2 ^ 32`, which is at or above
`MAX_GMEM_G`. On a fresh VM `hax_core_set_p2m` still returns 1 for it, with
the allocation succeeding: `set_p2m_mapping` tests the 32-bit `which_g`, which
is 0, allocates group 0 and writes the entry at index 1, the entry of frame 1,
which then resolves to the address stored. For frame `5 << 18`, of group
index 5, the call returns 0 and changes nothing, and it returns 0 when the
allocation fails. -/
theorem c15_set_p2m_truncation_defect :
    Config.legacy64.gpfn_to_g (2 ^ 50 + 1) = 2 ^ 32 ∧
    Config.legacy64.MAX_GMEM_G ≤ Config.legacy64.gpfn_to_g (2 ^ 50 + 1) ∧
    (hax_core_set_p2m Config.legacy64 true 0 (created_vm Config.legacy64 0) []
      (2 ^ 50 + 1) 9 0x9abc 0).1 = 1 ∧
    (hax_core_set_p2m Config.legacy64 true 0 (created_vm Config.legacy64 0) []
      (2 ^ 50 + 1) 9 0x9abc 0).2.2 = [Ev.acquire (Res.p2m_group 0 0)] ∧
    ((created_vm Config.legacy64 0).p2m_map 0).isSome = false ∧
    ((hax_core_set_p2m Config.legacy64 true 0 (created_vm Config.legacy64 0) []
      (2 ^ 50 + 1) 9 0x9abc 0).2.1.p2m_map 0).isSome = true ∧
    p2m_entry (hax_core_set_p2m Config.legacy64 true 0 (created_vm Config.legacy64 0) []
      (2 ^ 50 + 1) 9 0x9abc 0).2.1 (0, 1) = { hva := 0x9000, hpa := 0x9000 } ∧
    hax_gpfn_to_hpa Config.legacy64 gpa_space_t.empty (created_vm Config.legacy64 0) 1
      = some 0 ∧
    hax_gpfn_to_hpa Config.legacy64 gpa_space_t.empty
      (hax_core_set_p2m Config.legacy64 true 0 (created_vm Config.legacy64 0) []
        (2 ^ 50 + 1) 9 0x9abc 0).2.1 1 = some 0x9000 ∧
    (hax_core_set_p2m Config.legacy64 true 0 (created_vm Config.legacy64 0) []
      (5 <<< 18) 9 0x9abc 0).1 = 0 ∧
    (hax_core_set_p2m Config.legacy64 true 0 (created_vm Config.legacy64 0) []
      (5 <<< 18) 9 0x9abc 0).2.2 = [] ∧
    (hax_core_set_p2m Config.legacy64 false 0 (created_vm Config.legacy64 0) []
      (2 ^ 50 + 1) 9 0x9abc 0).1 = 0 := by
  refine ⟨by decide, by decide, by decide, by decide, by decide, by decide, by decide,
    by decide, by decide, by decide, by decide, by decide⟩

/-! ## The object published by `hax_create_vm` -/

theorem create_lock_host_heap (cfg : Config) (env : create_env) (id : Int) (p : Nat)
    (hvm : vm_t) (w : World) (q : Nat)
    (h : (create_lock_host cfg env id p hvm w).ret = some q) :
    (create_lock_host cfg env id p hvm w).world.heap
      = Function.update w.heap p (some (lock_host_vm hvm)) := by
  obtain ⟨hl, hh⟩ := create_lock_host_some cfg env id p hvm w q h
  simp only [create_lock_host, hl, Bool.not_true, Bool.false_eq_true, ↓reduceIte, hh]
  rfl

theorem create_ept_heap (cfg : Config) (env : create_env) (id : Int) (p : Nat)
    (hvm : vm_t) (w : World) (q : Nat)
    (h : (create_ept cfg env id p hvm w).ret = some q) :
    (create_ept cfg env id p hvm w).world.heap
      = Function.update w.heap p (some (ept_vm cfg hvm)) := by
  obtain ⟨h1, h2, _, _⟩ := create_ept_some cfg env id p hvm w q h
  cases hc : cfg.CONFIG_HAX_EPT2 with
  | true =>
    obtain ⟨hg, ht⟩ := h1 hc
    have e : create_ept cfg env id p hvm w
        = create_lock_host cfg env id p
            { hvm with gpa_space := true, ept_tree := true, gpa_space_listener := true }
            (((w.log (Ev.acquire (Res.gpa_space p))).log (Ev.acquire (Res.ept_tree p))).log
              (Ev.acquire (Res.gpa_space_listener p))) := by
      simp only [create_ept, hc, ↓reduceIte, hg, ht, ne_eq, not_true_eq_false]
    rw [e] at h ⊢
    rw [create_lock_host_heap cfg env id p _ _ q h]
    simp only [ept_vm, hc, ↓reduceIte]
    rfl
  | false =>
    have hi := h2 hc
    have e : create_ept cfg env id p hvm w
        = create_lock_host cfg env id p { hvm with ept := true }
            (w.log (Ev.acquire (Res.ept p))) := by
      simp only [create_ept, hc, Bool.false_eq_true, ↓reduceIte, hi, Bool.not_true]
    rw [e] at h ⊢
    rw [create_lock_host_heap cfg env id p _ _ q h]
    simp only [ept_vm, hc, Bool.false_eq_true, ↓reduceIte]
    rfl

theorem create_hva_heap (cfg : Config) (env : create_env) (id : Int) (p : Nat)
    (w : World) (q : Nat)
    (h : (create_hva cfg env id p { vm_t.zero with vm_id := id } w).ret = some q) :
    (create_hva cfg env id p { vm_t.zero with vm_id := id } w).world.heap
      = Function.update w.heap p (some (created_vm cfg id)) := by
  obtain ⟨h1, _⟩ := create_hva_some cfg env id p _ w q h
  cases hc : cfg.HAX_ARCH_X86_32 with
  | true =>
    obtain ⟨ha, hb⟩ := h1 hc
    have e : create_hva cfg env id p { vm_t.zero with vm_id := id } w
        = create_ept cfg env id p
            { vm_t.zero with vm_id := id, hva_list := some (fun _ => hva_entry.zero),
                             hva_list_1 := some (fun _ => hva_entry.zero) }
            ((w.log (Ev.acquire (Res.hva_list p))).log (Ev.acquire (Res.hva_list_1 p))) := by
      simp only [create_hva, hc, ↓reduceIte, ha, hb, Bool.not_true, Bool.false_eq_true]
    rw [e] at h ⊢
    rw [create_ept_heap cfg env id p _ _ q h]
    simp only [created_vm, hc, ↓reduceIte]
    rfl
  | false =>
    have e : create_hva cfg env id p { vm_t.zero with vm_id := id } w
        = create_ept cfg env id p { vm_t.zero with vm_id := id } w := by
      simp only [create_hva, hc, Bool.false_eq_true, ↓reduceIte]
    rw [e] at h ⊢
    rw [create_ept_heap cfg env id p _ _ q h]
    simp only [created_vm, hc, Bool.false_eq_true, ↓reduceIte]

theorem windows_empty_created_vm (cfg : Config) (id : Int) :
    windows_empty (created_vm cfg id) ∧ (created_vm cfg id).vm_id = id ∧
    (created_vm cfg id).ref_count = 1 ∧ (created_vm cfg id).vcpu_list = [] ∧
    (created_vm cfg id).hva_limit = 0 ∧ (created_vm cfg id).hva_index = 0 ∧
    (created_vm cfg id).hva_index_1 = 0 := by
  unfold created_vm ept_vm lock_host_vm
  cases cfg.HAX_ARCH_X86_32 <;> cases cfg.CONFIG_HAX_EPT2 <;>
    refine ⟨?_, rfl, rfl, rfl, rfl, rfl, rfl⟩ <;>
    · intro lst hl i
      rcases hl with hl | hl
      · first
        | exact Option.noConfusion hl
        | (have hh := (Option.some.inj hl).symm; subst hh; rfl)
      · first
        | exact Option.noConfusion hl
        | (have hh := (Option.some.inj hl).symm; subst hh; rfl)

/-- A successful `hax_create_vm` publishes the object `created_vm` with the
lowest free identifier. -/
theorem hax_create_vm_heap (cfg : Config) (env : create_env) (w : World) (p : Nat)
    (h : (hax_create_vm cfg env w).ret = some p) :
    ∃ i : Nat, i < 8 ∧ w.vm_mid_bits.testBit i = false ∧ env.hvm = some p ∧
      (hax_create_vm cfg env w).world.heap
        = Function.update w.heap p (some (created_vm cfg (i : Int))) ∧
      (hax_create_vm cfg env w).world.vm_mid_bits = w.vm_mid_bits ||| (1 <<< i) ∧
      (hax_create_vm cfg env w).world.hax
        = { w.hax with hax_vmlist := p :: w.hax.hax_vmlist } := by
  rcases hax_create_vm_cases cfg env w with
    ⟨h1, _⟩ | ⟨i, p2, hi8, hclr, _, hget, hvt, hnx, hp, hr, _, hb, hhax, _⟩
  · rw [h1] at h; exact Option.noConfusion h
  · have hpp : p2 = p := by
      rw [hr] at h; exact Option.some.inj h
    subst hpp
    refine ⟨i, hi8, hclr, hp, ?_, hb, hhax⟩
    have hflag : (!w.hax.vmx_enable_flag || !w.hax.nx_enable_flag) = false := by
      simp [hvt, hnx]
    have hvalid := valid_vm_mid_ofNat i hi8
    have heq : hax_create_vm cfg env w
        = create_hva cfg env (i : Int) p2 { vm_t.zero with vm_id := (i : Int) }
          (({ w with vm_mid_bits := w.vm_mid_bits ||| (1 <<< i) }.log
            (Ev.acquire (Res.vm_mid (i : Int)))).log (Ev.acquire (Res.vm p2))) := by
      simp only [hax_create_vm, hflag, hget, hvalid, hp]
      simp
    rw [heq] at h ⊢
    exact create_hva_heap cfg env (i : Int) p2 _ p2 h

/-! ## The invariant of the registry -/

theorem registry_inv_congr (w1 w2 : World) (hh : w2.hax = w1.hax)
    (hb : w2.vm_mid_bits = w1.vm_mid_bits) (hm : w2.heap = w1.heap)
    (h : registry_inv w1) : registry_inv w2 := by
  unfold registry_inv at h ⊢
  rw [hh, hb, hm]
  exact h

theorem registry_inv_init (w : World) (hl : w.hax.hax_vmlist = [])
    (hm : ∀ p, w.heap p = none) : registry_inv w := by
  refine ⟨by rw [hl]; exact List.nodup_nil, ?_, ?_, ?_⟩
  · intro p
    rw [hl, hm p]
    simp
  · intro p vm hp
    rw [hm p] at hp; exact Option.noConfusion hp
  · intro p q vp vq hp
    rw [hm p] at hp; exact Option.noConfusion hp

theorem registry_inv_store (w : World) (p : Nat) (vm vm2 : vm_t) (h : registry_inv w)
    (hp : w.heap p = some vm) (hid : vm2.vm_id = vm.vm_id) (hrc : 1 ≤ vm2.ref_count)
    (hvl : vm2.vcpu_list = []) (hwe : windows_empty vm2) :
    registry_inv (w.store p vm2) := by
  obtain ⟨h1, h2, h3, h4⟩ := h
  have hheap : ∀ q, (w.store p vm2).heap q = if q = p then some vm2 else w.heap q := by
    intro q
    by_cases hq : q = p
    · subst hq; simp [World.store]
    · simp [World.store, Function.update_noteq hq, hq]
  refine ⟨h1, ?_, ?_, ?_⟩
  · intro q
    rw [hheap q]
    by_cases hq : q = p
    · subst hq
      simp only [↓reduceIte]
      constructor
      · intro _; exact Option.noConfusion
      · intro _; exact (h2 q).mpr (by rw [hp]; exact Option.noConfusion)
    · simp only [hq, ↓reduceIte]
      exact h2 q
  · intro q v hq
    rw [hheap q] at hq
    by_cases hqp : q = p
    · subst hqp
      simp only [↓reduceIte] at hq
      have hv : vm2 = v := Option.some.inj hq
      subst hv
      obtain ⟨a1, a2, _, _, _⟩ := h3 q vm hp
      exact ⟨by rw [hid]; exact a1, by rw [hid]; exact a2, hrc, hvl, hwe⟩
    · simp only [hqp, ↓reduceIte] at hq
      exact h3 q v hq
  · intro q1 q2 v1 v2 hq1 hq2 hids
    rw [hheap q1] at hq1
    rw [hheap q2] at hq2
    by_cases e1 : q1 = p
    · by_cases e2 : q2 = p
      · rw [e1, e2]
      · simp only [e1, ↓reduceIte] at hq1
        simp only [e2, ↓reduceIte] at hq2
        have hv : vm2 = v1 := Option.some.inj hq1
        subst hv
        rw [e1]
        exact h4 p q2 vm v2 hp hq2 (by rw [← hid]; exact hids)
    · by_cases e2 : q2 = p
      · simp only [e1, ↓reduceIte] at hq1
        simp only [e2, ↓reduceIte] at hq2
        have hv : vm2 = v2 := Option.some.inj hq2
        subst hv
        rw [e2]
        exact h4 q1 p v1 vm hq1 hp (by rw [hids, hid])
      · simp only [e1, ↓reduceIte] at hq1
        simp only [e2, ↓reduceIte] at hq2
        exact h4 q1 q2 v1 v2 hq1 hq2 hids

theorem hax_get_vm_loop_world (vm_id ref : Int) : ∀ (l : List Nat) (w : World)
    (r : Option Nat × World), hax_get_vm_loop vm_id ref l w = some r →
    r.2 = w ∨ ∃ p vm, w.heap p = some vm ∧ 0 < vm.ref_count ∧
      r.2 = w.store p { vm with ref_count := vm.ref_count + 1 } := by
  intro l
  induction l with
  | nil =>
    intro w r h
    simp only [hax_get_vm_loop, Option.some.injEq] at h
    left; rw [← h]
  | cons q qs ih =>
    intro w r h
    cases hq : w.heap q with
    | none => simp [hax_get_vm_loop, hq] at h
    | some vm =>
      by_cases hid : vm.vm_id = vm_id
      · by_cases href : ref ≠ 0
        · by_cases hneg : vm.ref_count ≤ 0
          · left
            have hstep : hax_get_vm_loop vm_id ref (q :: qs) w
                = some (none, (w.store q { vm with ref_count := vm.ref_count + 1 }).store q
                    { vm with ref_count := vm.ref_count + 1 - 1 }) := by
              simp [hax_get_vm_loop, hq, hid, href, hax_atomic_add, hax_atomic_dec, hneg]
            have h3 : ({ vm with ref_count := vm.ref_count + 1 - 1 } : vm_t) = vm := by
              cases vm
              simp
            have h2 : (w.store q { vm with ref_count := vm.ref_count + 1 }).store q vm
                = w.store q vm := by
              simp [World.store]
            rw [hstep, h3, h2, store_same w q vm hq] at h
            rw [← Option.some.inj h]
          · right
            have hstep : hax_get_vm_loop vm_id ref (q :: qs) w
                = some (some q, w.store q { vm with ref_count := vm.ref_count + 1 }) := by
              simp [hax_get_vm_loop, hq, hid, href, hax_atomic_add, hneg]
            rw [hstep] at h
            exact ⟨q, vm, hq, by omega, by rw [← Option.some.inj h]⟩
        · left
          have hstep : hax_get_vm_loop vm_id ref (q :: qs) w = some (some q, w) := by
            simp only [hax_get_vm_loop, hq, hid, ↓reduceIte, href]
          rw [hstep] at h
          rw [← Option.some.inj h]
      · have hstep : hax_get_vm_loop vm_id ref (q :: qs) w
            = hax_get_vm_loop vm_id ref qs w := by
          simp [hax_get_vm_loop, hq, hid]
        rw [hstep] at h
        exact ih w r h

theorem registry_inv_get_vm (w : World) (vm_id ref : Int) (r : Option Nat × World)
    (h : registry_inv w) (hr : hax_get_vm w vm_id ref = some r) : registry_inv r.2 := by
  rcases hax_get_vm_loop_world vm_id ref w.hax.hax_vmlist w r hr with
    e | ⟨p, vm, hp, hpos, e⟩
  · rw [e]; exact h
  · rw [e]
    obtain ⟨_, _, _, a4, a5⟩ := h.2.2.1 p vm hp
    exact registry_inv_store w p vm _ h hp rfl (by show 1 ≤ vm.ref_count + 1; omega) a4 a5

theorem toNat_inj_of_valid (a b : Int) (ha : valid_vm_mid a = true)
    (hb : valid_vm_mid b = true) (h : a.toNat = b.toNat) : a = b := by
  have ha0 : 0 ≤ a ∧ a < 8 := by simpa [valid_vm_mid, VM_MID_BIT] using ha
  have hb0 : 0 ≤ b ∧ b < 8 := by simpa [valid_vm_mid, VM_MID_BIT] using hb
  omega

theorem registry_inv_create (cfg : Config) (env : create_env) (w : World)
    (h : registry_inv w) (hfresh : ∀ p, env.hvm = some p → w.heap p = none) :
    registry_inv (hax_create_vm cfg env w).world := by
  cases hret : (hax_create_vm cfg env w).ret with
  | none =>
    rcases hax_create_vm_cases cfg env w with ⟨_, h2, h3, h4⟩ | ⟨_, _, _, _, _, _, _, _, _, hr, _⟩
    · exact registry_inv_congr w _ h3 h2 h4 h
    · rw [hr] at hret; exact Option.noConfusion hret
  | some p =>
    obtain ⟨i, hi8, hclr, hp, hheap, hbits, hhax⟩ := hax_create_vm_heap cfg env w p hret
    have hnone : w.heap p = none := hfresh p hp
    obtain ⟨h1, h2, h3, h4⟩ := h
    obtain ⟨c1, c2, c3, c4, _⟩ := windows_empty_created_vm cfg (i : Int)
    have hpn : p ∉ w.hax.hax_vmlist := by
      intro hin
      exact (h2 p).mp hin hnone
    have hget : ∀ q, (hax_create_vm cfg env w).world.heap q
        = if q = p then some (created_vm cfg (i : Int)) else w.heap q := by
      intro q
      rw [hheap]
      by_cases hq : q = p
      · subst hq; simp
      · simp [Function.update_noteq hq, hq]
    have hnew : ∀ q v, w.heap q = some v → v.vm_id ≠ (i : Int) := by
      intro q v hq hid
      obtain ⟨_, a2, _⟩ := h3 q v hq
      rw [hid] at a2
      simp only [Int.toNat_ofNat] at a2
      rw [hclr] at a2
      exact Bool.noConfusion a2
    refine ⟨?_, ?_, ?_, ?_⟩
    · rw [hhax]
      exact List.nodup_cons.mpr ⟨hpn, h1⟩
    · intro q
      rw [hhax, hget q]
      by_cases hq : q = p
      · subst hq
        simp
      · simp only [List.mem_cons, hq, false_or, ↓reduceIte]
        exact h2 q
    · intro q v hq
      rw [hget q] at hq
      rw [hbits]
      by_cases hqp : q = p
      · simp only [hqp, ↓reduceIte] at hq
        have hv : created_vm cfg (i : Int) = v := Option.some.inj hq
        subst hv
        refine ⟨by rw [c2]; exact valid_vm_mid_ofNat i hi8, ?_, by rw [c3], c4, c1⟩
        rw [c2, testBit_set_bit]
        simp
      · simp only [hqp, ↓reduceIte] at hq
        obtain ⟨a1, a2, a3, a4, a5⟩ := h3 q v hq
        refine ⟨a1, ?_, a3, a4, a5⟩
        rw [testBit_set_bit, a2]
        simp
    · intro q1 q2 v1 v2 hq1 hq2 hids
      rw [hget q1] at hq1
      rw [hget q2] at hq2
      by_cases e1 : q1 = p
      · by_cases e2 : q2 = p
        · rw [e1, e2]
        · exfalso
          simp only [e1, ↓reduceIte] at hq1
          simp only [e2, ↓reduceIte] at hq2
          have hv : created_vm cfg (i : Int) = v1 := Option.some.inj hq1
          subst hv
          exact hnew q2 v2 hq2 (by rw [← hids, c2])
      · by_cases e2 : q2 = p
        · exfalso
          simp only [e1, ↓reduceIte] at hq1
          simp only [e2, ↓reduceIte] at hq2
          have hv : created_vm cfg (i : Int) = v2 := Option.some.inj hq2
          subst hv
          exact hnew q1 v1 hq1 (by rw [hids, c2])
        · simp only [e1, ↓reduceIte] at hq1
          simp only [e2, ↓reduceIte] at hq2
          exact h4 q1 q2 v1 v2 hq1 hq2 hids

theorem window_ok_of_empty (cfg : Config) (vm : vm_t) (h : windows_empty vm) :
    window_ok cfg vm := by
  intro lst hl i hi
  exact absurd (h lst hl i) hi

theorem registry_inv_put_vm (cfg : Config) (w : World) (p : Nat) (r : Int × World)
    (h : registry_inv w) (hr : hax_put_vm cfg w p = some r) : registry_inv r.2 := by
  cases hp : w.heap p with
  | none => simp [hax_put_vm, hp] at hr
  | some vm =>
    obtain ⟨a1, a2, a3, a4, a5⟩ := h.2.2.1 p vm hp
    by_cases hrc : vm.ref_count = 1
    · obtain ⟨w', maps, ht, hheap, hhax, hbits, _, _⟩ :=
        hax_teardown_vm_done cfg (w.before_teardown p vm) p
          { vm with ref_count := vm.ref_count - 1 } (before_teardown_heap w p vm) a4
          (fun _ => window_ok_of_empty cfg _ a5)
      have hput : hax_put_vm cfg w p = some (1, w') := by
        rw [hax_put_vm_last cfg w p vm hp hrc, ht]; rfl
      rw [hput] at hr
      have hrw : r.2 = w' := by rw [← Option.some.inj hr]
      rw [hrw]
      have hbits2 : w'.vm_mid_bits = (hax_put_vm_mid vm.vm_id w.vm_mid_bits).2 := hbits
      have hid0 : 0 ≤ vm.vm_id ∧ vm.vm_id < 8 := by
        simpa [valid_vm_mid, VM_MID_BIT] using a1
      obtain ⟨s1, _, _⟩ := hax_put_vm_mid_spec vm.vm_id w.vm_mid_bits hid0.1 hid0.2
      have hget : ∀ q, w'.heap q = if q = p then none else w.heap q := by
        intro q
        rw [hheap]
        by_cases hq : q = p
        · subst hq; simp
        · simp [World.before_teardown, Function.update_noteq hq, hq]
      have hlist : w'.hax.hax_vmlist = w.hax.hax_vmlist.filter (fun q => q ≠ p) := by
        rw [hhax]; rfl
      obtain ⟨h1, h2, h3, h4⟩ := h
      refine ⟨?_, ?_, ?_, ?_⟩
      · rw [hlist]
        exact List.Nodup.filter _ h1
      · intro q
        rw [hlist, hget q, List.mem_filter]
        by_cases hq : q = p
        · simp [hq]
        · simp only [hq, ↓reduceIte, ne_eq, not_false_eq_true, decide_True, and_true]
          exact h2 q
      · intro q v hq
        rw [hget q] at hq
        by_cases hqp : q = p
        · simp only [hqp, ↓reduceIte] at hq
          exact Option.noConfusion hq
        · simp only [hqp, ↓reduceIte] at hq
          obtain ⟨b1, b2, b3, b4, b5⟩ := h3 q v hq
          refine ⟨b1, ?_, b3, b4, b5⟩
          rw [hbits2, s1, b2]
          have hne : v.vm_id.toNat ≠ vm.vm_id.toNat := by
            intro e
            exact hqp (h4 q p v vm hq hp (toNat_inj_of_valid _ _ b1 a1 e))
          simp [hne]
      · intro q1 q2 v1 v2 hq1 hq2 hids
        rw [hget q1] at hq1
        rw [hget q2] at hq2
        by_cases e1 : q1 = p
        · simp only [e1, ↓reduceIte] at hq1
          exact Option.noConfusion hq1
        · by_cases e2 : q2 = p
          · simp only [e2, ↓reduceIte] at hq2
            exact Option.noConfusion hq2
          · simp only [e1, ↓reduceIte] at hq1
            simp only [e2, ↓reduceIte] at hq2
            exact h4 q1 q2 v1 v2 hq1 hq2 hids
    · rw [hax_put_vm_other cfg w p vm hp hrc] at hr
      have hrw : r.2 = w.store p { vm with ref_count := vm.ref_count - 1 } := by
        rw [← Option.some.inj hr]
      rw [hrw]
      exact registry_inv_store w p vm _ h hp rfl
        (by show 1 ≤ vm.ref_count - 1; omega) a4 a5

/-- Every reachable state satisfies the invariant of the registry. -/
theorem registry_inv_of_reachable (cfg : Config) (w : World) (h : Reachable cfg w) :
    registry_inv w := by
  induction h with
  | init w _ hl hm => exact registry_inv_init w hl hm
  | create w env _ hfresh ih => exact registry_inv_create cfg env w ih hfresh
  | get_vm w vm_id ref r _ hr ih => exact registry_inv_get_vm w vm_id ref r ih hr
  | put_vm w p r _ hr ih => exact registry_inv_put_vm cfg w p r ih hr

/-! ## C17: the invariant of the registry in every reachable state -/

theorem registry_length_le (w : World) (h : registry_inv w) :
    w.hax.hax_vmlist.length ≤ 8 := by
  obtain ⟨h1, h2, h3, h4⟩ := h
  have hlive : ∀ x, x ∈ w.hax.hax_vmlist → ∃ vm, w.heap x = some vm := by
    intro x hx
    cases hq : w.heap x with
    | none => exact absurd hq ((h2 x).mp hx)
    | some vm => exact ⟨vm, rfl⟩
  have hnd : (w.hax.hax_vmlist.map
      (fun p => match w.heap p with
        | some vm => vm.vm_id.toNat
        | none => 0)).Nodup := by
    apply List.Nodup.map_on _ h1
    intro x hx y hy hxy
    obtain ⟨vx, ex⟩ := hlive x hx
    obtain ⟨vy, ey⟩ := hlive y hy
    simp only [ex, ey] at hxy
    exact h4 x y vx vy ex ey
      (toNat_inj_of_valid _ _ (h3 x vx ex).1 (h3 y vy ey).1 hxy)
  have hsub : (w.hax.hax_vmlist.map
      (fun p => match w.heap p with
        | some vm => vm.vm_id.toNat
        | none => 0)).toFinset ⊆ Finset.range 8 := by
    intro n hn
    rw [List.mem_toFinset, List.mem_map] at hn
    obtain ⟨x, hx, e⟩ := hn
    obtain ⟨vx, ex⟩ := hlive x hx
    simp only [ex] at e
    have hv : 0 ≤ vx.vm_id ∧ vx.vm_id < 8 := by
      simpa [valid_vm_mid, VM_MID_BIT] using (h3 x vx ex).1
    rw [Finset.mem_range]
    have e2 : vx.vm_id.toNat = n := e
    have e3 : (vx.vm_id.toNat : Int) = vx.vm_id := Int.toNat_of_nonneg hv.1
    omega
  have hcard := Finset.card_le_card hsub
  rw [List.toFinset_card_of_nodup hnd, List.length_map, Finset.card_range] at hcard
  exact hcard

/-- C17. In every state reached from an empty system (bitmap 0, empty
registry, no VM object) by sequential calls of `hax_create_vm`, `hax_get_vm`
and `hax_put_vm` that return, with a host allocator that hands out unused
memory: every registered VM is allocated, has an identifier in 0..7 whose bit
is set in the bitmap and a reference count of at least 1; two registered VMs
with the same identifier are the same VM, no VM is registered twice, and at
most 8 VMs are registered. -/
theorem c17_registry_invariant (cfg : Config) (w : World) (h : Reachable cfg w) :
    (∀ p, p ∈ w.hax.hax_vmlist → ∃ vm, w.heap p = some vm ∧
      0 ≤ vm.vm_id ∧ vm.vm_id < 8 ∧ w.vm_mid_bits.testBit vm.vm_id.toNat = true ∧
      1 ≤ vm.ref_count) ∧
    (∀ p q vp vq, p ∈ w.hax.hax_vmlist → q ∈ w.hax.hax_vmlist →
      w.heap p = some vp → w.heap q = some vq → vp.vm_id = vq.vm_id → p = q) ∧
    w.hax.hax_vmlist.Nodup ∧
    w.hax.hax_vmlist.length ≤ 8 := by
  have hinv := registry_inv_of_reachable cfg w h
  refine ⟨?_, ?_, hinv.1, registry_length_le w hinv⟩
  · intro p hp
    cases hq : w.heap p with
    | none => exact absurd hq ((hinv.2.1 p).mp hp)
    | some vm =>
      obtain ⟨a1, a2, a3, _, _⟩ := hinv.2.2.1 p vm hq
      have hv : 0 ≤ vm.vm_id ∧ vm.vm_id < 8 := by
        simpa [valid_vm_mid, VM_MID_BIT] using a1
      exact ⟨vm, rfl, hv.1, hv.2, a2, a3⟩
  · intro p q vp vq _ _ hp hq hid
    exact hinv.2.2.2 p q vp vq hp hq hid

/-- C17 applied to the state after the first creation on the empty system. -/
theorem c17_registry_invariant_witness :
    Reachable Config.ept2 (hax_create_vm Config.ept2 (create_env.ok 10) World.empty).world ∧
    (hax_create_vm Config.ept2 (create_env.ok 10) World.empty).world.hax.hax_vmlist.length
      ≤ 8 :=
  have hr : Reachable Config.ept2
      (hax_create_vm Config.ept2 (create_env.ok 10) World.empty).world :=
    Reachable.create World.empty (create_env.ok 10)
      (Reachable.init World.empty rfl rfl (fun _ => rfl)) (fun _ _ => rfl)
  ⟨hr, (c17_registry_invariant Config.ept2 _ hr).2.2.2⟩

/-! ## The recycler of the primary window -/

theorem p2m_set_hva_fields (vm : vm_t) (e : Nat × Nat) (h : Nat) :
    (p2m_set_hva vm e h).hva_limit = vm.hva_limit ∧
    (p2m_set_hva vm e h).hva_index = vm.hva_index ∧
    (p2m_set_hva vm e h).hva_index_1 = vm.hva_index_1 ∧
    (p2m_set_hva vm e h).hva_list = vm.hva_list ∧
    (p2m_set_hva vm e h).hva_list_1 = vm.hva_list_1 := by
  unfold p2m_set_hva
  split <;> exact ⟨rfl, rfl, rfl, rfl, rfl⟩

theorem p2m_store_hva_fields (vm : vm_t) (entry : Option (Nat × Nat)) (h : Nat) :
    (p2m_store_hva vm entry h).hva_limit = vm.hva_limit ∧
    (p2m_store_hva vm entry h).hva_index = vm.hva_index ∧
    (p2m_store_hva vm entry h).hva_index_1 = vm.hva_index_1 ∧
    (p2m_store_hva vm entry h).hva_list = vm.hva_list ∧
    (p2m_store_hva vm entry h).hva_list_1 = vm.hva_list_1 := by
  cases entry with
  | none => exact ⟨rfl, rfl, rfl, rfl, rfl⟩
  | some e => exact p2m_set_hva_fields vm e h

theorem p2m_clear_hva_fields (vm : vm_t) (entry : Option (Nat × Nat)) :
    (p2m_clear_hva vm entry).hva_limit = vm.hva_limit ∧
    (p2m_clear_hva vm entry).hva_index = vm.hva_index ∧
    (p2m_clear_hva vm entry).hva_index_1 = vm.hva_index_1 ∧
    (p2m_clear_hva vm entry).hva_list = vm.hva_list ∧
    (p2m_clear_hva vm entry).hva_list_1 = vm.hva_list_1 := by
  cases entry with
  | none => exact ⟨rfl, rfl, rfl, rfl, rfl⟩
  | some e => exact p2m_set_hva_fields vm e 0

theorem p2m_entry_set_hva_zero (vm : vm_t) (e2 e : Nat × Nat)
    (h : (p2m_entry vm e).hva = 0) : (p2m_entry (p2m_set_hva vm e2 0) e).hva = 0 := by
  unfold p2m_set_hva
  cases hg : vm.p2m_map e2.1 with
  | none => simpa [hg] using h
  | some grp =>
    simp only
    unfold p2m_entry at h ⊢
    by_cases h1 : e.1 = e2.1
    · rw [h1] at h ⊢
      rw [hg] at h
      simp only [Function.update_same] at h ⊢
      by_cases h2 : e.2 = e2.2
      · rw [h2]; simp
      · rw [Function.update_noteq h2]; exact h
    · simp only [Function.update_noteq h1]
      exact h

theorem cached_hva_clear (vm : vm_t) (entry2 entry : Option (Nat × Nat))
    (h : cached_hva vm entry = 0) : cached_hva (p2m_clear_hva vm entry2) entry = 0 := by
  cases entry with
  | none => rfl
  | some e =>
    cases entry2 with
    | none => exact h
    | some e2 => exact p2m_entry_set_hva_zero vm e2 e h

/-- What one eviction from the primary window does. -/
theorem recycle_evict_spec (cfg : Config) (lst : Nat → hva_entry) (i : Nat) (vm : vm_t)
    (tr : List Ev) (r : vm_t × List Ev)
    (h : recycle_total_evict cfg false lst i vm tr = some r) :
    r.1.hva_list = some (Function.update lst i hva_entry.zero) ∧
    r.1.hva_limit = hva_limit_dec vm.hva_limit ∧
    r.1.hva_list_1 = vm.hva_list_1 ∧ r.1.hva_index_1 = vm.hva_index_1 ∧
    (∀ g, (r.1.p2m_map g).isSome = (vm.p2m_map g).isSome) ∧
    (∀ entry, cached_hva vm entry = 0 → cached_hva r.1 entry = 0) ∧
    r.2 = tr ++ [Ev.release (Res.mapping (lst i).hva)] := by
  unfold recycle_total_evict at h
  cases he : hax_get_p2m_entry cfg vm (lst i).gpfn with
  | none => simp [he] at h
  | some entry =>
    simp only [he, Bool.false_eq_true, ↓reduceIte, Option.some.injEq] at h
    subst h
    obtain ⟨f1, _, f3, _, f5⟩ := p2m_clear_hva_fields vm entry
    refine ⟨rfl, by simp only; rw [f1], f5, f3, ?_, ?_, rfl⟩
    · intro g
      cases entry with
      | none => rfl
      | some e => exact p2m_set_hva_isSome vm e 0 g
    · intro en hen
      have := cached_hva_clear vm entry en hen
      cases en with
      | none => rfl
      | some e => exact this

theorem hva_limit_dec_eq (x : Nat) (h1 : 4096 ≤ x) (h2 : x < 2 ^ 64) :
    hva_limit_dec x = x - 4096 := by
  unfold hva_limit_dec
  have : x + 2 ^ 64 - 4096 = (x - 4096) + 2 ^ 64 := by omega
  rw [this, Nat.add_mod_right]
  exact Nat.mod_eq_of_lt (by omega)

/-- What the loop of `gpfn_to_hva_recycle` does when it returns: it counts at
most one eviction per slot, charges 4096 bytes per eviction, only empties
slots, and an eviction leaves an empty slot in the range walked. -/
theorem gpfn_to_hva_recycle_loop_spec (cfg : Config) (cr3_cur : Nat) (flag : Bool) :
    ∀ (n i : Nat) (vm : vm_t) (tr : List Ev) (count : Nat) (lst : Nat → hva_entry)
      (r : vm_t × List Ev × Nat),
    vm.hva_list = some lst →
    gpfn_to_hva_recycle_loop cfg cr3_cur flag n i vm tr count = some r →
    count ≤ r.2.2 ∧ r.2.2 ≤ count + n ∧
    (4096 * n ≤ vm.hva_limit → vm.hva_limit < 2 ^ 64 →
      r.1.hva_limit + 4096 * (r.2.2 - count) = vm.hva_limit) ∧
    (∃ lst2, r.1.hva_list = some lst2 ∧
      (∀ k, lst2 k = lst k ∨ lst2 k = hva_entry.zero) ∧
      (count < r.2.2 → ∃ k, i ≤ k ∧ k < i + n ∧ lst2 k = hva_entry.zero)) ∧
    r.1.hva_list_1 = vm.hva_list_1 ∧ r.1.hva_index_1 = vm.hva_index_1 ∧
    (∀ g, (r.1.p2m_map g).isSome = (vm.p2m_map g).isSome) ∧
    (∀ entry, cached_hva vm entry = 0 → cached_hva r.1 entry = 0) := by
  intro n
  induction n with
  | zero =>
    intro i vm tr count lst r hl h
    simp only [gpfn_to_hva_recycle_loop, Option.some.injEq] at h
    subst h
    refine ⟨le_refl _, le_refl _, ?_, ⟨lst, hl, fun _ => Or.inl rfl, ?_⟩, rfl, rfl,
      fun _ => rfl, fun _ h => h⟩
    · intro _ _; simp
    · intro hlt; exact absurd hlt (lt_irrefl _)
  | succ n ih =>
    intro i vm tr count lst r hl h
    by_cases hc : (flag || (decide ((lst i).gcr3 ≠ cr3_cur) && !(lst i).is_kern)) = true
    · cases he : recycle_total_evict cfg false lst i vm tr with
      | none =>
        simp only [gpfn_to_hva_recycle_loop, hl, hc, ↓reduceIte, he] at h
        exact absurd h (by simp)
      | some r1 =>
        have hstep : gpfn_to_hva_recycle_loop cfg cr3_cur flag (n + 1) i vm tr count
            = gpfn_to_hva_recycle_loop cfg cr3_cur flag n (i + 1) r1.1 r1.2 (count + 1) := by
          simp only [gpfn_to_hva_recycle_loop, hl, hc, ↓reduceIte, he]
        rw [hstep] at h
        obtain ⟨e1, e2, e3, e4, e5, e6, _⟩ := recycle_evict_spec cfg lst i vm tr r1 he
        obtain ⟨a1, a2, a3, ⟨lst2, b1, b2, _⟩, a5, a6, a7, a8⟩ :=
          ih (i + 1) r1.1 r1.2 (count + 1) _ r e1 h
        refine ⟨by omega, by omega, ?_, ⟨lst2, b1, ?_, ?_⟩, by rw [a5, e3], by rw [a6, e4],
          fun g => (a7 g).trans (e5 g), fun en hen => a8 en (e6 en hen)⟩
        · intro h1 h2
          have hd : r1.1.hva_limit = vm.hva_limit - 4096 := by
            rw [e2]; exact hva_limit_dec_eq _ (by omega) h2
          have := a3 (by rw [hd]; omega) (by rw [hd]; omega)
          rw [hd] at this
          omega
        · intro k
          rcases b2 k with hk | hk
          · by_cases hki : k = i
            · right; rw [hk, hki]; simp
            · left; rw [hk, Function.update_noteq hki]
          · right; exact hk
        · intro _
          refine ⟨i, le_refl _, by omega, ?_⟩
          rcases b2 i with hk | hk
          · rw [hk]; simp
          · exact hk
    · have hstep : gpfn_to_hva_recycle_loop cfg cr3_cur flag (n + 1) i vm tr count
          = gpfn_to_hva_recycle_loop cfg cr3_cur flag n (i + 1) vm tr count := by
        simp only [gpfn_to_hva_recycle_loop, hl, hc]
        rfl
      rw [hstep] at h
      obtain ⟨a1, a2, a3, ⟨lst2, b1, b2, b3⟩, a5, a6, a7, a8⟩ :=
        ih (i + 1) vm tr count lst r hl h
      refine ⟨a1, by omega, ?_, ⟨lst2, b1, b2, ?_⟩, a5, a6, a7, a8⟩
      · intro h1 h2
        exact a3 (by omega) h2
      · intro hlt
        obtain ⟨k, k1, k2, k3⟩ := b3 hlt
        exact ⟨k, by omega, by omega, k3⟩

/-! ## C18: what non-forced recycling evicts -/

/-- C18 (defect of the code). On the small 32-bit build, `vm_kernel_slot` has
the kernel-exempt record of frame 0 in slot 0 of the primary window, slot 1
empty, frame 0 cached at 0x3000 and three pages tracked.
`gpfn_to_hva_recycle` with root 9, not forced, keeps slot 0, but treats the
empty slot 1 (frame 0, root 0) as stale: it unmaps address 0, clears the
cached address of frame 0, lowers `hva_limit` by a page and reports one
eviction. The kept slot still names frame 0 at 0x3000 while `hax_gpfn_to_hva`
reports frame 0 unmapped. The same happens inside a call of `hax_map_gpfn`:
on `vm_frame0_full`, which tracks one page more than the ceiling, the call
for frame 5 under root 9 recycles twice (the record of frame 3, then the slot
just emptied) and returns with slot 0 unchanged and frame 0 unmapped. -/
theorem c18_recycle_empty_slot_defect :
    (vm_kernel_slot.hva_list.map fun l =>
      ((l 0).gpfn, (l 0).hva, (l 0).gcr3, (l 0).is_kern, (l 1).hva))
      = some (0, 0x3000, 7, true, 0) ∧
    hax_gpfn_to_hva Config.small32 vm_kernel_slot 0 = some 0x3000 ∧
    vm_kernel_slot.hva_limit = 12288 ∧
    (gpfn_to_hva_recycle Config.small32 vm_kernel_slot [] 9 false).map (fun r =>
      (r.1, r.2.1.hva_limit, r.2.2)) = some (1, 8192, [Ev.release (Res.mapping 0)]) ∧
    (gpfn_to_hva_recycle Config.small32 vm_kernel_slot [] 9 false).map (fun r =>
      r.2.1.hva_list.map (fun l => ((l 0).gpfn, (l 0).hva, (l 0).gcr3, (l 0).is_kern)))
      = some (some (0, 0x3000, 7, true)) ∧
    (gpfn_to_hva_recycle Config.small32 vm_kernel_slot [] 9 false).map (fun r =>
      hax_gpfn_to_hva Config.small32 r.2.1 0) = some (some 0) ∧
    (vm_frame0_full.hva_list.map fun l =>
      ((l 0).gpfn, (l 0).hva, (l 0).gcr3, (l 0).is_kern)) = some (0, 0x3000, 7, true) ∧
    hax_gpfn_to_hva Config.small32 vm_frame0_full 0 = some 0x3000 ∧
    vm_frame0_full.hva_limit = 20480 ∧
    (hax_map_gpfn Config.small32 0x6000 vm_frame0_full [] 5 false 9 0).toOption.map
      (fun r => (r.1, r.2.2))
      = some (0x6000, [Ev.release (Res.mapping 0x4000), Ev.release (Res.mapping 0),
          Ev.acquire (Res.mapping 0x6000)]) ∧
    (hax_map_gpfn Config.small32 0x6000 vm_frame0_full [] 5 false 9 0).toOption.map
      (fun r => r.2.1.hva_list.map fun l =>
        ((l 0).gpfn, (l 0).hva, (l 0).gcr3, (l 0).is_kern))
      = some (some (0, 0x3000, 7, true)) ∧
    (hax_map_gpfn Config.small32 0x6000 vm_frame0_full [] 5 false 9 0).toOption.map
      (fun r => hax_gpfn_to_hva Config.small32 r.2.1 0) = some (some 0) := by
  refine ⟨by decide, by decide, by decide, by decide, by decide, by decide, by decide,
    by decide, by decide, by decide, by decide, by decide⟩

/-! ## The legacy window: `hax_map_gpfn` -/

theorem gpfn_to_hva_recycle_none (cfg : Config) (vm : vm_t) (tr : List Ev) (cr3_cur : Nat)
    (flag : Bool) (hl : vm.hva_list = none) :
    gpfn_to_hva_recycle cfg vm tr cr3_cur flag = some (0, vm, tr) := by
  simp only [gpfn_to_hva_recycle, hl]

/-- What `gpfn_to_hva_recycle` does when it returns, on a VM with a primary
window. -/
theorem gpfn_to_hva_recycle_spec (cfg : Config) (vm : vm_t) (tr : List Ev) (cr3_cur : Nat)
    (flag : Bool) (lst : Nat → hva_entry) (r : Nat × vm_t × List Ev)
    (hl : vm.hva_list = some lst)
    (h : gpfn_to_hva_recycle cfg vm tr cr3_cur flag = some r) :
    r.1 ≤ (cfg.HOST_VIRTUAL_ADDR_LIMIT - cfg.HOST_VIRTUAL_ADDR_RECYCLE) / 4096 ∧
    (4096 * ((cfg.HOST_VIRTUAL_ADDR_LIMIT - cfg.HOST_VIRTUAL_ADDR_RECYCLE) / 4096)
        ≤ vm.hva_limit → vm.hva_limit < 2 ^ 64 →
      r.2.1.hva_limit + 4096 * r.1 = vm.hva_limit) ∧
    r.2.1.hva_index = 0 ∧
    (∃ lst2, r.2.1.hva_list = some lst2 ∧
      (∀ k, lst2 k = lst k ∨ lst2 k = hva_entry.zero) ∧
      (0 < r.1 → ∃ k, k < (cfg.HOST_VIRTUAL_ADDR_LIMIT - cfg.HOST_VIRTUAL_ADDR_RECYCLE) / 4096
        ∧ lst2 k = hva_entry.zero)) ∧
    r.2.1.hva_list_1 = vm.hva_list_1 ∧ r.2.1.hva_index_1 = vm.hva_index_1 ∧
    (∀ g, (r.2.1.p2m_map g).isSome = (vm.p2m_map g).isSome) ∧
    (∀ entry, cached_hva vm entry = 0 → cached_hva r.2.1 entry = 0) := by
  simp only [gpfn_to_hva_recycle, hl] at h
  cases hq : gpfn_to_hva_recycle_loop cfg cr3_cur flag
      ((cfg.HOST_VIRTUAL_ADDR_LIMIT - cfg.HOST_VIRTUAL_ADDR_RECYCLE) / 4096) 0 vm tr 0 with
  | none => rw [hq] at h; exact absurd h (by simp)
  | some q =>
    rw [hq] at h
    simp only [Option.map_some', Option.some.injEq] at h
    subst h
    obtain ⟨_, a2, a3, ⟨lst2, b1, b2, b3⟩, a5, a6, a7, a8⟩ :=
      gpfn_to_hva_recycle_loop_spec cfg cr3_cur flag _ 0 vm tr 0 lst q hl hq
    refine ⟨by simpa using a2, ?_, rfl, ⟨lst2, b1, b2, ?_⟩, a5, a6, a7, ?_⟩
    · intro h1 h2
      simpa using a3 h1 h2
    · intro hpos
      obtain ⟨k, _, k2, k3⟩ := b3 hpos
      exact ⟨k, by simpa using k2, k3⟩
    · intro en hen
      have := a8 en hen
      cases en with
      | none => rfl
      | some e => exact this

theorem hva_list_scan_finds (lst : Nat → hva_entry) :
    ∀ (n idx k : Nat), idx ≤ k → k < idx + n → (lst k).hva = 0 →
    ∃ j, hva_list_scan lst n idx = some j ∧ idx ≤ j ∧ j ≤ k ∧ (lst j).hva = 0 ∧
      ∀ m, idx ≤ m → m < j → (lst m).hva ≠ 0 := by
  intro n
  induction n with
  | zero => intro idx k h1 h2 _; omega
  | succ n ih =>
    intro idx k h1 h2 h3
    by_cases h0 : (lst idx).hva = 0
    · refine ⟨idx, by simp [hva_list_scan, h0], le_refl _, h1, h0, ?_⟩
      intro m m1 m2; omega
    · have hk : idx + 1 ≤ k := by
        rcases Nat.eq_or_lt_of_le h1 with e | e
        · rw [e] at h0; exact absurd h3 h0
        · exact e
      obtain ⟨j, j1, j2, j3, j4, j5⟩ := ih (idx + 1) k hk (by omega) h3
      refine ⟨j, by simp [hva_list_scan, h0, j1], by omega, j3, j4, ?_⟩
      intro m m1 m2
      rcases Nat.eq_or_lt_of_le m1 with e | e
      · rw [← e]; exact h0
      · exact j5 m e m2

/-- The three ways one pass through the label `retry` ends: the cached
address is returned; a page is mapped and tracked (or the window list faults);
or the recycler runs, after which the pass is repeated when it reports an
eviction and a one-shot mapping is returned when it reports none. -/
theorem hax_map_gpfn_retry_cases (cfg : Config) (hva_new : Nat) (entry : Option (Nat × Nat))
    (gpfn : Nat) (flag : Bool) (gcr3 level fuel : Nat) (vm : vm_t) (tr : List Ev) :
    hax_map_gpfn_retry cfg hva_new entry gpfn flag gcr3 level (fuel + 1) vm tr
        = Except.ok (cached_hva vm entry % 2 ^ 32, vm, tr) ∨
    ((flag = true ∨ vm.hva_limit < cfg.HOST_VIRTUAL_ADDR_LIMIT) ∧
      (hax_map_gpfn_retry cfg hva_new entry gpfn flag gcr3 level (fuel + 1) vm tr
          = Except.error Stop.fault ∨
       ∃ vm2, hax_map_gpfn_retry cfg hva_new entry gpfn flag gcr3 level (fuel + 1) vm tr
          = Except.ok (hva_new, vm2, tr ++ [Ev.acquire (Res.mapping hva_new)]) ∧
          vm2.hva_limit = (vm.hva_limit + 4096) % 2 ^ 64)) ∨
    (flag = false ∧ cfg.HOST_VIRTUAL_ADDR_LIMIT ≤ vm.hva_limit ∧
      ((gpfn_to_hva_recycle cfg vm tr gcr3 false = none ∧
        hax_map_gpfn_retry cfg hva_new entry gpfn flag gcr3 level (fuel + 1) vm tr
          = Except.error Stop.fault) ∨
       ∃ r, gpfn_to_hva_recycle cfg vm tr gcr3 false = some r ∧
        ((r.1 ≠ 0 ∧
          hax_map_gpfn_retry cfg hva_new entry gpfn flag gcr3 level (fuel + 1) vm tr
            = hax_map_gpfn_retry cfg hva_new entry gpfn flag gcr3 level fuel r.2.1 r.2.2) ∨
         (r.1 = 0 ∧
          hax_map_gpfn_retry cfg hva_new entry gpfn flag gcr3 level (fuel + 1) vm tr
            = Except.ok (hva_new, r.2.1, r.2.2 ++ [Ev.acquire (Res.mapping hva_new)]))))) := by
  obtain ⟨f1, f2, f3, f4, f5⟩ := p2m_store_hva_fields vm entry hva_new
  by_cases hc : (entry.isNone || decide (cached_hva vm entry = 0)) = true
  · by_cases hm : (flag || decide (vm.hva_limit < cfg.HOST_VIRTUAL_ADDR_LIMIT)) = true
    · right; left
      refine ⟨by simpa using hm, ?_⟩
      simp only [hax_map_gpfn_retry, hc, hm, ↓reduceIte]
      split
      · split
        · left; rfl
        · split
          · left; rfl
          · right; exact ⟨_, rfl, by simp only [f1]⟩
      · split
        · left; rfl
        · split
          · right; exact ⟨_, rfl, by simp only [f1]⟩
          · left; rfl
    · right; right
      have hm2 : flag = false ∧ cfg.HOST_VIRTUAL_ADDR_LIMIT ≤ vm.hva_limit := by
        simpa using hm
      refine ⟨hm2.1, hm2.2, ?_⟩
      cases hr : gpfn_to_hva_recycle cfg vm tr gcr3 false with
      | none =>
        left
        refine ⟨rfl, ?_⟩
        simp only [hax_map_gpfn_retry, hc, hm, ↓reduceIte, hr]
        rfl
      | some r =>
        right
        refine ⟨r, rfl, ?_⟩
        by_cases h0 : r.1 = 0
        · right
          refine ⟨h0, ?_⟩
          simp only [hax_map_gpfn_retry, hc, hm, ↓reduceIte, hr, h0, ne_eq, not_true_eq_false]
          rfl
        · left
          refine ⟨h0, ?_⟩
          simp only [hax_map_gpfn_retry, hc, hm, ↓reduceIte, hr, h0, ne_eq, not_false_eq_true]
          rfl
  · left
    simp only [hax_map_gpfn_retry, hc]
    rfl

/-- The recycler called at or above the ceiling lowers `hva_limit` by 4096
per reported eviction, without wrapping. -/
theorem recycle_at_ceiling (cfg : Config) (vm : vm_t) (tr : List Ev) (cr3_cur : Nat)
    (flag : Bool) (r : Nat × vm_t × List Ev)
    (hcfg : cfg.HOST_VIRTUAL_ADDR_RECYCLE ≤ cfg.HOST_VIRTUAL_ADDR_LIMIT)
    (hge : cfg.HOST_VIRTUAL_ADDR_LIMIT ≤ vm.hva_limit) (h64 : vm.hva_limit < 2 ^ 64)
    (h : gpfn_to_hva_recycle cfg vm tr cr3_cur flag = some r) :
    r.2.1.hva_limit + 4096 * r.1 = vm.hva_limit ∧
    4096 * r.1 + cfg.HOST_VIRTUAL_ADDR_RECYCLE ≤ cfg.HOST_VIRTUAL_ADDR_LIMIT := by
  cases hl : vm.hva_list with
  | none =>
    rw [gpfn_to_hva_recycle_none cfg vm tr cr3_cur flag hl] at h
    simp only [Option.some.injEq] at h
    subst h
    exact ⟨by simp, by simpa using hcfg⟩
  | some lst =>
    obtain ⟨a1, a2, _⟩ := gpfn_to_hva_recycle_spec cfg vm tr cr3_cur flag lst r hl h
    have ht := Nat.mul_div_le (cfg.HOST_VIRTUAL_ADDR_LIMIT - cfg.HOST_VIRTUAL_ADDR_RECYCLE) 4096
    refine ⟨a2 (by omega) h64, by omega⟩

/-- A pass through `retry` that is not kernel-exempt keeps `hva_limit` a
multiple of the page size at or below the ceiling. -/
theorem hax_map_gpfn_retry_ceiling (cfg : Config) (hva_new : Nat)
    (entry : Option (Nat × Nat)) (gpfn gcr3 level : Nat)
    (hcfg : cfg.HOST_VIRTUAL_ADDR_RECYCLE ≤ cfg.HOST_VIRTUAL_ADDR_LIMIT)
    (hdiv : 4096 ∣ cfg.HOST_VIRTUAL_ADDR_LIMIT) (h64 : cfg.HOST_VIRTUAL_ADDR_LIMIT < 2 ^ 64) :
    ∀ (fuel : Nat) (vm : vm_t) (tr : List Ev) (r : Nat × vm_t × List Ev),
    4096 ∣ vm.hva_limit → vm.hva_limit ≤ cfg.HOST_VIRTUAL_ADDR_LIMIT →
    hax_map_gpfn_retry cfg hva_new entry gpfn false gcr3 level fuel vm tr = Except.ok r →
    4096 ∣ r.2.1.hva_limit ∧ r.2.1.hva_limit ≤ cfg.HOST_VIRTUAL_ADDR_LIMIT := by
  intro fuel
  induction fuel with
  | zero =>
    intro vm tr r _ _ h
    simp only [hax_map_gpfn_retry] at h
    exact absurd h (by simp)
  | succ fuel ih =>
    intro vm tr r hd hle h
    rcases hax_map_gpfn_retry_cases cfg hva_new entry gpfn false gcr3 level fuel vm tr with
      hc | ⟨hlt, hc⟩ | ⟨_, hge, hc⟩
    · rw [hc] at h
      simp only [Except.ok.injEq] at h
      subst h
      exact ⟨hd, hle⟩
    · have hlt2 : vm.hva_limit < cfg.HOST_VIRTUAL_ADDR_LIMIT := by
        rcases hlt with hf | hf
        · exact absurd hf (by simp)
        · exact hf
      rcases hc with hc | ⟨vm2, hc, hv⟩
      · rw [hc] at h; exact absurd h (by simp)
      · rw [hc] at h
        simp only [Except.ok.injEq] at h
        subst h
        obtain ⟨a, ha⟩ := hd
        obtain ⟨b, hb⟩ := hdiv
        have hs : vm.hva_limit + 4096 ≤ cfg.HOST_VIRTUAL_ADDR_LIMIT := by omega
        have hmod : (vm.hva_limit + 4096) % 2 ^ 64 = vm.hva_limit + 4096 :=
          Nat.mod_eq_of_lt (by omega)
        simp only [hv, hmod]
        exact ⟨⟨a + 1, by omega⟩, hs⟩
    · rcases hc with ⟨_, hc⟩ | ⟨q, hq, hc⟩
      · rw [hc] at h; exact absurd h (by simp)
      · obtain ⟨e1, _⟩ := recycle_at_ceiling cfg vm tr gcr3 false q hcfg hge (by omega) hq
        have hd2 : 4096 ∣ q.2.1.hva_limit := by
          obtain ⟨a, ha⟩ := hd
          exact ⟨a - q.1, by omega⟩
        have hle2 : q.2.1.hva_limit ≤ cfg.HOST_VIRTUAL_ADDR_LIMIT := by omega
        rcases hc with ⟨_, hc⟩ | ⟨_, hc⟩
        · rw [hc] at h
          exact ih q.2.1 q.2.2 r hd2 hle2 h
        · rw [hc] at h
          simp only [Except.ok.injEq] at h
          subst h
          exact ⟨hd2, hle2⟩

theorem hax_map_gpfn_ceiling (cfg : Config) (hva_new : Nat) (vm : vm_t) (tr : List Ev)
    (gpfn gcr3 level : Nat) (r : Nat × vm_t × List Ev)
    (hcfg : cfg.HOST_VIRTUAL_ADDR_RECYCLE ≤ cfg.HOST_VIRTUAL_ADDR_LIMIT)
    (hdiv : 4096 ∣ cfg.HOST_VIRTUAL_ADDR_LIMIT) (h64 : cfg.HOST_VIRTUAL_ADDR_LIMIT < 2 ^ 64)
    (hd : 4096 ∣ vm.hva_limit) (hle : vm.hva_limit ≤ cfg.HOST_VIRTUAL_ADDR_LIMIT)
    (h : hax_map_gpfn cfg hva_new vm tr gpfn false gcr3 level = Except.ok r) :
    4096 ∣ r.2.1.hva_limit ∧ r.2.1.hva_limit ≤ cfg.HOST_VIRTUAL_ADDR_LIMIT := by
  unfold hax_map_gpfn at h
  cases he : hax_get_p2m_entry cfg vm gpfn with
  | none => rw [he] at h; exact absurd h (by simp)
  | some entry =>
    rw [he] at h
    exact hax_map_gpfn_retry_ceiling cfg hva_new entry gpfn gcr3 level hcfg hdiv h64 _ vm tr r
      hd hle h

theorem map_many_ceiling (cfg : Config)
    (hcfg : cfg.HOST_VIRTUAL_ADDR_RECYCLE ≤ cfg.HOST_VIRTUAL_ADDR_LIMIT)
    (hdiv : 4096 ∣ cfg.HOST_VIRTUAL_ADDR_LIMIT) (h64 : cfg.HOST_VIRTUAL_ADDR_LIMIT < 2 ^ 64) :
    ∀ (calls : List map_call) (vm : vm_t) (tr : List Ev) (r : vm_t × List Ev),
    (∀ c ∈ calls, c.flag = false) →
    4096 ∣ vm.hva_limit → vm.hva_limit ≤ cfg.HOST_VIRTUAL_ADDR_LIMIT →
    map_many cfg calls vm tr = Except.ok r →
    4096 ∣ r.1.hva_limit ∧ r.1.hva_limit ≤ cfg.HOST_VIRTUAL_ADDR_LIMIT := by
  intro calls
  induction calls with
  | nil =>
    intro vm tr r _ hd hle h
    simp only [map_many, Except.ok.injEq] at h
    subst h
    exact ⟨hd, hle⟩
  | cons c cs ih =>
    intro vm tr r hf hd hle h
    have hc : c.flag = false := hf c (List.mem_cons_self _ _)
    cases hq : hax_map_gpfn cfg c.hva_new vm tr c.gpfn c.flag c.gcr3 c.level with
    | error e => simp only [map_many, hq] at h; exact absurd h (by simp)
    | ok q =>
      simp only [map_many, hq] at h
      rw [hc] at hq
      obtain ⟨d2, l2⟩ := hax_map_gpfn_ceiling cfg c.hva_new vm tr c.gpfn c.gcr3 c.level q
        hcfg hdiv h64 hd hle hq
      exact ih q.2.1 q.2.2 r (fun c2 h2 => hf c2 (List.mem_cons_of_mem _ h2)) d2 l2 h

/-- The bound on the passes through `retry` is never reached: every pass but
the first follows a recycling that lowered `hva_limit` by at least a page. -/
theorem hax_map_gpfn_retry_fuel (cfg : Config) (hva_new : Nat)
    (entry : Option (Nat × Nat)) (gpfn : Nat) (flag : Bool) (gcr3 level : Nat)
    (hcfg : cfg.HOST_VIRTUAL_ADDR_RECYCLE ≤ cfg.HOST_VIRTUAL_ADDR_LIMIT) :
    ∀ (fuel : Nat) (vm : vm_t) (tr : List Ev),
    vm.hva_limit < 2 ^ 64 → vm.hva_limit / 4096 + 1 ≤ fuel →
    hax_map_gpfn_retry cfg hva_new entry gpfn flag gcr3 level fuel vm tr
      ≠ Except.error Stop.fuel := by
  intro fuel
  induction fuel with
  | zero => intro vm tr _ h; omega
  | succ fuel ih =>
    intro vm tr h64 hf
    rcases hax_map_gpfn_retry_cases cfg hva_new entry gpfn flag gcr3 level fuel vm tr with
      hc | ⟨_, hc⟩ | ⟨_, hge, hc⟩
    · rw [hc]; simp
    · rcases hc with hc | ⟨vm2, hc, _⟩
      · rw [hc]; simp
      · rw [hc]; simp
    · rcases hc with ⟨_, hc⟩ | ⟨q, hq, hc⟩
      · rw [hc]; simp
      · obtain ⟨e1, _⟩ := recycle_at_ceiling cfg vm tr gcr3 false q hcfg hge h64 hq
        rcases hc with ⟨h0, hc⟩ | ⟨_, hc⟩
        · rw [hc]
          have h1 : q.2.1.hva_limit + 4096 ≤ vm.hva_limit := by
            have : 1 ≤ q.1 := Nat.one_le_iff_ne_zero.mpr h0
            omega
          have h2 : q.2.1.hva_limit / 4096 + 1 ≤ vm.hva_limit / 4096 := by
            have := @Nat.div_le_div_right _ _ 4096 h1
            rw [Nat.add_div_right _ (by decide : 0 < 4096)] at this
            exact this
          exact ih q.2.1 q.2.2 (by omega) (by omega)
        · rw [hc]; simp

/-- The model of `hax_map_gpfn` never stops for lack of fuel: the loop over
the label `retry` terminates. -/
theorem hax_map_gpfn_terminates (cfg : Config) (hva_new : Nat) (vm : vm_t) (tr : List Ev)
    (gpfn : Nat) (flag : Bool) (gcr3 level : Nat)
    (hcfg : cfg.HOST_VIRTUAL_ADDR_RECYCLE ≤ cfg.HOST_VIRTUAL_ADDR_LIMIT)
    (h64 : vm.hva_limit < 2 ^ 64) :
    hax_map_gpfn cfg hva_new vm tr gpfn flag gcr3 level ≠ Except.error Stop.fuel := by
  unfold hax_map_gpfn
  cases he : hax_get_p2m_entry cfg vm gpfn with
  | none => simp
  | some entry =>
    exact hax_map_gpfn_retry_fuel cfg hva_new entry gpfn flag gcr3 level hcfg _ vm tr h64
      (by omega)

/-! ## C19: the ceiling of the legacy window -/

/-- C19, counterexample. On the small 32-bit build (a ceiling of 16384
bytes), the fresh VM has `hva_limit = 0` and empty windows; after three calls
of `hax_map_gpfn` under root 7 and two kernel-exempt calls, all for frames
without a cached address, every call has returned and `hva_limit` is 20480:
a kernel-exempt call maps and counts its page without looking at the
ceiling. -/
theorem c19_counterexample :
    (created_vm Config.small32 0).hva_limit = 0 ∧
    windows_empty (created_vm Config.small32 0) ∧
    Config.small32.HOST_VIRTUAL_ADDR_LIMIT = 16384 ∧
    ∃ r, map_many Config.small32 calls_kernel (created_vm Config.small32 0) []
        = Except.ok r ∧ r.1.hva_limit = 20480 ∧
      ¬ r.1.hva_limit ≤ Config.small32.HOST_VIRTUAL_ADDR_LIMIT := by
  refine ⟨(windows_empty_created_vm _ _).2.2.2.2.1, (windows_empty_created_vm _ _).1,
    by decide, ?_⟩
  have hv : (map_many Config.small32 calls_kernel (created_vm Config.small32 0) []).toOption.map
      (fun r => r.1.hva_limit) = some 20480 := by decide
  cases h : map_many Config.small32 calls_kernel (created_vm Config.small32 0) [] with
  | error e =>
    rw [h] at hv
    exact absurd hv (by simp [Except.toOption])
  | ok r =>
    rw [h] at hv
    have e : r.1.hva_limit = 20480 := by simpa [Except.toOption] using hv
    refine ⟨r, rfl, e, ?_⟩
    rw [e]
    decide

/-- C19, amended. When the ceiling is a multiple of the page size below 2^64
and the recycle mark is not above it, every state reached from a VM with
`hva_limit = 0` by calls of `hax_map_gpfn` that are not kernel-exempt and
return has `hva_limit` a multiple of 4096 and at most
`HOST_VIRTUAL_ADDR_LIMIT`. -/
theorem c19_ceiling_non_kernel (cfg : Config) (calls : List map_call) (vm0 : vm_t)
    (tr0 : List Ev) (r : vm_t × List Ev)
    (hcfg : cfg.HOST_VIRTUAL_ADDR_RECYCLE ≤ cfg.HOST_VIRTUAL_ADDR_LIMIT)
    (hdiv : 4096 ∣ cfg.HOST_VIRTUAL_ADDR_LIMIT) (h64 : cfg.HOST_VIRTUAL_ADDR_LIMIT < 2 ^ 64)
    (h0 : vm0.hva_limit = 0) (hflag : ∀ c ∈ calls, c.flag = false)
    (hrun : map_many cfg calls vm0 tr0 = Except.ok r) :
    r.1.hva_limit ≤ cfg.HOST_VIRTUAL_ADDR_LIMIT ∧ 4096 ∣ r.1.hva_limit :=
  (map_many_ceiling cfg hcfg hdiv h64 calls vm0 tr0 r hflag (by rw [h0]; exact dvd_zero _)
    (by rw [h0]; exact Nat.zero_le _) hrun).symm

/-- C19, amended, at the five calls of `calls_user` on the fresh VM of the
small build: the calls return and the total is at most 16384. -/
theorem c19_ceiling_non_kernel_witness :
    ∃ r, map_many Config.small32 calls_user (created_vm Config.small32 0) [] = Except.ok r ∧
      r.1.hva_limit ≤ Config.small32.HOST_VIRTUAL_ADDR_LIMIT ∧ 4096 ∣ r.1.hva_limit := by
  have hv : (map_many Config.small32 calls_user (created_vm Config.small32 0) []).toBool
      = true := by decide
  cases h : map_many Config.small32 calls_user (created_vm Config.small32 0) [] with
  | error e =>
    rw [h] at hv
    exact absurd hv (by simp [Except.toBool])
  | ok r =>
    exact ⟨r, rfl, c19_ceiling_non_kernel Config.small32 calls_user
      (created_vm Config.small32 0) [] r (by decide) (by decide) (by decide)
      (windows_empty_created_vm _ _).2.2.2.2.1 (by decide) h⟩

/-- A pass through `retry` below the ceiling and above the recycle mark maps
the page and records it in the first free slot of the primary window. -/
theorem hax_map_gpfn_retry_primary (cfg : Config) (hva_new : Nat)
    (entry : Option (Nat × Nat)) (gpfn : Nat) (flag : Bool) (gcr3 level fuel : Nat)
    (vm : vm_t) (tr : List Ev) (lst : Nat → hva_entry) (idx : Nat)
    (hc : cached_hva vm entry = 0)
    (hm : vm.hva_limit < cfg.HOST_VIRTUAL_ADDR_LIMIT)
    (h64 : cfg.HOST_VIRTUAL_ADDR_LIMIT < 2 ^ 64)
    (hrec : cfg.HOST_VIRTUAL_ADDR_RECYCLE < vm.hva_limit + 4096)
    (hle : vm.hva_limit + 4096 ≤ cfg.HOST_VIRTUAL_ADDR_LIMIT)
    (hl : vm.hva_list = some lst)
    (hs : hva_list_scan lst (cfg.HVA_MAP_ARRAY_SIZE / 4096 - vm.hva_index) vm.hva_index
      = some idx) :
    hax_map_gpfn_retry cfg hva_new entry gpfn flag gcr3 level (fuel + 1) vm tr
      = Except.ok (hva_new,
          { p2m_store_hva vm entry hva_new with
            hva_limit := vm.hva_limit + 4096,
            hva_list := some (Function.update lst idx
              { gpfn := gpfn, hva := hva_new, gcr3 := gcr3, is_kern := flag, level := level }),
            hva_index := idx + 1 },
          tr ++ [Ev.acquire (Res.mapping hva_new)]) := by
  obtain ⟨f1, f2, _, f4, _⟩ := p2m_store_hva_fields vm entry hva_new
  have hmod : (vm.hva_limit + 4096) % 2 ^ 64 = vm.hva_limit + 4096 :=
    Nat.mod_eq_of_lt (by omega)
  have hc2 : (entry.isNone || decide (cached_hva vm entry = 0)) = true := by simp [hc]
  have hm2 : (flag || decide (vm.hva_limit < cfg.HOST_VIRTUAL_ADDR_LIMIT)) = true := by
    simp [hm]
  have hw : (decide (vm.hva_limit + 4096 > cfg.HOST_VIRTUAL_ADDR_RECYCLE) &&
      decide (vm.hva_limit + 4096 ≤ cfg.HOST_VIRTUAL_ADDR_LIMIT)) = true := by
    simp [hrec, hle]
  simp only [hax_map_gpfn_retry, hc2, hm2, ↓reduceIte, f1, f2, f4, hmod, hw, hl, hs]

/-- A pass through `retry` at or above the ceiling, not kernel-exempt, runs
the recycler; the pass is repeated when an eviction is reported, and a page
is mapped without a record when none is. -/
theorem hax_map_gpfn_retry_recycle (cfg : Config) (hva_new : Nat)
    (entry : Option (Nat × Nat)) (gpfn gcr3 level fuel : Nat)
    (vm : vm_t) (tr : List Ev) (r : Nat × vm_t × List Ev)
    (hc : cached_hva vm entry = 0)
    (hge : cfg.HOST_VIRTUAL_ADDR_LIMIT ≤ vm.hva_limit)
    (hr : gpfn_to_hva_recycle cfg vm tr gcr3 false = some r) :
    hax_map_gpfn_retry cfg hva_new entry gpfn false gcr3 level (fuel + 1) vm tr
      = if r.1 ≠ 0 then
          hax_map_gpfn_retry cfg hva_new entry gpfn false gcr3 level fuel r.2.1 r.2.2
        else Except.ok (hva_new, r.2.1, r.2.2 ++ [Ev.acquire (Res.mapping hva_new)]) := by
  have hc2 : (entry.isNone || decide (cached_hva vm entry = 0)) = true := by simp [hc]
  have hm2 : (false || decide (vm.hva_limit < cfg.HOST_VIRTUAL_ADDR_LIMIT)) = false := by
    simp [hge]
  simp only [hax_map_gpfn_retry, hc2, hm2, ↓reduceIte, hr, Bool.false_eq_true]

/-- The call of `hax_map_gpfn` at exactly the ceiling, not kernel-exempt, for
a frame without a cached address: one recycling, then either a one-shot
mapping (no eviction) or one tracked mapping in the first free slot of the
primary window. -/
theorem hax_map_gpfn_at_ceiling (cfg : Config) (vm : vm_t) (hva_new : Nat) (tr : List Ev)
    (gpfn gcr3 level : Nat) (entry : Option (Nat × Nat)) (count : Nat) (vm1 : vm_t)
    (tr1 : List Ev)
    (hcfg : cfg.HOST_VIRTUAL_ADDR_RECYCLE ≤ cfg.HOST_VIRTUAL_ADDR_LIMIT)
    (h64 : vm.hva_limit < 2 ^ 64)
    (hsz : (cfg.HOST_VIRTUAL_ADDR_LIMIT - cfg.HOST_VIRTUAL_ADDR_RECYCLE) / 4096
      ≤ cfg.HVA_MAP_ARRAY_SIZE / 4096)
    (hentry : hax_get_p2m_entry cfg vm gpfn = some entry)
    (hc : cached_hva vm entry = 0)
    (hlim : vm.hva_limit = cfg.HOST_VIRTUAL_ADDR_LIMIT)
    (hr : gpfn_to_hva_recycle cfg vm tr gcr3 false = some (count, vm1, tr1)) :
    (count = 0 →
      hax_map_gpfn cfg hva_new vm tr gpfn false gcr3 level
        = Except.ok (hva_new, vm1, tr1 ++ [Ev.acquire (Res.mapping hva_new)])) ∧
    (count ≠ 0 →
      ∃ lst1 idx, vm1.hva_list = some lst1 ∧ (lst1 idx).hva = 0 ∧
        (∀ m, m < idx → (lst1 m).hva ≠ 0) ∧
        vm1.hva_limit + 4096 * count = cfg.HOST_VIRTUAL_ADDR_LIMIT ∧
        hax_map_gpfn cfg hva_new vm tr gpfn false gcr3 level
          = Except.ok (hva_new,
              { p2m_store_hva vm1 entry hva_new with
                hva_limit := vm1.hva_limit + 4096,
                hva_list := some (Function.update lst1 idx
                  { gpfn := gpfn, hva := hva_new, gcr3 := gcr3, is_kern := false,
                    level := level }),
                hva_index := idx + 1 },
              tr1 ++ [Ev.acquire (Res.mapping hva_new)])) := by
  have hstep := hax_map_gpfn_retry_recycle cfg hva_new entry gpfn gcr3 level
    (vm.hva_limit / 4096 + 1) vm tr (count, vm1, tr1) hc (by omega) hr
  have hcall : hax_map_gpfn cfg hva_new vm tr gpfn false gcr3 level
      = hax_map_gpfn_retry cfg hva_new entry gpfn false gcr3 level
          (vm.hva_limit / 4096 + 1 + 1) vm tr := by
    simp only [hax_map_gpfn, hentry]
  rw [hcall, hstep]
  constructor
  · intro h0
    simp only [h0, ne_eq, not_true_eq_false, ↓reduceIte]
  · intro h0
    simp only [ne_eq, h0, not_false_eq_true, ↓reduceIte]
    obtain ⟨e1, e2⟩ := recycle_at_ceiling cfg vm tr gcr3 false (count, vm1, tr1) hcfg
      (by omega) h64 hr
    simp only at e1 e2
    cases hl : vm.hva_list with
    | none =>
      rw [gpfn_to_hva_recycle_none cfg vm tr gcr3 false hl] at hr
      simp only [Option.some.injEq, Prod.mk.injEq] at hr
      exact absurd hr.1.symm h0
    | some lst =>
      obtain ⟨_, _, a3, ⟨lst1, b1, _, b3⟩, _, _, _, a8⟩ :=
        gpfn_to_hva_recycle_spec cfg vm tr gcr3 false lst (count, vm1, tr1) hl hr
      simp only at a3 b1 b3 a8
      obtain ⟨k, k1, k2⟩ := b3 (Nat.pos_of_ne_zero h0)
      have hk0 : (lst1 k).hva = 0 := by rw [k2]; rfl
      obtain ⟨idx, j1, _, _, j4, j5⟩ :=
        hva_list_scan_finds lst1 (cfg.HVA_MAP_ARRAY_SIZE / 4096 - vm1.hva_index)
          vm1.hva_index k (by omega) (by omega) hk0
      have hpos : 1 ≤ count := Nat.one_le_iff_ne_zero.mpr h0
      refine ⟨lst1, idx, b1, j4, fun m hm => j5 m (by omega) hm, by omega, ?_⟩
      exact hax_map_gpfn_retry_primary cfg hva_new entry gpfn false gcr3 level
        (vm.hva_limit / 4096) vm1 tr1 lst1 idx (a8 entry hc) (by omega) (by omega)
        (by omega) (by omega) b1 j1

theorem hax_get_p2m_entry_group (cfg : Config) (vm : vm_t) (gpfn : Nat) (e : Nat × Nat)
    (h : hax_get_p2m_entry cfg vm gpfn = some (some e)) : (vm.p2m_map e.1).isSome = true := by
  unfold hax_get_p2m_entry at h
  simp only at h
  split at h
  · cases hg : vm.p2m_map (cfg.gpfn_to_g gpfn % 2 ^ 32) with
    | none => rw [hg] at h; exact absurd h (by simp)
    | some grp =>
      rw [hg] at h
      simp only [Option.some.injEq] at h
      rw [← h]
      simp only [hg, Option.isSome_some]
  · exact absurd h (by simp)

theorem cached_hva_store (vm : vm_t) (e : Nat × Nat) (hva : Nat)
    (hg : (vm.p2m_map e.1).isSome = true) :
    cached_hva (p2m_store_hva vm (some e) hva) (some e) = hva := by
  cases hm : vm.p2m_map e.1 with
  | none => rw [hm] at hg; exact absurd hg (by simp)
  | some grp =>
    simp only [cached_hva, p2m_store_hva, p2m_entry, p2m_set_hva, hm, Function.update_same]

/-! ## C20: the retry of `hax_map_gpfn` -/

/-- C20, counterexample. On the small 32-bit build (a ceiling of 16384
bytes), `vm_six` tracks 24576 bytes and frame 7 has no cached address. The
recycler called once for root 9 reports one eviction (the mapping at 12288).
The call of `hax_map_gpfn` for frame 7, not kernel-exempt, under root 9 runs
the recycler three times: after the first and the second run the total is
still not below the ceiling, so the pass through `retry` recycles again (the
second and third run count the emptied slot 0 again and unmap address 0);
only then is the page mapped and tracked. -/
theorem c20_counterexample :
    vm_six.hva_limit = 24576 ∧ Config.small32.HOST_VIRTUAL_ADDR_LIMIT = 16384 ∧
    hax_gpfn_to_hva Config.small32 vm_six 7 = some 0 ∧
    (gpfn_to_hva_recycle Config.small32 vm_six [] 9 false).map
      (fun r => (r.1, r.2.1.hva_limit, r.2.2))
      = some (1, 20480, [Ev.release (Res.mapping 12288)]) ∧
    (hax_map_gpfn Config.small32 0x7000 vm_six [] 7 false 9 0).toOption.map
      (fun r => (r.1, r.2.1.hva_limit, r.2.2))
      = some (0x7000, 16384,
          [Ev.release (Res.mapping 12288), Ev.release (Res.mapping 0),
           Ev.release (Res.mapping 0), Ev.acquire (Res.mapping 0x7000)]) := by
  refine ⟨by decide, by decide, by decide, by decide, by decide⟩

/-- C20, amended. For every VM with `hva_limit` below 2^64 (the recycle mark
not above the ceiling): no call of `hax_map_gpfn` runs out of passes through
`retry`, so the call terminates. When the tracked total is exactly
`HOST_VIRTUAL_ADDR_LIMIT`, the frame has no cached address, the call is not
kernel-exempt, the primary window has at least as many slots as the recycler
walks and the recycler returns `count`, the VM `vm1` and the trace `tr1`:
with `count = 0` the page is mapped once and nothing is tracked; with
`count ≠ 0` the call returns after this single recycling with one tracked
mapping: the page is mapped, the entry caches `hva_new`, `hva_limit` is that
of `vm1` plus 4096 and the record is written to the first free slot of the
primary window. -/
theorem c20_retry_once (cfg : Config) (vm : vm_t)
    (hcfg : cfg.HOST_VIRTUAL_ADDR_RECYCLE ≤ cfg.HOST_VIRTUAL_ADDR_LIMIT)
    (h64 : vm.hva_limit < 2 ^ 64) :
    (∀ (hva_new : Nat) (tr : List Ev) (gpfn : Nat) (flag : Bool) (gcr3 level : Nat),
      hax_map_gpfn cfg hva_new vm tr gpfn flag gcr3 level ≠ Except.error Stop.fuel) ∧
    (∀ (hva_new : Nat) (tr : List Ev) (gpfn gcr3 level : Nat) (entry : Option (Nat × Nat))
        (count : Nat) (vm1 : vm_t) (tr1 : List Ev),
      (cfg.HOST_VIRTUAL_ADDR_LIMIT - cfg.HOST_VIRTUAL_ADDR_RECYCLE) / 4096
        ≤ cfg.HVA_MAP_ARRAY_SIZE / 4096 →
      hax_get_p2m_entry cfg vm gpfn = some entry →
      cached_hva vm entry = 0 →
      vm.hva_limit = cfg.HOST_VIRTUAL_ADDR_LIMIT →
      gpfn_to_hva_recycle cfg vm tr gcr3 false = some (count, vm1, tr1) →
      (count = 0 →
        hax_map_gpfn cfg hva_new vm tr gpfn false gcr3 level
          = Except.ok (hva_new, vm1, tr1 ++ [Ev.acquire (Res.mapping hva_new)])) ∧
      (count ≠ 0 →
        ∃ lst1 idx, vm1.hva_list = some lst1 ∧ (lst1 idx).hva = 0 ∧
          (∀ m, m < idx → (lst1 m).hva ≠ 0) ∧
          vm1.hva_limit + 4096 * count = cfg.HOST_VIRTUAL_ADDR_LIMIT ∧
          hax_map_gpfn cfg hva_new vm tr gpfn false gcr3 level
            = Except.ok (hva_new,
                { p2m_store_hva vm1 entry hva_new with
                  hva_limit := vm1.hva_limit + 4096,
                  hva_list := some (Function.update lst1 idx
                    { gpfn := gpfn, hva := hva_new, gcr3 := gcr3, is_kern := false,
                      level := level }),
                  hva_index := idx + 1 },
                tr1 ++ [Ev.acquire (Res.mapping hva_new)]) ∧
          (∀ e, entry = some e →
            cached_hva (p2m_store_hva vm1 entry hva_new) entry = hva_new))) := by
  refine ⟨fun hva_new tr gpfn flag gcr3 level =>
    hax_map_gpfn_terminates cfg hva_new vm tr gpfn flag gcr3 level hcfg h64, ?_⟩
  intro hva_new tr gpfn gcr3 level entry count vm1 tr1 hsz hentry hc hlim hr
  obtain ⟨r0, r1⟩ := hax_map_gpfn_at_ceiling cfg vm hva_new tr gpfn gcr3 level entry count
    vm1 tr1 hcfg h64 hsz hentry hc hlim hr
  refine ⟨r0, fun h0 => ?_⟩
  obtain ⟨lst1, idx, b1, b2, b3, b4, b5⟩ := r1 h0
  refine ⟨lst1, idx, b1, b2, b3, b4, b5, ?_⟩
  intro e he
  subst he
  have hg := hax_get_p2m_entry_group cfg vm gpfn e hentry
  cases hl : vm.hva_list with
  | none =>
    rw [gpfn_to_hva_recycle_none cfg vm tr gcr3 false hl] at hr
    simp only [Option.some.injEq, Prod.mk.injEq] at hr
    exact absurd hr.1.symm h0
  | some lst =>
    obtain ⟨_, _, _, _, _, _, a7, _⟩ :=
      gpfn_to_hva_recycle_spec cfg vm tr gcr3 false lst (count, vm1, tr1) hl hr
    exact cached_hva_store vm1 e hva_new (by rw [a7 e.1]; exact hg)

/-- C20, amended, at `vm_four` on the small build, which tracks exactly the
ceiling of 16384 bytes: the call for frame 5 under root 9 recycles once (two
evictions) and returns the tracked mapping. -/
theorem c20_retry_once_witness :
    ∃ vm1 tr1, gpfn_to_hva_recycle Config.small32 vm_four [] 9 false = some (2, vm1, tr1) ∧
      ∃ lst1 idx, vm1.hva_list = some lst1 ∧ (lst1 idx).hva = 0 ∧
        (∀ m, m < idx → (lst1 m).hva ≠ 0) ∧
        vm1.hva_limit + 4096 * 2 = Config.small32.HOST_VIRTUAL_ADDR_LIMIT ∧
        hax_map_gpfn Config.small32 0x5000 vm_four [] 5 false 9 0
          = Except.ok (0x5000,
              { p2m_store_hva vm1 (some (0, 5)) 0x5000 with
                hva_limit := vm1.hva_limit + 4096,
                hva_list := some (Function.update lst1 idx
                  { gpfn := 5, hva := 0x5000, gcr3 := 9, is_kern := false, level := 0 }),
                hva_index := idx + 1 },
              tr1 ++ [Ev.acquire (Res.mapping 0x5000)]) ∧
        (∀ e, some (0, 5) = some e →
          cached_hva (p2m_store_hva vm1 (some (0, 5)) 0x5000) (some (0, 5)) = 0x5000) := by
  have hv : (gpfn_to_hva_recycle Config.small32 vm_four [] 9 false).map (fun r => r.1)
      = some 2 := by decide
  cases h : gpfn_to_hva_recycle Config.small32 vm_four [] 9 false with
  | none => rw [h] at hv; exact absurd hv (by simp)
  | some r =>
    obtain ⟨count, vm1, tr1⟩ := r
    rw [h] at hv
    have hcnt : count = 2 := by simpa using hv
    subst hcnt
    exact ⟨vm1, tr1, rfl,
      ((c20_retry_once Config.small32 vm_four (by decide) (by decide)).2 0x5000 [] 5 9 0
        (some (0, 5)) 2 vm1 tr1 (by decide) (by decide) (by decide) (by decide) h).2
        (by decide)⟩

/-! ## C23: the capability flags -/

/-- C23 (defect of the code). The macros of `cpu_features` are the bits 0, 1,
2, 3, 4, 5, 6 and 8, each a single bit of the 16-bit field. The comment above
them gives bits 0 to 3 for the first four, which is what the macros are, but
bits 8, 9 and 10 for `HAX_CPUF_ENABLE_VT`, `HAX_CPUF_ENABLE_NX` and
`HAX_CPUF_ENABLE_EM64T`, which are bits 4, 5 and 6, and bit 12 for
`HAX_CPUF_INITIALIZED`, which is bit 8, the position the comment gives to
"VT enabled". -/
theorem c23_feature_bits_defect :
    HAX_CPUF_all = [2 ^ 0, 2 ^ 1, 2 ^ 2, 2 ^ 3, 2 ^ 4, 2 ^ 5, 2 ^ 6, 2 ^ 8] ∧
    (∀ f ∈ HAX_CPUF_all, f < 2 ^ 16) ∧
    HAX_CPUF_all ≠ HAX_CPUF_comment_bits.map (fun b => 2 ^ b) ∧
    HAX_CPUF_all.take 4 = (HAX_CPUF_comment_bits.take 4).map (fun b => 2 ^ b) ∧
    HAX_CPUF_ENABLE_VT ≠ 2 ^ 8 ∧ HAX_CPUF_ENABLE_VT.testBit 8 = false ∧
    HAX_CPUF_ENABLE_NX ≠ 2 ^ 9 ∧ HAX_CPUF_ENABLE_NX.testBit 9 = false ∧
    HAX_CPUF_ENABLE_EM64T ≠ 2 ^ 10 ∧ HAX_CPUF_ENABLE_EM64T.testBit 10 = false ∧
    HAX_CPUF_INITIALIZED ≠ 2 ^ 12 ∧ HAX_CPUF_INITIALIZED.testBit 12 = false ∧
    HAX_CPUF_INITIALIZED = 2 ^ 8 := by
  refine ⟨by decide, by decide, by decide, by decide, by decide, by decide, by decide,
    by decide, by decide, by decide, by decide, by decide, by decide⟩

/-! ## C22: the byte accounting of the recycler -/

/-- C22 (defect of the code). On the small 32-bit build, the call of
`hax_map_gpfn` on `vm_six` for frame 7 under root 9 recycles once and hands
`vm_six_recycled` to the next pass through `retry`. There slot 0 of the
primary window is empty, slot 1 holds a kernel-exempt record, and 20480
bytes are tracked: no occupied slot is stale. `gpfn_to_hva_recycle` under
root 9 still returns 1 and lowers `hva_limit` to 16384, and the one occupied
slot is still occupied: the empty slot 0 was counted and charged. -/
theorem c22_recycle_accounting_defect :
    (∃ tr1, gpfn_to_hva_recycle Config.small32 vm_six [] 9 false
        = some (1, vm_six_recycled, tr1) ∧
      hax_map_gpfn Config.small32 0x7000 vm_six [] 7 false 9 0
        = hax_map_gpfn_retry Config.small32 0x7000 (some (0, 7)) 7 false 9 0 7
            vm_six_recycled tr1) ∧
    vm_six_recycled.hva_limit = 20480 ∧
    (vm_six_recycled.hva_list.map fun l => ((l 0).hva, (l 1).hva, (l 1).is_kern))
      = some (0, 0x4000, true) ∧
    occupied_slots vm_six_recycled.hva_list 2 = 1 ∧
    (gpfn_to_hva_recycle Config.small32 vm_six_recycled [] 9 false).map
      (fun r => (r.1, r.2.1.hva_limit, occupied_slots r.2.1.hva_list 2))
      = some (1, 16384, 1) := by
  refine ⟨?_, by decide, by decide, by decide, by decide⟩
  have hv : (gpfn_to_hva_recycle Config.small32 vm_six [] 9 false).map (fun r => r.1)
      = some 1 := by decide
  have hentry : hax_get_p2m_entry Config.small32 vm_six 7 = some (some (0, 7)) := by decide
  have hlim : vm_six.hva_limit = 24576 := by decide
  have hc : cached_hva vm_six (some (0, 7)) = 0 := by decide
  cases h : gpfn_to_hva_recycle Config.small32 vm_six [] 9 false with
  | none => rw [h] at hv; exact absurd hv (by simp)
  | some r =>
    obtain ⟨count, vm1, tr1⟩ := r
    rw [h] at hv
    have hcnt : count = 1 := by simpa using hv
    subst hcnt
    have hvm : vm_six_recycled = vm1 := by
      unfold vm_six_recycled
      rw [h]
    rw [hvm]
    refine ⟨tr1, rfl, ?_⟩
    have hstep := hax_map_gpfn_retry_recycle Config.small32 0x7000 (some (0, 7)) 7 9 0 7
      vm_six [] (1, vm1, tr1) hc (by rw [hlim]; decide) h
    have hcall : hax_map_gpfn Config.small32 0x7000 vm_six [] 7 false 9 0
        = hax_map_gpfn_retry Config.small32 0x7000 (some (0, 7)) 7 false 9 0 (7 + 1)
            vm_six [] := by
      simp only [hax_map_gpfn, hentry, hlim]
    rw [hcall, hstep]
    simp

/-! ## C21: the frames a mapping touches -/

/-- The two lookups of a frame agree on two VMs when `hax_get_p2m_entry`
yields the same entry with the same contents, or an entry with contents 0 on
one and NULL on the other. -/
theorem hax_gpfn_to_of_entry (cfg : Config) (gs : gpa_space_t) (vm vm2 : vm_t) (b : Nat)
    (h : (hax_get_p2m_entry cfg vm2 b = none ∧ hax_get_p2m_entry cfg vm b = none) ∨
      (hax_get_p2m_entry cfg vm2 b = some none ∧ hax_get_p2m_entry cfg vm b = some none) ∨
      (∃ e, hax_get_p2m_entry cfg vm2 b = some (some e) ∧
        hax_get_p2m_entry cfg vm b = some (some e) ∧ p2m_entry vm2 e = p2m_entry vm e) ∨
      (∃ e, hax_get_p2m_entry cfg vm2 b = some (some e) ∧
        hax_get_p2m_entry cfg vm b = some none ∧ p2m_entry vm2 e = { hva := 0, hpa := 0 })) :
    hax_gpfn_to_hva cfg vm2 b = hax_gpfn_to_hva cfg vm b ∧
    hax_gpfn_to_hpa cfg gs vm2 b = hax_gpfn_to_hpa cfg gs vm b := by
  rcases h with ⟨h1, h2⟩ | ⟨h1, h2⟩ | ⟨e, h1, h2, h3⟩ | ⟨e, h1, h2, h3⟩
  · simp only [hax_gpfn_to_hva, hax_gpfn_to_hpa, h1, h2, and_self]
  · simp only [hax_gpfn_to_hva, hax_gpfn_to_hpa, h1, h2, and_self]
  · simp only [hax_gpfn_to_hva, hax_gpfn_to_hpa, h1, h2, h3, and_self]
  · simp only [hax_gpfn_to_hva, hax_gpfn_to_hpa, h1, h2, h3, ↓reduceIte, ite_self, and_self]

/-- Installing a frame leaves every frame with another table position (group
index or index in the group, both as the 32-bit values the code computes)
as it was: same cached address, same resolved host-physical address. -/
theorem set_p2m_mapping_other_frame (cfg : Config) (gs : gpa_space_t) (alloc_ok : Bool)
    (p : Nat) (vm : vm_t) (tr : List Ev) (a hva hpa b : Nat)
    (hret : (set_p2m_mapping cfg alloc_ok p vm tr a hva hpa).1 = 0)
    (hne : cfg.gpfn_to_g a % 2 ^ 32 ≠ cfg.gpfn_to_g b % 2 ^ 32 ∨
      cfg.gpfn_in_g a % 2 ^ 32 ≠ cfg.gpfn_in_g b % 2 ^ 32) :
    hax_gpfn_to_hva cfg (set_p2m_mapping cfg alloc_ok p vm tr a hva hpa).2.1 b
      = hax_gpfn_to_hva cfg vm b ∧
    hax_gpfn_to_hpa cfg gs (set_p2m_mapping cfg alloc_ok p vm tr a hva hpa).2.1 b
      = hax_gpfn_to_hpa cfg gs vm b := by
  rcases set_p2m_mapping_cases cfg alloc_ok p vm tr a hva hpa with
    ⟨_, h⟩ | ⟨_, _, _, h⟩ | ⟨_, _, grp, tr2, h, hgrp⟩
  · rw [h] at hret; simp [E2BIG] at hret
  · rw [h] at hret; simp [ENOMEM] at hret
  · rw [h]
    apply hax_gpfn_to_of_entry
    by_cases hb : cfg.gpfn_to_g b % 2 ^ 32 < cfg.MAX_GMEM_G
    · by_cases hg : cfg.gpfn_to_g b % 2 ^ 32 = cfg.gpfn_to_g a % 2 ^ 32
      · have hi : cfg.gpfn_in_g b % 2 ^ 32 ≠ cfg.gpfn_in_g a % 2 ^ 32 := by
          rcases hne with hne | hne
          · exact absurd hg.symm hne
          · exact fun e => hne e.symm
        rw [← hg] at hgrp ⊢
        right; right
        rcases hgrp with hgrp | ⟨hgrp, hz⟩
        · left
          refine ⟨(cfg.gpfn_to_g b % 2 ^ 32, cfg.gpfn_in_g b % 2 ^ 32), ?_, ?_, ?_⟩
          · simp only [hax_get_p2m_entry, hb, ↓reduceIte, Function.update_same]
          · simp only [hax_get_p2m_entry, hb, ↓reduceIte, hgrp]
          · simp only [p2m_entry, Function.update_same, hgrp, Function.update_noteq hi]
        · right
          refine ⟨(cfg.gpfn_to_g b % 2 ^ 32, cfg.gpfn_in_g b % 2 ^ 32), ?_, ?_, ?_⟩
          · simp only [hax_get_p2m_entry, hb, ↓reduceIte, Function.update_same]
          · simp only [hax_get_p2m_entry, hb, ↓reduceIte, hgrp]
          · subst hz
            simp only [p2m_entry, Function.update_same, Function.update_noteq hi,
              p2m_group_zero]
      · right
        cases hm : vm.p2m_map (cfg.gpfn_to_g b % 2 ^ 32) with
        | none =>
          left
          constructor
          · simp only [hax_get_p2m_entry, hb, ↓reduceIte, Function.update_noteq hg, hm]
          · simp only [hax_get_p2m_entry, hb, ↓reduceIte, hm]
        | some g =>
          right; left
          refine ⟨(cfg.gpfn_to_g b % 2 ^ 32, cfg.gpfn_in_g b % 2 ^ 32), ?_, ?_, ?_⟩
          · simp only [hax_get_p2m_entry, hb, ↓reduceIte, Function.update_noteq hg, hm]
          · simp only [hax_get_p2m_entry, hb, ↓reduceIte, hm]
          · simp only [p2m_entry, Function.update_noteq hg]
    · left
      constructor
      · simp only [hax_get_p2m_entry, hb, ↓reduceIte]
      · simp only [hax_get_p2m_entry, hb, ↓reduceIte]

theorem hax_core_set_p2m_ret (cfg : Config) (alloc_ok : Bool) (p : Nat) (vm : vm_t)
    (tr : List Ev) (gpfn hpfn hva flags : Nat)
    (h : (hax_core_set_p2m cfg alloc_ok p vm tr gpfn hpfn hva flags).1 = 1) :
    (set_p2m_mapping cfg alloc_ok p vm tr gpfn
        (hva &&& (2 ^ 64 - 1 - cfg.HAX_PAGE_MASK)) ((hpfn <<< 12) % 2 ^ 64)).1 = 0 ∧
    (hax_core_set_p2m cfg alloc_ok p vm tr gpfn hpfn hva flags).2.1
      = (set_p2m_mapping cfg alloc_ok p vm tr gpfn
          (hva &&& (2 ^ 64 - 1 - cfg.HAX_PAGE_MASK)) ((hpfn <<< 12) % 2 ^ 64)).2.1 := by
  rcases set_p2m_mapping_cases cfg alloc_ok p vm tr gpfn
      (hva &&& (2 ^ 64 - 1 - cfg.HAX_PAGE_MASK)) ((hpfn <<< 12) % 2 ^ 64) with
    ⟨_, e⟩ | ⟨_, _, _, e⟩ | ⟨_, _, grp, tr2, e, _⟩
  · simp only [hax_core_set_p2m, e, E2BIG] at h
    rw [if_pos (by decide)] at h
    have h0 : (0 : Int) = 1 := h
    exact absurd h0 (by decide)
  · simp only [hax_core_set_p2m, e, ENOMEM] at h
    rw [if_pos (by decide)] at h
    have h0 : (0 : Int) = 1 := h
    exact absurd h0 (by decide)
  · simp only [hax_core_set_p2m, e]
    exact ⟨trivial, by split <;> rfl⟩

/-- A successful `hax_core_set_p2m` for frame `a` leaves every frame `b` at
another table position as it was. -/
theorem hax_core_set_p2m_other_frame (cfg : Config) (gs : gpa_space_t) (alloc_ok : Bool)
    (p : Nat) (vm : vm_t) (tr : List Ev) (a hpfn hva flags b : Nat)
    (hret : (hax_core_set_p2m cfg alloc_ok p vm tr a hpfn hva flags).1 = 1)
    (hne : cfg.gpfn_to_g a % 2 ^ 32 ≠ cfg.gpfn_to_g b % 2 ^ 32 ∨
      cfg.gpfn_in_g a % 2 ^ 32 ≠ cfg.gpfn_in_g b % 2 ^ 32) :
    hax_gpfn_to_hva cfg (hax_core_set_p2m cfg alloc_ok p vm tr a hpfn hva flags).2.1 b
      = hax_gpfn_to_hva cfg vm b ∧
    hax_gpfn_to_hpa cfg gs (hax_core_set_p2m cfg alloc_ok p vm tr a hpfn hva flags).2.1 b
      = hax_gpfn_to_hpa cfg gs vm b := by
  obtain ⟨h1, h2⟩ := hax_core_set_p2m_ret cfg alloc_ok p vm tr a hpfn hva flags hret
  rw [h2]
  exact set_p2m_mapping_other_frame cfg gs alloc_ok p vm tr a _ _ b h1 hne

/-- With groups of 2^18 frames, two distinct frames below 2^50 have distinct
table positions. -/
theorem per_gigabyte_position_ne (a b : Nat) (ha : a < 2 ^ 50) (hb : b < 2 ^ 50)
    (hab : a ≠ b) :
    (a >>> 18) % 2 ^ 32 ≠ (b >>> 18) % 2 ^ 32 ∨
    (a &&& 0x3ffff) % 2 ^ 32 ≠ (b &&& 0x3ffff) % 2 ^ 32 := by
  have e1 : ∀ x : Nat, x &&& 0x3ffff = x % 2 ^ 18 := fun x =>
    Nat.and_pow_two_sub_one_eq_mod x 18
  have e2 : ∀ x : Nat, x >>> 18 = x / 2 ^ 18 := fun x => Nat.shiftRight_eq_div_pow x 18
  rw [e1, e1, e2, e2]
  by_contra hcon
  push_neg at hcon
  obtain ⟨c1, c2⟩ := hcon
  have da := Nat.div_add_mod a (2 ^ 18)
  have db := Nat.div_add_mod b (2 ^ 18)
  omega

/-- C21 (defect of the code). With groups of 2^18 frames and five groups, the
frames 1 and `2 ^ 50 + 1` are distinct 64-bit frame numbers with the same
table position: the group index `2 ^ 32` of the second does not fit the
`uint32_t which_g` and becomes 0, so the test against `MAX_GMEM_G` accepts
it. On `vm_frame1`, where frame 1 resolves to 0x5000 and caches 0x7000, the
successful `hax_core_set_p2m` for frame `2 ^ 50 + 1` (host frame 9, address
0x9000) makes frame 1 resolve to 0x9000 and cache 0x9000; the cached address
changes in the build with `CONFIG_HAX_EPT2` as well. -/
theorem c21_frame_alias_defect :
    (1 : Nat) ≠ 2 ^ 50 + 1 ∧ 2 ^ 50 + 1 < 2 ^ 64 ∧
    hax_gpfn_to_hpa Config.legacy64 gpa_space_t.empty vm_frame1 1 = some 0x5000 ∧
    hax_gpfn_to_hva Config.legacy64 vm_frame1 1 = some 0x7000 ∧
    (hax_core_set_p2m Config.legacy64 true 0 vm_frame1 [] (2 ^ 50 + 1) 9 0x9000 0).1 = 1 ∧
    hax_gpfn_to_hpa Config.legacy64 gpa_space_t.empty
      (hax_core_set_p2m Config.legacy64 true 0 vm_frame1 [] (2 ^ 50 + 1) 9 0x9000 0).2.1 1
      = some 0x9000 ∧
    hax_gpfn_to_hva Config.legacy64
      (hax_core_set_p2m Config.legacy64 true 0 vm_frame1 [] (2 ^ 50 + 1) 9 0x9000 0).2.1 1
      = some 0x9000 ∧
    (hax_core_set_p2m Config.ept2 true 0 vm_frame1 [] (2 ^ 50 + 1) 9 0x9000 0).1 = 1 ∧
    hax_gpfn_to_hva Config.ept2
      (hax_core_set_p2m Config.ept2 true 0 vm_frame1 [] (2 ^ 50 + 1) 9 0x9000 0).2.1 1
      = some 0x9000 ∧
    (set_p2m_mapping Config.legacy64 true 0 vm_frame1 [] 1 0x7000 0x5000).1 = 0 ∧
    (set_p2m_mapping Config.legacy64 true 0 vm_frame1 [] (2 ^ 50 + 1) 0x9000 0x9000).1 = 0 ∧
    hax_get_p2m_entry Config.legacy64 vm_frame1 1 = some (some (0, 1)) ∧
    hax_get_p2m_entry Config.legacy64 vm_frame1 (2 ^ 50 + 1) = some (some (0, 1)) := by
  refine ⟨by decide, by decide, by decide, by decide, by decide, by decide, by decide,
    by decide, by decide, by decide, by decide, by decide, by decide⟩

/-- Two frames with the same table position are one frame to the table:
`hax_get_p2m_entry` yields the same entry for both on every VM, so both
lookups agree. -/
theorem same_position_same_entry (cfg : Config) (gs : gpa_space_t) (vm : vm_t) (a b : Nat)
    (hg : cfg.gpfn_to_g a % 2 ^ 32 = cfg.gpfn_to_g b % 2 ^ 32)
    (hi : cfg.gpfn_in_g a % 2 ^ 32 = cfg.gpfn_in_g b % 2 ^ 32) :
    hax_get_p2m_entry cfg vm a = hax_get_p2m_entry cfg vm b ∧
    hax_gpfn_to_hva cfg vm a = hax_gpfn_to_hva cfg vm b ∧
    (cfg.CONFIG_HAX_EPT2 = false →
      hax_gpfn_to_hpa cfg gs vm a = hax_gpfn_to_hpa cfg gs vm b) := by
  have he : hax_get_p2m_entry cfg vm a = hax_get_p2m_entry cfg vm b := by
    simp only [hax_get_p2m_entry, hg, hi]
  refine ⟨he, by simp only [hax_gpfn_to_hva, he], fun hcfg => ?_⟩
  simp only [hax_gpfn_to_hpa, hcfg, Bool.false_eq_true, ↓reduceIte, he]

/-- The number that the loop of `gpfn_to_hva_recycle` adds to `count` is the
number of slots walked that pass the test of vm.c:517-518, occupied or not. -/
theorem gpfn_to_hva_recycle_loop_count (cfg : Config) (cr3_cur : Nat) (flag : Bool) :
    ∀ (n i : Nat) (vm : vm_t) (tr : List Ev) (count : Nat) (lst : Nat → hva_entry)
      (r : vm_t × List Ev × Nat),
    vm.hva_list = some lst →
    gpfn_to_hva_recycle_loop cfg cr3_cur flag n i vm tr count = some r →
    r.2.2 = count +
      ((List.range' i n).filter fun k => recycle_selects cr3_cur flag (lst k)).length := by
  intro n
  induction n with
  | zero =>
    intro i vm tr count lst r _ h
    simp only [gpfn_to_hva_recycle_loop, Option.some.injEq] at h
    subst h
    simp
  | succ n ih =>
    intro i vm tr count lst r hl h
    have hr : List.range' i (n + 1) = i :: List.range' (i + 1) n := rfl
    rw [hr]
    by_cases hc : (flag || (decide ((lst i).gcr3 ≠ cr3_cur) && !(lst i).is_kern)) = true
    · have hsel : recycle_selects cr3_cur flag (lst i) = true := hc
      cases he : recycle_total_evict cfg false lst i vm tr with
      | none =>
        simp only [gpfn_to_hva_recycle_loop, hl, hc, ↓reduceIte, he] at h
        exact absurd h (by simp)
      | some r1 =>
        have hstep : gpfn_to_hva_recycle_loop cfg cr3_cur flag (n + 1) i vm tr count
            = gpfn_to_hva_recycle_loop cfg cr3_cur flag n (i + 1) r1.1 r1.2 (count + 1) := by
          simp only [gpfn_to_hva_recycle_loop, hl, hc, ↓reduceIte, he]
        rw [hstep] at h
        obtain ⟨e1, _⟩ := recycle_evict_spec cfg lst i vm tr r1 he
        have := ih (i + 1) r1.1 r1.2 (count + 1) _ r e1 h
        rw [this]
        simp only [List.filter_cons, hsel, ↓reduceIte, List.length_cons]
        have hcongr : (List.range' (i + 1) n).filter
            (fun k => recycle_selects cr3_cur flag (Function.update lst i hva_entry.zero k))
            = (List.range' (i + 1) n).filter
                (fun k => recycle_selects cr3_cur flag (lst k)) := by
          apply List.filter_congr
          intro k hk
          have hk2 : i + 1 ≤ k := (List.mem_range'_1.mp hk).1
          have hne : k ≠ i := by omega
          simp only [Function.update_noteq hne]
        rw [hcongr]
        omega
    · have hsel : recycle_selects cr3_cur flag (lst i) = false := Bool.eq_false_iff.mpr hc
      have hstep : gpfn_to_hva_recycle_loop cfg cr3_cur flag (n + 1) i vm tr count
          = gpfn_to_hva_recycle_loop cfg cr3_cur flag n (i + 1) vm tr count := by
        simp only [gpfn_to_hva_recycle_loop, hl, hc]
        rfl
      rw [hstep] at h
      rw [ih (i + 1) vm tr count lst r hl h]
      simp only [List.filter_cons, hsel, Bool.false_eq_true, ↓reduceIte]

/-- What `gpfn_to_hva_recycle` returns on a VM with a primary window: the
number of slots below `top` that pass its test on the root and the
kernel-exempt mark, whether a page is recorded in them or not. -/
theorem gpfn_to_hva_recycle_count (cfg : Config) (vm : vm_t) (tr : List Ev) (cr3_cur : Nat)
    (flag : Bool) (lst : Nat → hva_entry) (r : Nat × vm_t × List Ev)
    (hl : vm.hva_list = some lst)
    (h : gpfn_to_hva_recycle cfg vm tr cr3_cur flag = some r) :
    r.1 = ((List.range
        ((cfg.HOST_VIRTUAL_ADDR_LIMIT - cfg.HOST_VIRTUAL_ADDR_RECYCLE) / 4096)).filter
      fun k => recycle_selects cr3_cur flag (lst k)).length := by
  simp only [gpfn_to_hva_recycle, hl] at h
  cases hq : gpfn_to_hva_recycle_loop cfg cr3_cur flag
      ((cfg.HOST_VIRTUAL_ADDR_LIMIT - cfg.HOST_VIRTUAL_ADDR_RECYCLE) / 4096) 0 vm tr 0 with
  | none => rw [hq] at h; exact absurd h (by simp)
  | some q =>
    rw [hq] at h
    simp only [Option.map_some', Option.some.injEq] at h
    subst h
    have := gpfn_to_hva_recycle_loop_count cfg cr3_cur flag _ 0 vm tr 0 lst q hl hq
    rw [List.range_eq_range']
    simpa using this

end Haxm
